import Mathlib

/-!
# isotree: the forest-construction engine of `src/fit_model.hpp`

A shallow embedding of `fit_iforest`, `add_tree` and `fit_itree`.

Conventions of the embedding
* `size_t` and `uint64_t` are natural numbers; where the source can wrap
  (`sample_size - 1`, `random_seed + tree_num`) the result is reduced modulo `2 ^ 64`.
* `double`, `long double` and `real_t` are exact rationals; the one floating-point sum on
  which the code branches (line 920 of `fit_itree`) is rounded to the nearest `double`.
* A pointer argument that may be `NULL` is an `Option`; the pair of model pointers
  `model_outputs` / `model_outputs_ext`, of which the documentation requires exactly one
  to be non-`NULL`, is one value of the sum type `Model`.
* A C++ exception is a value of `Failure`; code that can raise returns the state it
  reached together with the failure.
* Routines and classes that `fit_model.hpp` calls but that are declared elsewhere in the
  repository are the fields of `Env`. Scratch buffers that such a routine only uses as
  work space are not among its arguments, and what it writes to them is not tracked.
* The OpenMP loop of `fit_iforest` is a sequence of atomic steps, an iteration starting
  (the test of line 486 and the build) or a `catch` block running, in an order that the
  `Run` of the call fixes; reads of `interrupt_switch` and `threw_exception` see the
  latest value.
* `TreeBuild.seeded`, `BuildCall` and `LoopEvent` record what the code did (which builds
  were invoked, with which seed, which exceptions were captured); they have no
  counterpart in the C++ state.
-/

namespace Isotree

/-! ## Machine integers and `std::vector` helpers -/

/-- Largest value of `size_t` (64-bit target). -/
def SIZE_MAX : Nat := 2 ^ 64 - 1

/-- Unsigned 64-bit addition, as in `model_params.random_seed + tree_num`. -/
def add64 (a b : Nat) : Nat := (a + b) % 2 ^ 64

/-- Unsigned 64-bit subtraction of in-range operands, as in `sample_size - 1`. -/
def sub64 (a b : Nat) : Nat := (a + 2 ^ 64 - b) % 2 ^ 64

/-- Unsigned 64-bit multiplication, as in `2 * model_params.sample_size`. -/
def mul64 (a b : Nat) : Nat := (a * b) % 2 ^ 64

/-! ### Addition of `double` values

Real-valued quantities are exact rationals. Where the program branches on the result of a
floating-point addition, the sum is rounded as IEEE 754 binary64 does (round to nearest,
ties to even) with the exponent range taken as unbounded: overflow, subnormal numbers,
infinities and NaN are not represented. -/

/-- The power of two `2^e` as a rational, for an exponent of either sign. -/
def pow2 (e : Int) : ℚ :=
  if 0 ≤ e then ((2 ^ e.toNat : Nat) : ℚ) else 1 / ((2 ^ (-e).toNat : Nat) : ℚ)

/-- Halving `n` until it is below 2, at most `fuel` times: the number of halvings. -/
def ilog2_fuel : Nat → Nat → Nat
  | 0, _ => 0
  | fuel + 1, n => if n < 2 then 0 else ilog2_fuel fuel (n / 2) + 1

/-- The position of the leading binary digit of `n` (0 for `n = 0`). -/
def ilog2 (n : Nat) : Nat := ilog2_fuel n n

/-- The binary exponent `e` of a non-zero rational `q`: `2^e ≤ |q| < 2^(e+1)`. -/
def binary_exponent (q : ℚ) : Int :=
  let e0 : Int := (ilog2 q.num.natAbs : Int) - (ilog2 q.den : Int)
  if pow2 e0 ≤ |q| then e0 else e0 - 1

/-- Rounding to the nearest integer, a tie going to the even one. -/
def round_half_even (x : ℚ) : Int :=
  let f := x.floor
  let r := x - f
  if r < 1 / 2 then f
  else if 1 / 2 < r then f + 1
  else if f % 2 = 0 then f else f + 1

/-- The `double` nearest to `q`: a significand of 53 binary digits, ties to even. -/
def round_double (q : ℚ) : ℚ :=
  if q = 0 then 0
  else
    let ulp := pow2 (binary_exponent q - 52)
    (round_half_even (q / ulp) : ℚ) * ulp

/-- The sum `x + y` of two `double` values, as the machine computes it. -/
def double_add (x y : ℚ) : ℚ := round_double (x + y)

/-- The `double` written `0.7`. -/
def double_0_7 : ℚ := 3152519739159347 / 2 ^ 52

/-- The `double` written `0.3`. -/
def double_0_3 : ℚ := 5404319552844595 / 2 ^ 54

/-- Conversion `(size_t)nthreads` of a signed `int`. -/
def size_of_int (i : Int) : Nat := (i % (2 ^ 64 : Int)).toNat

/-- Member `std::vector::resize(n, d)`: truncate to `n` elements or pad with `d`. -/
def resize {α : Type} (v : List α) (n : Nat) (d : α) : List α :=
  v.take n ++ List.replicate (n - v.length) d

/-- Member `std::vector::pop_back()`. -/
def pop_back {α : Type} (v : List α) : List α := v.dropLast

/-- Assignment `m[k] = x` on a `hashed_map`, kept as an association list. -/
def map_assign {α : Type} (m : List (Nat × α)) (k : Nat) (x : α) : List (Nat × α) :=
  if m.any (fun p => p.1 == k) then m.map (fun p => if p.1 == k then (k, x) else p)
  else m ++ [(k, x)]

/-! ## Enumerations and records declared in `isotree.hpp` -/

inductive MissingAction
  | Divide | Impute | Fail
  deriving DecidableEq, Repr

inductive CategSplit
  | SubSet | SingleCateg
  deriving DecidableEq, Repr

inductive NewCategAction
  | Weighted | Smallest | Random
  deriving DecidableEq, Repr

inductive CoefType
  | Normal | Uniform
  deriving DecidableEq, Repr

inductive UseDepthImp
  | Lower | Higher | Same
  deriving DecidableEq, Repr

inductive WeighImpRows
  | Inverse | Proportional | Flat
  deriving DecidableEq, Repr

/-- A raised C++ exception, by origin: a `std::runtime_error` thrown by a `throw`
statement of `fit_model.hpp` (or by `check_interrupt_switch`), or an exception escaping a
routine called while a tree is built or a vector is grown (for instance `std::bad_alloc`),
told apart by a tag. -/
inductive Failure
  | runtime_error (what : String)
  | escaped (tag : Nat)
  deriving DecidableEq, Repr

/-- Node of a single-variable tree. Its fields are never read in `fit_model.hpp`;
`content` stands for them, `0` being the default-constructed node. -/
structure IsoTree where
  content : Nat := 0
  deriving DecidableEq, Repr

/-- Node of a hyperplane tree (extended model), see `IsoTree`. -/
structure IsoHPlane where
  content : Nat := 0
  deriving DecidableEq, Repr

/-- Node of an imputer tree; constructed from the index of its parent. -/
structure ImputeNode where
  parent : Nat
  content : Nat := 0
  deriving DecidableEq, Repr

/-- Per-row record of missing cells and their imputation candidates. -/
structure ImputedData where
  content : Nat := 0
  deriving DecidableEq, Repr

/-- Single-variable model object. -/
structure IsoForest where
  trees : List (List IsoTree)
  new_cat_action : NewCategAction
  cat_split_type : CategSplit
  missing_action : MissingAction
  exp_avg_depth : ℚ
  exp_avg_sep : ℚ
  orig_sample_size : Nat
  has_range_penalty : Bool
  deriving DecidableEq, Repr

/-- Extended model object. -/
structure ExtIsoForest where
  hplanes : List (List IsoHPlane)
  new_cat_action : NewCategAction
  cat_split_type : CategSplit
  missing_action : MissingAction
  exp_avg_depth : ℚ
  exp_avg_sep : ℚ
  orig_sample_size : Nat
  has_range_penalty : Bool
  deriving DecidableEq, Repr

/-- Imputer object: one sequence of impute nodes per tree, plus column statistics. -/
structure Imputer where
  ncols_numeric : Nat
  ncols_categ : Nat
  ncat : List Int
  imputer_tree : List (List ImputeNode)
  col_means : List ℚ
  col_modes : List Int
  deriving DecidableEq, Repr

/-- The model object a call works on: `single f` is `model_outputs != NULL`,
`extended f` is `model_outputs == NULL` with `model_outputs_ext` pointing to `f`. -/
inductive Model
  | single (f : IsoForest)
  | extended (f : ExtIsoForest)
  deriving DecidableEq, Repr

/-- Test `model_outputs != NULL`. -/
def Model.is_single : Model → Bool
  | .single _ => true
  | .extended _ => false

/-- Number of trees, `trees.size()` or `hplanes.size()`. -/
def Model.ntrees : Model → Nat
  | .single f => f.trees.length
  | .extended f => f.hplanes.length

/-- Flag `has_range_penalty` of whichever model object is present. -/
def Model.has_range_penalty : Model → Bool
  | .single f => f.has_range_penalty
  | .extended f => f.has_range_penalty

/-- The slot a tree build writes to: `tree_root != NULL` or `hplane_root != NULL`. -/
inductive TreeSlot
  | tree (nodes : List IsoTree)
  | hplane (nodes : List IsoHPlane)
  deriving DecidableEq, Repr

/-- Test `tree_root != NULL`. -/
def TreeSlot.is_tree : TreeSlot → Bool
  | .tree _ => true
  | .hplane _ => false

/-- Number of nodes in the slot. -/
def TreeSlot.size : TreeSlot → Nat
  | .tree n => n.length
  | .hplane n => n.length

/-- Slot `t` of the model, `&model_outputs->trees[t]` or `&model_outputs_ext->hplanes[t]`. -/
def Model.slot (m : Model) (t : Nat) : TreeSlot :=
  match m with
  | .single f => .tree (f.trees.getD t [])
  | .extended f => .hplane (f.hplanes.getD t [])

/-- Write a slot back at position `t`; a slot of the other kind is not stored. -/
def Model.set_slot (m : Model) (t : Nat) (s : TreeSlot) : Model :=
  match m, s with
  | .single f, .tree n => .single { f with trees := f.trees.set t n }
  | .extended f, .hplane n => .extended { f with hplanes := f.hplanes.set t n }
  | m, _ => m

/-- Dataset view, `InputData`, in the field order of its aggregate initialisation. -/
structure InputData where
  numeric_data : Option (List (Option ℚ))
  ncols_numeric : Nat
  categ_data : Option (List Int)
  ncat : List Int
  max_categ : Int
  ncols_categ : Nat
  nrows : Nat
  ncols_tot : Nat
  sample_weights : Option (List ℚ)
  weight_as_sample : Bool
  col_weights : Option (List ℚ)
  Xc : Option (List (Option ℚ))
  Xc_ind : Option (List Nat)
  Xc_indptr : Option (List Nat)
  log2_n : Nat
  btree_offset : Nat
  btree_weights_init : List ℚ
  has_missing : List Int
  n_missing : Nat
  deriving DecidableEq, Repr

/-- Per-fit configuration, `ModelParams`, in the field order of its aggregate initialisation. -/
structure ModelParams where
  with_replacement : Bool
  sample_size : Nat
  ntrees : Nat
  ncols_per_tree : Nat
  max_depth : Nat
  penalize_range : Bool
  standardize_data : Bool
  random_seed : Nat
  weigh_by_kurt : Bool
  prob_pick_by_gain_avg : ℚ
  prob_pick_by_gain_pl : ℚ
  min_gain : ℚ
  cat_split_type : CategSplit
  new_cat_action : NewCategAction
  missing_action : MissingAction
  all_perm : Bool
  ndim : Nat
  ntry : Nat
  coef_type : CoefType
  coef_by_prop : Bool
  calc_dist : Bool
  calc_depth : Bool
  impute_at_fit : Bool
  depth_imp : UseDepthImp
  weigh_imp_rows : WeighImpRows
  min_imp_obs : Nat
  deriving DecidableEq, Repr

/-- State of the random engine: the value it was last seeded with and the number of raw
draws taken since. `seed` of the C++ engine resets both. -/
structure RndGenerator where
  seed : Nat := 0
  ndraws : Nat := 0
  deriving DecidableEq, Repr

/-- Member `rnd_generator.seed(s)`. -/
def RndGenerator.reseed (s : Nat) : RndGenerator := { seed := s, ndraws := 0 }

/-- A member call made on the `ColumnSampler` object of a worker. The class is declared
elsewhere; its state is represented by the sequence of calls made on it. -/
inductive SamplerCall
  | init_weights (weights : List ℚ) (n_cols : Nat)
  | init_uniform (n_cols : Nat)
  | leave_m_cols (m : Nat)
  deriving DecidableEq, Repr

/-- Worker scratch state, `WorkerMemory`: the members that `fit_model.hpp` touches.
A distribution object (`rbin`, `coef_norm`, `coef_unif`) is the count of variates drawn
from it since it was constructed. -/
structure WorkerMemory where
  ix_arr : List Nat := []
  ix_all : List Nat := []
  rnd_generator : RndGenerator := {}
  rbin : Nat := 0
  st : Nat := 0
  end_ : Nat := 0
  categs : List Int := []
  col_sampler : List SamplerCall := []
  comb_val : List ℚ := []
  col_take : List Nat := []
  col_take_type : List Nat := []
  ext_offset : List ℚ := []
  ext_coef : List ℚ := []
  ext_mean : List ℚ := []
  ext_fill_val : List ℚ := []
  ext_fill_new : List ℚ := []
  chosen_cat : List Int := []
  ext_cat_coef : List (List ℚ) := []
  coef_norm : Nat := 0
  coef_unif : Nat := 0
  sample_weights : List ℚ := []
  weights_arr : List ℚ := []
  weights_map : List (Nat × ℚ) := []
  changed_weights : Bool := false
  btree_weights : List ℚ := []
  is_repeated : List Bool := []
  buffer_dbl : List ℚ := []
  buffer_szt : List Nat := []
  buffer_chr : List Int := []
  this_split_categ : List Int := []
  try_all : Bool := false
  row_depths : List ℚ := []
  tmat_sep : List ℚ := []
  impute_vec : List ImputedData := []
  impute_map : List (Nat × ImputedData) := []
  deriving DecidableEq, Repr

/-- Row weights as the kurtosis routines receive them: the unweighted overload, the
overload taking `weights_arr`, or the one taking `weights_map`. -/
inductive RowWeights
  | unweighted
  | arr (w : List ℚ)
  | map (w : List (Nat × ℚ))
  deriving DecidableEq, Repr

/-- Result of `sample_random_rows`: the arguments it takes by reference. -/
structure SampleOut where
  ix_arr : List Nat
  rnd_generator : RndGenerator
  ix_all : List Nat
  btree_weights : List ℚ
  is_repeated : List Bool
  deriving DecidableEq, Repr

/-- State left by a recursive split routine: the node vector, the worker memory and the
impute nodes it was given by reference, and the exception it raised, if any. -/
structure SplitOut (α : Type) where
  nodes : List α
  workspace : WorkerMemory
  impute_nodes : Option (List ImputeNode)
  raised : Option Nat

/-- Routines declared elsewhere in the repository and called from `fit_model.hpp`. -/
structure Env where
  sample_random_rows : List Nat → Nat → Bool → RndGenerator → List Nat → Option (List ℚ) →
    List ℚ → Nat → Nat → List Bool → Except Nat SampleOut
  calc_kurtosis_dense : List Nat → Nat → Nat → List (Option ℚ) → MissingAction → RowWeights → ℚ
  calc_kurtosis_sparse : List Nat → Nat → Nat → Nat → List (Option ℚ) → List Nat → List Nat →
    MissingAction → RowWeights → ℚ
  calc_kurtosis_categ : List Nat → Nat → Nat → List Int → Int → MissingAction → CategSplit →
    RndGenerator → RowWeights → ℚ × RndGenerator
  leave_m_cols_rng : List SamplerCall → Nat → RndGenerator → RndGenerator
  split_itree_recursive : List IsoTree → WorkerMemory → InputData → ModelParams →
    Option (List ImputeNode) → Nat → SplitOut IsoTree
  split_hplane_recursive : List IsoHPlane → WorkerMemory → InputData → ModelParams →
    Option (List ImputeNode) → Nat → SplitOut IsoHPlane
  drop_nonterminal_imp_node : List ImputeNode → TreeSlot → List ImputeNode
  pow2 : Nat → Nat
  log2ceil : Nat → Nat
  expected_avg_depth : Nat → ℚ
  expected_separation_depth : Nat → ℚ
  build_btree_sampler : List ℚ → Nat → List ℚ × Nat × Nat
  check_for_missing : InputData → Int → InputData × List ImputedData × List (Nat × ImputedData)
  init_imputer : Imputer → InputData → Nat → Int → Imputer
  gather_sim_result : List WorkerMemory → InputData → Model → List ℚ → Nat → Bool → Int → List ℚ
  combine_tree_imputations : WorkerMemory → List ImputedData → List (Nat × ImputedData) →
    List Int → Int → List ImputedData × List (Nat × ImputedData)
  apply_imputation_results : List ImputedData → List (Nat × ImputedData) → Imputer →
    InputData → Int → Imputer × InputData
  exp2 : ℚ → ℚ

/-! ## `fit_itree` -/

/-- Lines 899-909: depth array, row-index array, sampling tree, seeding of the random
engine with `random_seed + tree_num`, fresh unit-interval distribution. -/
def fit_itree_begin (workspace : WorkerMemory) (input_data : InputData)
    (model_params : ModelParams) (tree_num : Nat) : WorkerMemory :=
  let ws1 : WorkerMemory :=
    if workspace.ix_arr.isEmpty && model_params.calc_depth then
      { workspace with row_depths := resize workspace.row_depths input_data.nrows 0 }
    else workspace
  let ws2 : WorkerMemory :=
    if ws1.ix_arr.isEmpty then { ws1 with ix_arr := resize ws1.ix_arr model_params.sample_size 0 }
    else ws1
  let ws3 : WorkerMemory :=
    if input_data.log2_n > 0 then { ws2 with btree_weights := input_data.btree_weights_init }
    else ws2
  let ws4 : WorkerMemory :=
    { ws3 with rnd_generator := RndGenerator.reseed (add64 model_params.random_seed tree_num) }
  { ws4 with rbin := 0 }

/-- Lines 910-916: the call of `sample_random_rows` for the rows of the tree, then
`st = 0` and `end = sample_size - 1`. -/
def fit_itree_sample (env : Env) (ws : WorkerMemory) (input_data : InputData)
    (model_params : ModelParams) : Except Failure WorkerMemory :=
  match env.sample_random_rows ws.ix_arr input_data.nrows model_params.with_replacement
      ws.rnd_generator ws.ix_all
      (if input_data.weight_as_sample then input_data.sample_weights else none)
      ws.btree_weights input_data.log2_n input_data.btree_offset ws.is_repeated with
  | .error tag => .error (Failure.escaped tag)
  | .ok o =>
    .ok { ws with
          ix_arr := o.ix_arr, rnd_generator := o.rnd_generator, ix_all := o.ix_all,
          btree_weights := o.btree_weights, is_repeated := o.is_repeated,
          st := 0, end_ := sub64 model_params.sample_size 1 }

/-- Lines 919-922: whether column weights cannot be used for this tree. The two
probabilities are `double`s and line 920 compares their machine sum with `1`. -/
def avoid_col_weights (is_tree : Bool) (input_data : InputData) (model_params : ModelParams) :
    Bool :=
  (is_tree && decide (model_params.ndim < 2) &&
      decide (double_add model_params.prob_pick_by_gain_avg
        model_params.prob_pick_by_gain_pl ≥ 1))
    || (!is_tree && decide (model_params.ndim ≥ input_data.ncols_tot))

/-- Lines 923-924: hand the supplied column weights to the column sampler. -/
def fit_itree_col_weights (is_tree : Bool) (ws : WorkerMemory) (input_data : InputData)
    (model_params : ModelParams) : WorkerMemory :=
  match input_data.col_weights with
  | some w =>
    if !avoid_col_weights is_tree input_data model_params then
      { ws with col_sampler := ws.col_sampler ++ [SamplerCall.init_weights w input_data.ncols_tot] }
    else ws
  | none => ws

/-- Lines 928-933: the node count reserved for the tree (capacity only). -/
def exp_nodes (env : Env) (model_params : ModelParams) : Nat :=
  if model_params.sample_size ≥ SIZE_MAX / 2 then SIZE_MAX
  else if model_params.max_depth ≤ 30 then
    min (mul64 2 model_params.sample_size) (env.pow2 model_params.max_depth)
  else mul64 2 model_params.sample_size

/-- Lines 934-943: append the root node to the slot. -/
def add_root (slot : TreeSlot) : TreeSlot :=
  match slot with
  | .tree n => .tree (n ++ [{}])
  | .hplane n => .hplane (n ++ [{}])

/-- Lines 944-948: append the root impute node, whose parent index is `0`. -/
def add_root_impute (impute_nodes : Option (List ImputeNode)) : Option (List ImputeNode) :=
  impute_nodes.map (fun v => v ++ [{ parent := 0 }])

/-- Lines 951-1009: candidate-category array, fresh coefficient distributions and the extra
vectors of the extended model. -/
def fit_itree_scratch (is_tree : Bool) (ws : WorkerMemory) (input_data : InputData)
    (model_params : ModelParams) : WorkerMemory :=
  let ws1 : WorkerMemory :=
    if ws.categs.isEmpty then { ws with categs := resize ws.categs input_data.max_categ.toNat 0 }
    else ws
  let ws2 : WorkerMemory :=
    if !is_tree then
      let a : WorkerMemory :=
        if input_data.ncols_categ ≠ 0 ∨ model_params.coef_type = CoefType.Normal then
          { ws1 with coef_norm := 0 }
        else ws1
      if model_params.coef_type = CoefType.Uniform then { a with coef_unif := 0 } else a
    else ws1
  if !is_tree && ws2.comb_val.isEmpty then
    let b : WorkerMemory :=
      { ws2 with
        comb_val := resize ws2.comb_val model_params.sample_size 0,
        col_take := resize ws2.col_take model_params.ndim 0,
        col_take_type := resize ws2.col_take_type model_params.ndim 0 }
    let c : WorkerMemory :=
      if input_data.ncols_numeric ≠ 0 then
        { b with
          ext_offset := resize b.ext_offset input_data.ncols_tot 0,
          ext_coef := resize b.ext_coef input_data.ncols_tot 0,
          ext_mean := resize b.ext_mean input_data.ncols_tot 0 }
      else b
    let d : WorkerMemory :=
      if input_data.ncols_categ ≠ 0 then
        let d1 : WorkerMemory :=
          { c with ext_fill_new := resize c.ext_fill_new input_data.max_categ.toNat 0 }
        match model_params.cat_split_type with
        | .SingleCateg =>
          { d1 with chosen_cat := resize d1.chosen_cat input_data.max_categ.toNat 0 }
        | .SubSet =>
          { d1 with
            ext_cat_coef :=
              (resize d1.ext_cat_coef input_data.ncols_tot []).map
                (fun v => resize v input_data.max_categ.toNat 0) }
      else c
    { d with ext_fill_val := resize d.ext_fill_val input_data.ncols_tot 0 }
  else ws2

/-- Sum of `sample_weights[ix]` over the row-index array (with multiplicity). -/
def sum_sample_weights (sample_weights : List ℚ) (ix_arr : List Nat) : ℚ :=
  ix_arr.foldl (fun a ix => a + sample_weights.getD ix 0) 0

/-- Lines 1035-1040: density weights in the sparse-map form. -/
def density_weights_map (sample_weights : List ℚ) (ix_arr : List Nat) (sample_size : Nat) :
    List (Nat × ℚ) :=
  let weight_scaling : ℚ := (sample_size : ℚ) / sum_sample_weights sample_weights ix_arr
  ix_arr.foldl (fun m ix => map_assign m ix (sample_weights.getD ix 0 * weight_scaling)) []

/-- Lines 1046-1057: density weights in the array form, array created for this tree. -/
def density_weights_arr_fresh (sample_weights : List ℚ) (nrows : Nat) (ix_arr : List Nat)
    (sample_size : Nat) : List ℚ :=
  let weight_scaling : ℚ := (sample_size : ℚ) / sum_sample_weights sample_weights ix_arr
  (sample_weights.take nrows).map (fun w => w * weight_scaling)

/-- Lines 1059-1069: density weights in the array form, re-filled over the array that an
earlier tree of the same worker left. -/
def density_weights_arr_refill (weights_arr : List ℚ) (sample_weights : List ℚ)
    (ix_arr : List Nat) (sample_size : Nat) : List ℚ :=
  let weight_scaling : ℚ := (sample_size : ℚ) / sum_sample_weights sample_weights ix_arr
  (ix_arr.foldl (fun a ix => a.set ix (sample_weights.getD ix 0)) weights_arr).map
    (fun w => w * weight_scaling)

/-- Lines 1011-1072: standardise the density weights to sum up to the sample size. -/
def fit_itree_density_weights (is_tree : Bool) (ws : WorkerMemory) (input_data : InputData)
    (model_params : ModelParams) : WorkerMemory :=
  let ws1 : WorkerMemory := { ws with changed_weights := false }
  let ws2 : WorkerMemory := if is_tree then { ws1 with weights_map := [] } else ws1
  match input_data.sample_weights with
  | none => ws2
  | some sw =>
    if input_data.weight_as_sample then ws2
    else
      let ws3 : WorkerMemory := { ws2 with changed_weights := true }
      if !(!is_tree && (!ws3.weights_map.isEmpty || !ws3.weights_arr.isEmpty)
            && decide (model_params.sample_size = input_data.nrows)) then
        let ws4 : WorkerMemory := { ws3 with weights_map := [] }
        if input_data.Xc_indptr.isSome
            && decide (model_params.sample_size < input_data.nrows / 50) then
          { ws4 with weights_map := density_weights_map sw ws4.ix_arr model_params.sample_size }
        else if ws4.weights_arr.isEmpty then
          { ws4 with
            weights_arr :=
              density_weights_arr_fresh sw input_data.nrows ws4.ix_arr model_params.sample_size }
        else
          { ws4 with
            weights_arr :=
              density_weights_arr_refill ws4.weights_arr sw ws4.ix_arr model_params.sample_size }
      else ws3

/-- Lines 1074-1076: the triangular separation matrix of the worker. -/
def fit_itree_tmat (ws : WorkerMemory) (input_data : InputData) (model_params : ModelParams) :
    WorkerMemory :=
  if model_params.calc_dist && ws.tmat_sep.isEmpty then
    { ws with
      tmat_sep := resize ws.tmat_sep (mul64 input_data.nrows (sub64 input_data.nrows 1) / 2) 0 }
  else ws

/-- Lines 1091-1092: whether some split is chosen by a gain criterion. -/
def uses_gain (model_params : ModelParams) : Bool :=
  decide (model_params.prob_pick_by_gain_avg > 0) || decide (model_params.prob_pick_by_gain_pl > 0)

/-- Lines 1087-1140: minimum size required of `buffer_dbl` for the current tree. -/
def min_size_dbl (env : Env) (is_tree : Bool) (input_data : InputData)
    (model_params : ModelParams) : Nat :=
  let gain := uses_gain model_params
  let m1 : Nat := if input_data.ncols_categ ≠ 0 then (input_data.max_categ + 1).toNat else 0
  let m2 : Nat :=
    if input_data.Xc_indptr.isSome && gain then max m1 model_params.sample_size else m1
  let m3 : Nat :=
    if decide (model_params.ntry > 1) && (!is_tree || gain) then
      let a := max m2 model_params.sample_size
      if decide (model_params.ndim < 2) && input_data.Xc_indptr.isSome then
        max a (mul64 2 model_params.sample_size)
      else a
    else m2
  if !is_tree then
    let b := max m3 (env.pow2 (env.log2ceil input_data.ncols_tot + 1))
    let c := if model_params.missing_action ≠ MissingAction.Fail then max b model_params.sample_size
             else b
    if input_data.ncols_categ ≠ 0 ∧ model_params.cat_split_type = CategSplit.SubSet then
      max c input_data.max_categ.toNat
    else c
  else m3

/-- Lines 1087-1140: minimum size required of `buffer_szt` for the current tree. -/
def min_size_szt (is_tree : Bool) (ws : WorkerMemory) (input_data : InputData)
    (model_params : ModelParams) : Nat :=
  let gain := uses_gain model_params
  let m1 : Nat := if input_data.ncols_categ ≠ 0 then (2 * input_data.max_categ).toNat else 0
  let m2 : Nat :=
    if input_data.Xc_indptr.isSome && gain then max m1 model_params.sample_size else m1
  if !is_tree then
    let c := if model_params.missing_action ≠ MissingAction.Fail then max m2 model_params.sample_size
             else m2
    let d :=
      if input_data.ncols_categ ≠ 0 ∧ model_params.cat_split_type = CategSplit.SubSet then
        max c (2 * input_data.max_categ.toNat + 1)
      else c
    let e := if model_params.weigh_by_kurt then max d input_data.ncols_tot else d
    if gain && (!ws.weights_arr.isEmpty || !ws.weights_map.isEmpty) then
      max e model_params.sample_size
    else e
  else m2

/-- Lines 1087-1100: minimum size required of `buffer_chr` for the current tree. -/
def min_size_chr (input_data : InputData) (model_params : ModelParams) : Nat :=
  if input_data.ncols_categ ≠ 0 then
    if uses_gain model_params && decide (model_params.cat_split_type = CategSplit.SubSet) then
      input_data.max_categ.toNat
    else 0
  else 0

/-- Lines 1078-1164: make space for the scratch buffers if not already allocated. -/
def fit_itree_buffers (env : Env) (is_tree : Bool) (ws : WorkerMemory) (input_data : InputData)
    (model_params : ModelParams) : WorkerMemory :=
  if (decide (model_params.prob_pick_by_gain_avg > 0) || decide (model_params.prob_pick_by_gain_pl > 0)
        || model_params.weigh_by_kurt || !is_tree)
      && (ws.buffer_dbl.isEmpty && ws.buffer_szt.isEmpty && ws.buffer_chr.isEmpty) then
    let ws1 : WorkerMemory :=
      if !is_tree && (uses_gain model_params
            && (!ws.weights_arr.isEmpty || !ws.weights_map.isEmpty)) then
        { ws with sample_weights := resize ws.sample_weights model_params.sample_size 0 }
      else ws
    let dbl := min_size_dbl env is_tree input_data model_params
    let szt := min_size_szt is_tree ws input_data model_params
    let chr := min_size_chr input_data model_params
    let ws2 : WorkerMemory :=
      if ws1.buffer_dbl.length < dbl then { ws1 with buffer_dbl := resize ws1.buffer_dbl dbl 0 }
      else ws1
    let ws3 : WorkerMemory :=
      if ws2.buffer_szt.length < szt then { ws2 with buffer_szt := resize ws2.buffer_szt szt 0 }
      else ws2
    let ws4 : WorkerMemory :=
      if ws3.buffer_chr.length < chr then { ws3 with buffer_chr := resize ws3.buffer_chr chr 0 }
      else ws3
    if decide (model_params.cat_split_type = CategSplit.SubSet)
        && (decide (model_params.prob_pick_by_gain_avg ≠ 0)
            || decide (model_params.prob_pick_by_gain_pl ≠ 0)) then
      { ws4 with this_split_categ := resize ws4.this_split_categ input_data.max_categ.toNat 0 }
    else ws4
  else ws

/-- The weights overload selected by `!weights_arr.size() && !weights_map.size()`,
`weights_arr.size()`, or neither. -/
def row_weights (ws : WorkerMemory) : RowWeights :=
  if ws.weights_arr.isEmpty && ws.weights_map.isEmpty then RowWeights.unweighted
  else if !ws.weights_arr.isEmpty then RowWeights.arr ws.weights_arr
  else RowWeights.map ws.weights_map

/-- The transformation `std::fmax(1e-8, -1. + w)` of a kurtosis into a column weight. -/
def kurt_to_weight (w : ℚ) : ℚ := max (1 / 100000000) (-1 + w)

/-- Kurtosis of numeric column `col` over the sample, dense or sparse input. -/
def kurtosis_numeric (env : Env) (ws : WorkerMemory) (input_data : InputData)
    (model_params : ModelParams) (col : Nat) : ℚ :=
  match input_data.Xc_indptr with
  | none =>
    env.calc_kurtosis_dense ws.ix_arr ws.st ws.end_
      ((input_data.numeric_data.getD []).drop (col * input_data.nrows))
      model_params.missing_action (row_weights ws)
  | some indptr =>
    env.calc_kurtosis_sparse ws.ix_arr ws.st ws.end_ col (input_data.Xc.getD [])
      (input_data.Xc_ind.getD []) indptr model_params.missing_action (row_weights ws)

/-- Kurtosis of categorical column `col` (index among the categorical columns); the routine
draws from the random engine of the worker. -/
def kurtosis_categ (env : Env) (ws : WorkerMemory) (input_data : InputData)
    (model_params : ModelParams) (col : Nat) : ℚ × RndGenerator :=
  env.calc_kurtosis_categ ws.ix_arr ws.st ws.end_
    ((input_data.categ_data.getD []).drop (col * input_data.nrows))
    (input_data.ncat.getD col 0) model_params.missing_action model_params.cat_split_type
    ws.rnd_generator (row_weights ws)

/-- Lines 1173-1239: kurtosis of every column; returns `kurt_weights` after the
transformation of line 1238 and the worker memory. -/
def kurt_weights_all (env : Env) (ws : WorkerMemory) (input_data : InputData)
    (model_params : ModelParams) : List ℚ × WorkerMemory :=
  let kw0 : List ℚ :=
    List.replicate (add64 input_data.ncols_numeric input_data.ncols_categ) 0
  let ws1 : WorkerMemory :=
    if input_data.Xc_indptr.isSome then
      { ws with ix_arr := ws.ix_arr.insertionSort (fun a b => a ≤ b) }
    else ws
  let kw1 : List ℚ :=
    (List.range input_data.ncols_numeric).foldl
      (fun kw col => kw.set col (kurtosis_numeric env ws1 input_data model_params col)) kw0
  let r : List ℚ × WorkerMemory :=
    (List.range input_data.ncols_categ).foldl
      (fun (acc : List ℚ × WorkerMemory) col =>
        let k := kurtosis_categ env acc.2 input_data model_params col
        (acc.1.set (col + input_data.ncols_numeric) k.1, { acc.2 with rnd_generator := k.2 }))
      (kw1, ws1)
  (r.1.map kurt_to_weight, r.2)

/-- Lines 1257-1323: kurtosis of the columns drawn for the tree only, each transformed
as it is computed. -/
def kurt_weights_some (env : Env) (ws : WorkerMemory) (input_data : InputData)
    (model_params : ModelParams) (cols_take : List Nat) (kw0 : List ℚ) : List ℚ × WorkerMemory :=
  cols_take.foldl
    (fun (acc : List ℚ × WorkerMemory) col =>
      if col < input_data.ncols_numeric then
        (acc.1.set col (kurt_to_weight (kurtosis_numeric env acc.2 input_data model_params col)),
          acc.2)
      else
        let k := kurtosis_categ env acc.2 input_data model_params (col - input_data.ncols_numeric)
        (acc.1.set col (kurt_to_weight k.1), { acc.2 with rnd_generator := k.2 }))
    (kw0, ws)

/-- Lines 1166-1327: weigh columns by kurtosis in the sample if required. -/
def fit_itree_kurtosis (env : Env) (is_tree : Bool) (ws : WorkerMemory) (input_data : InputData)
    (model_params : ModelParams) : Except Failure WorkerMemory :=
  if model_params.weigh_by_kurt && !avoid_col_weights is_tree input_data model_params then
    if model_params.ncols_per_tree = 0 ∨ model_params.ncols_per_tree ≥ input_data.ncols_tot then
      let r := kurt_weights_all env ws input_data model_params
      .ok { r.2 with
            col_sampler := r.2.col_sampler ++ [SamplerCall.init_weights r.1 r.1.length] }
    else
      let kw0 : List ℚ :=
        List.replicate (add64 input_data.ncols_numeric input_data.ncols_categ) 0
      match env.sample_random_rows (resize [] model_params.ncols_per_tree 0) input_data.ncols_tot
          false ws.rnd_generator [] none kw0 0 0 [] with
      | .error tag => .error (Failure.escaped tag)
      | .ok o =>
        let ws1 : WorkerMemory := { ws with rnd_generator := o.rnd_generator }
        let ws2 : WorkerMemory :=
          if input_data.Xc_indptr.isSome then
            { ws1 with ix_arr := ws1.ix_arr.insertionSort (fun a b => a ≤ b) }
          else ws1
        let r := kurt_weights_some env ws2 input_data model_params o.ix_arr o.btree_weights
        .ok { r.2 with
              col_sampler := r.2.col_sampler ++ [SamplerCall.init_weights r.1 r.1.length] }
  else .ok ws

/-- Lines 1329-1335: uniform initialisation of the column sampler, the column-dropping
step when columns are not weighted by kurtosis, and the `try_all` flag. -/
def fit_itree_col_sampler (env : Env) (is_tree : Bool) (ws : WorkerMemory)
    (input_data : InputData) (model_params : ModelParams) : WorkerMemory :=
  let ws1 : WorkerMemory :=
    { ws with col_sampler := ws.col_sampler ++ [SamplerCall.init_uniform input_data.ncols_tot] }
  let ws2 : WorkerMemory :=
    if !(model_params.weigh_by_kurt && !avoid_col_weights is_tree input_data model_params) then
      { ws1 with
        rnd_generator :=
          env.leave_m_cols_rng ws1.col_sampler model_params.ncols_per_tree ws1.rnd_generator,
        col_sampler := ws1.col_sampler ++ [SamplerCall.leave_m_cols model_params.ncols_per_tree] }
    else ws1
  let ws3 : WorkerMemory := { ws2 with try_all := false }
  if !is_tree && decide (model_params.ndim ≥ input_data.ncols_tot) then
    { ws3 with try_all := true }
  else ws3

/-- Outcome of one `fit_itree` call: the slot, the worker memory and the impute nodes as
the call left them, the random engine as it stood right after being seeded, and the
exception the call raised, if any. -/
structure TreeBuild where
  slot : TreeSlot
  workspace : WorkerMemory
  impute_nodes : Option (List ImputeNode)
  seeded : RndGenerator
  raised : Option Failure

/-- Lines 1338-1355: grow the tree from its root and keep the terminal impute nodes. -/
def fit_itree_grow (env : Env) (slot : TreeSlot) (ws : WorkerMemory) (input_data : InputData)
    (model_params : ModelParams) (impute_nodes : Option (List ImputeNode))
    (seeded : RndGenerator) : TreeBuild :=
  match slot with
  | .tree nodes =>
    let r := env.split_itree_recursive nodes ws input_data model_params impute_nodes 0
    match r.raised with
    | some tag =>
      { slot := .tree r.nodes, workspace := r.workspace, impute_nodes := r.impute_nodes,
        seeded := seeded, raised := some (Failure.escaped tag) }
    | none =>
      { slot := .tree r.nodes, workspace := r.workspace,
        impute_nodes := r.impute_nodes.map
          (fun v => env.drop_nonterminal_imp_node v (.tree r.nodes)),
        seeded := seeded, raised := none }
  | .hplane nodes =>
    let r := env.split_hplane_recursive nodes ws input_data model_params impute_nodes 0
    match r.raised with
    | some tag =>
      { slot := .hplane r.nodes, workspace := r.workspace, impute_nodes := r.impute_nodes,
        seeded := seeded, raised := some (Failure.escaped tag) }
    | none =>
      { slot := .hplane r.nodes, workspace := r.workspace,
        impute_nodes := r.impute_nodes.map
          (fun v => env.drop_nonterminal_imp_node v (.hplane r.nodes)),
        seeded := seeded, raised := none }

/-- The routine `fit_itree`: builds one tree into `slot` with the scratch state `workspace`.
Exceptions are raised by the callees `sample_random_rows`, `split_itree_recursive` and
`split_hplane_recursive`; allocation failure of the scratch vectors is not represented. -/
def fit_itree (env : Env) (slot : TreeSlot) (workspace : WorkerMemory) (input_data : InputData)
    (model_params : ModelParams) (impute_nodes : Option (List ImputeNode)) (tree_num : Nat) :
    TreeBuild :=
  let is_tree := slot.is_tree
  let ws0 := fit_itree_begin workspace input_data model_params tree_num
  match fit_itree_sample env ws0 input_data model_params with
  | .error e =>
    { slot := slot, workspace := ws0, impute_nodes := impute_nodes,
      seeded := ws0.rnd_generator, raised := some e }
  | .ok ws1 =>
    let ws2 := fit_itree_col_weights is_tree ws1 input_data model_params
    let slot1 := add_root slot
    let imp1 := add_root_impute impute_nodes
    let ws3 := fit_itree_scratch is_tree ws2 input_data model_params
    let ws4 := fit_itree_density_weights is_tree ws3 input_data model_params
    let ws5 := fit_itree_tmat ws4 input_data model_params
    let ws6 := fit_itree_buffers env is_tree ws5 input_data model_params
    match fit_itree_kurtosis env is_tree ws6 input_data model_params with
    | .error e =>
      { slot := slot1, workspace := ws6, impute_nodes := imp1,
        seeded := ws0.rnd_generator, raised := some e }
    | .ok ws7 =>
      let ws8 := fit_itree_col_sampler env is_tree ws7 input_data model_params
      fit_itree_grow env slot1 ws8 input_data model_params imp1 ws0.rnd_generator

/-! ## Calls, outcomes and the instrumentation shared by both entry points -/

/-- The macro `EXIT_SUCCESS`. -/
def EXIT_SUCCESS : Int := 0

/-- The macro `EXIT_FAILURE`. -/
def EXIT_FAILURE : Int := 1

/-- How a call ends: it returns a code, an exception leaves it, or it dereferences a
`NULL` pointer. -/
inductive Outcome
  | returned (code : Int)
  | raised (e : Failure)
  | null_dereference
  deriving DecidableEq, Repr

/-- Record of one invocation of `fit_itree`: the tree number passed, the index of the
worker memory used, the random engine right after seeding and the exception raised. -/
structure BuildCall where
  tree_num : Nat
  worker : Nat
  seeded : RndGenerator
  raised : Option Failure
  deriving DecidableEq, Repr

/-- The exception of lines 384 and 794. -/
def negative_probabilities : Failure :=
  .runtime_error "Cannot pass negative probabilities.\n"

/-- The exception of lines 386 and 796. -/
def ndim_zero_extended : Failure :=
  .runtime_error "Must pass 'ndim>0' in the extended model.\n"

/-- Lines 394-396 and 800-802: the largest category count. -/
def calc_max_categ (ncat : List Int) (ncols_categ : Nat) : Int :=
  (List.range ncols_categ).foldl
    (fun max_categ col => if ncat.getD col 0 > max_categ then ncat.getD col 0 else max_categ) 0

/-- Member `emplace_back()` on the tree vector of the model. -/
def Model.emplace_back : Model → Model
  | .single f => .single { f with trees := f.trees ++ [[]] }
  | .extended f => .extended { f with hplanes := f.hplanes ++ [[]] }

/-- Member `pop_back()` on the tree vector of the model. -/
def Model.pop_back : Model → Model
  | .single f => .single { f with trees := Isotree.pop_back f.trees }
  | .extended f => .extended { f with hplanes := Isotree.pop_back f.hplanes }

/-- The slot `trees.back()` or `hplanes.back()`. -/
def Model.back (m : Model) : TreeSlot := m.slot (m.ntrees - 1)

/-- Write the slot `trees.back()` or `hplanes.back()`. -/
def Model.set_back (m : Model) (s : TreeSlot) : Model := m.set_slot (m.ntrees - 1) s

/-- Assignment `has_range_penalty = has_range_penalty || penalize_range`. -/
def Model.or_range_penalty (m : Model) (penalize_range : Bool) : Model :=
  match m with
  | .single f => .single { f with has_range_penalty := f.has_range_penalty || penalize_range }
  | .extended f => .extended { f with has_range_penalty := f.has_range_penalty || penalize_range }

/-! ## `add_tree` -/

/-- Arguments of `add_tree`. -/
structure AddTreeArgs where
  model : Model
  numeric_data : Option (List (Option ℚ))
  ncols_numeric : Nat
  categ_data : Option (List Int)
  ncols_categ : Nat
  ncat : List Int
  Xc : Option (List (Option ℚ))
  Xc_ind : Option (List Nat)
  Xc_indptr : Option (List Nat)
  ndim : Nat
  ntry : Nat
  coef_type : CoefType
  coef_by_prop : Bool
  sample_weights : Option (List ℚ)
  nrows : Nat
  max_depth : Nat
  ncols_per_tree : Nat
  limit_depth : Bool
  penalize_range : Bool
  standardize_data : Bool
  col_weights : Option (List ℚ)
  weigh_by_kurt : Bool
  prob_pick_by_gain_pl : ℚ
  prob_pick_by_gain_avg : ℚ
  min_gain : ℚ
  missing_action : MissingAction
  cat_split_type : CategSplit
  new_cat_action : NewCategAction
  depth_imp : UseDepthImp
  weigh_imp_rows : WeighImpRows
  all_perm : Bool
  imputer : Option Imputer
  min_imp_obs : Nat
  random_seed : Nat

/-- Allocation failures inside the `try` block of `add_tree`: of the two `emplace_back`
calls at its head (lines 831/838 and 844) and of the two `shrink_to_fit` calls that follow
the `fit_itree` call (lines 857/861 and 866); the tag of the exception each raises, if
any. -/
structure AllocFaults where
  tree_emplace : Option Nat := none
  imputer_emplace : Option Nat := none
  tree_shrink : Option Nat := none
  imputer_shrink : Option Nat := none

/-- State and outcome of an `add_tree` call. -/
structure AddTreeResult where
  model : Model
  imputer : Option Imputer
  outcome : Outcome
  calls : List BuildCall

/-- Lines 804-813: the `InputData` of `add_tree`. -/
def add_tree_input_data (a : AddTreeArgs) : InputData :=
  { numeric_data := a.numeric_data, ncols_numeric := a.ncols_numeric,
    categ_data := a.categ_data, ncat := a.ncat,
    max_categ := calc_max_categ a.ncat a.ncols_categ, ncols_categ := a.ncols_categ,
    nrows := a.nrows, ncols_tot := add64 a.ncols_numeric a.ncols_categ,
    sample_weights := a.sample_weights, weight_as_sample := false,
    col_weights := a.col_weights, Xc := a.Xc, Xc_ind := a.Xc_ind, Xc_indptr := a.Xc_indptr,
    log2_n := 0, btree_offset := 0, btree_weights_init := [], has_missing := [],
    n_missing := 0 }

/-- Lines 804-805 and 814-820: the `ModelParams` of `add_tree`. -/
def add_tree_model_params (a : AddTreeArgs) : ModelParams :=
  { with_replacement := false, sample_size := a.nrows, ntrees := 1,
    ncols_per_tree := a.ncols_per_tree,
    max_depth := if a.max_depth ≠ 0 then a.max_depth else sub64 a.nrows 1,
    penalize_range := a.penalize_range, standardize_data := a.standardize_data,
    random_seed := a.random_seed, weigh_by_kurt := a.weigh_by_kurt,
    prob_pick_by_gain_avg := a.prob_pick_by_gain_avg,
    prob_pick_by_gain_pl := a.prob_pick_by_gain_pl, min_gain := a.min_gain,
    cat_split_type := a.cat_split_type, new_cat_action := a.new_cat_action,
    missing_action := a.missing_action, all_perm := a.all_perm,
    ndim := if a.model.is_single then 0 else a.ndim,
    ntry := if a.model.is_single then min a.ntry (add64 a.ncols_numeric a.ncols_categ)
            else a.ntry,
    coef_type := a.coef_type, coef_by_prop := a.coef_by_prop,
    calc_dist := false, calc_depth := false, impute_at_fit := false,
    depth_imp := a.depth_imp, weigh_imp_rows := a.weigh_imp_rows, min_imp_obs := a.min_imp_obs }

/-- Lines 869-885: the `catch (...)` block of `add_tree`, entered with `added_tree` true;
the caught exception is rethrown by the caller of this function. -/
def add_tree_rollback (model : Model) (imputer : Option Imputer) : Model × Option Imputer :=
  let m := model.pop_back
  (m, imputer.map (fun i => { i with imputer_tree := resize i.imputer_tree m.ntrees [] }))

/-- Line 844: `imputer->imputer_tree.emplace_back()`. -/
def Imputer.emplace_back (i : Imputer) : Imputer :=
  { i with imputer_tree := i.imputer_tree ++ [[]] }

/-- Write the entry `imputer->imputer_tree.back()`, which `impute_nodes` points to. -/
def Imputer.set_back (i : Imputer) (nodes : List ImputeNode) : Imputer :=
  { i with imputer_tree := i.imputer_tree.set (i.imputer_tree.length - 1) nodes }

/-- Lines 848-854: the `fit_itree` call of `add_tree`, on the slot and the imputer entry
just appended, with a new `WorkerMemory` and the former tree count as tree number. -/
def add_tree_build (env : Env) (a : AddTreeArgs) (imputer : Option Imputer) : TreeBuild :=
  fit_itree env a.model.emplace_back.back {} (add_tree_input_data a) (add_tree_model_params a)
    (imputer.map (fun i => i.imputer_tree.getLastD [])) a.model.ntrees

/-- Lines 856-887: what `add_tree` does once `fit_itree` came back, `imputer` being the
imputer with its new entry. On an exception of `fit_itree`: the `catch` block and the
rethrow. Otherwise `shrink_to_fit` of the new tree (lines 857/861), the update of
`has_range_penalty` (lines 858/862), `shrink_to_fit` of the new imputer entry when there is
an imputer (line 866), and `return EXIT_SUCCESS`; either `shrink_to_fit` may raise, which
leads to the `catch` block and the rethrow, the second one after `has_range_penalty` was
written. -/
def add_tree_finish (faults : AllocFaults) (a : AddTreeArgs) (imputer : Option Imputer)
    (b : TreeBuild) : AddTreeResult :=
  let m2 := a.model.emplace_back.set_back b.slot
  let imp2 : Option Imputer := imputer.map (fun i => i.set_back (b.impute_nodes.getD []))
  let call : BuildCall :=
    { tree_num := a.model.ntrees, worker := 0, seeded := b.seeded, raised := b.raised }
  match b.raised with
  | some e =>
    let r := add_tree_rollback m2 imp2
    { model := r.1, imputer := r.2, calls := [call], outcome := .raised e }
  | none =>
    match faults.tree_shrink with
    | some tag =>
      let r := add_tree_rollback m2 imp2
      { model := r.1, imputer := r.2, calls := [call],
        outcome := .raised (Failure.escaped tag) }
    | none =>
      let m3 := m2.or_range_penalty a.penalize_range
      match imp2, faults.imputer_shrink with
      | some i, some tag =>
        let r := add_tree_rollback m3 (some i)
        { model := r.1, imputer := r.2, calls := [call],
          outcome := .raised (Failure.escaped tag) }
      | _, _ =>
        { model := m3, imputer := imp2, calls := [call], outcome := .returned EXIT_SUCCESS }

/-- Lines 824-887: the `try` block of `add_tree` and its `catch`. -/
def add_tree_try (env : Env) (faults : AllocFaults) (a : AddTreeArgs) : AddTreeResult :=
  match faults.tree_emplace with
  | some tag =>
    { model := a.model, imputer := a.imputer, calls := [],
      outcome := .raised (Failure.escaped tag) }
  | none =>
    match a.imputer, faults.imputer_emplace with
    | some i, some tag =>
      let r := add_tree_rollback a.model.emplace_back (some i)
      { model := r.1, imputer := r.2, calls := [], outcome := .raised (Failure.escaped tag) }
    | imputer, _ =>
      let imp1 : Option Imputer := imputer.map Imputer.emplace_back
      add_tree_finish faults a imp1 (add_tree_build env a imp1)

/-- The entry point `add_tree`. -/
def add_tree (env : Env) (faults : AllocFaults) (a : AddTreeArgs) : AddTreeResult :=
  if a.prob_pick_by_gain_avg < 0 ∨ a.prob_pick_by_gain_pl < 0 then
    { model := a.model, imputer := a.imputer, calls := [],
      outcome := .raised negative_probabilities }
  else if a.ndim = 0 ∧ a.model.is_single = false then
    { model := a.model, imputer := a.imputer, calls := [],
      outcome := .raised ndim_zero_extended }
  else add_tree_try env faults a

/-! ## `fit_iforest` -/

/-- Arguments of `fit_iforest`. -/
structure FitArgs where
  model : Model
  numeric_data : Option (List (Option ℚ))
  ncols_numeric : Nat
  categ_data : Option (List Int)
  ncols_categ : Nat
  ncat : List Int
  Xc : Option (List (Option ℚ))
  Xc_ind : Option (List Nat)
  Xc_indptr : Option (List Nat)
  ndim : Nat
  ntry : Nat
  coef_type : CoefType
  coef_by_prop : Bool
  sample_weights : Option (List ℚ)
  with_replacement : Bool
  weight_as_sample : Bool
  nrows : Nat
  sample_size : Nat
  ntrees : Nat
  max_depth : Nat
  ncols_per_tree : Nat
  limit_depth : Bool
  penalize_range : Bool
  standardize_data : Bool
  standardize_dist : Bool
  tmat : Option (List ℚ)
  output_depths : Option (List ℚ)
  standardize_depth : Bool
  col_weights : Option (List ℚ)
  weigh_by_kurt : Bool
  prob_pick_by_gain_pl : ℚ
  prob_pick_by_gain_avg : ℚ
  min_gain : ℚ
  missing_action : MissingAction
  cat_split_type : CategSplit
  new_cat_action : NewCategAction
  all_perm : Bool
  imputer : Option Imputer
  min_imp_obs : Nat
  depth_imp : UseDepthImp
  weigh_imp_rows : WeighImpRows
  impute_at_fit : Bool
  random_seed : Nat
  nthreads : Int

/-- What a `fit_iforest` call does not determine by its arguments: the two build macros,
the thread that OpenMP gives each loop iteration, the moments at which builds that are
running on other threads reach their end, and the value of the global `interrupt_switch`
each time it is read.

* `thread_num t` is `omp_get_thread_num()` in iteration `t` (reduced modulo `nthreads`).
* `completes t` lists the threads whose running iteration reaches its end before
  iteration `t` starts; the thread that takes iteration `t` always ends its previous
  iteration first. `completes ntrees` is the order in which the remaining iterations end.
* `interrupt_at_tree t` is the switch as read at line 486 in iteration `t`;
  `interrupt_at_check k` is the switch as read at the `k`-th check after the loop
  (lines 541, 565, 608 and 633). -/
structure Run where
  openmp : Bool
  dont_throw_on_interrupt : Bool
  thread_num : Nat → Nat
  completes : Nat → List Nat
  interrupt_at_tree : Nat → Bool
  interrupt_at_check : Nat → Bool

/-- Modelled from the spec: `check_interrupt_switch` is declared elsewhere. A set interrupt
switch makes the call return a failure status or raise, per configuration: the routine
raises when the switch is set unless the build defines `DONT_THROW_ON_INTERRUPT`, and
does nothing when the switch is not set. -/
def check_interrupt_switch (dont_throw_on_interrupt : Bool) (interrupt_switch : Bool) :
    Option Failure :=
  if interrupt_switch && !dont_throw_on_interrupt then
    some (.runtime_error "Error: procedure was interrupted.\n")
  else none

/-- Conversion `(int)ntrees` of a `size_t`. -/
def int_of_size (n : Nat) : Int := ((n + 2 ^ 31) % 2 ^ 32 : Nat) - (2 ^ 31 : Int)

/-- Lines 398-401: the effective sample size. -/
def effective_sample_size (a : FitArgs) : Nat :=
  if a.tmat.isSome || decide (a.sample_size = 0) then a.nrows else a.sample_size

/-- Lines 407-413 and 423-428: the `InputData` of `fit_iforest`, with the sampling tree
when weights are used as sampling probability. -/
def fit_input_data (env : Env) (a : FitArgs) : InputData :=
  let d : InputData :=
    { numeric_data := a.numeric_data, ncols_numeric := a.ncols_numeric,
      categ_data := a.categ_data, ncat := a.ncat,
      max_categ := calc_max_categ a.ncat a.ncols_categ, ncols_categ := a.ncols_categ,
      nrows := a.nrows, ncols_tot := add64 a.ncols_numeric a.ncols_categ,
      sample_weights := a.sample_weights, weight_as_sample := a.weight_as_sample,
      col_weights := a.col_weights, Xc := a.Xc, Xc_ind := a.Xc_ind, Xc_indptr := a.Xc_indptr,
      log2_n := 0, btree_offset := 0, btree_weights_init := [], has_missing := [],
      n_missing := 0 }
  match d.sample_weights with
  | some w =>
    if d.weight_as_sample then
      let r := env.build_btree_sampler w d.nrows
      { d with btree_weights_init := r.1, log2_n := r.2.1, btree_offset := r.2.2 }
    else d
  | none => d

/-- Lines 403-404 and 414-421: the `ModelParams` of `fit_iforest`. -/
def fit_model_params (env : Env) (a : FitArgs) : ModelParams :=
  let sample_size := effective_sample_size a
  { with_replacement := a.with_replacement, sample_size := sample_size, ntrees := a.ntrees,
    ncols_per_tree := a.ncols_per_tree,
    max_depth := if a.limit_depth then env.log2ceil sample_size
                 else if a.max_depth ≠ 0 then a.max_depth else sub64 sample_size 1,
    penalize_range := a.penalize_range, standardize_data := a.standardize_data,
    random_seed := a.random_seed, weigh_by_kurt := a.weigh_by_kurt,
    prob_pick_by_gain_avg := a.prob_pick_by_gain_avg,
    prob_pick_by_gain_pl := a.prob_pick_by_gain_pl, min_gain := a.min_gain,
    cat_split_type := a.cat_split_type, new_cat_action := a.new_cat_action,
    missing_action := a.missing_action, all_perm := a.all_perm,
    ndim := if a.model.is_single then 0 else a.ndim,
    ntry := if a.model.is_single then min a.ntry (add64 a.ncols_numeric a.ncols_categ)
            else a.ntry,
    coef_type := a.coef_type, coef_by_prop := a.coef_by_prop,
    calc_dist := a.tmat.isSome, calc_depth := a.output_depths.isSome,
    impute_at_fit := a.impute_at_fit,
    depth_imp := a.depth_imp, weigh_imp_rows := a.weigh_imp_rows, min_imp_obs := a.min_imp_obs }

/-- Lines 436-461: store the model data. -/
def fit_store_model (env : Env) (a : FitArgs) (input_data : InputData)
    (model_params : ModelParams) : Model :=
  match a.model with
  | .single f =>
    .single { f with
      trees := resize f.trees a.ntrees [],
      new_cat_action := a.new_cat_action, cat_split_type := a.cat_split_type,
      missing_action := a.missing_action,
      exp_avg_depth := env.expected_avg_depth (effective_sample_size a),
      exp_avg_sep := env.expected_separation_depth model_params.sample_size,
      orig_sample_size := input_data.nrows, has_range_penalty := a.penalize_range }
  | .extended f =>
    .extended { f with
      hplanes := resize f.hplanes a.ntrees [],
      new_cat_action := a.new_cat_action, cat_split_type := a.cat_split_type,
      missing_action := a.missing_action,
      exp_avg_depth := env.expected_avg_depth (effective_sample_size a),
      exp_avg_sep := env.expected_separation_depth model_params.sample_size,
      orig_sample_size := input_data.nrows, has_range_penalty := a.penalize_range }

/-- Lines 467-468: the thread count after `if ((size_t)nthreads > ntrees) nthreads = (int)ntrees`. -/
def clamp_nthreads (a : FitArgs) : Int :=
  if size_of_int a.nthreads > a.ntrees then int_of_size a.ntrees else a.nthreads

/-- Lines 469-473: the number of `WorkerMemory` objects. -/
def n_workers (run : Run) (a : FitArgs) : Nat :=
  if run.openmp then size_of_int (clamp_nthreads a) else 1

/-- What the tree loop observes, in order: an iteration that `continue`s at line 487,
an iteration that invokes `fit_itree`, and a `catch` block entering its critical section. -/
inductive LoopEvent
  | skipped (tree : Nat)
  | built (call : BuildCall)
  | caught (worker : Nat) (e : Failure)
  deriving DecidableEq, Repr

/-- State of the parallel region of `fit_iforest`: the shared variables, the worker
memories, the exceptions of builds whose `catch` block has not run yet (`pending`, by
worker) and the events so far. -/
structure GrowState where
  model : Model
  imputer : Option Imputer
  worker_memory : List WorkerMemory
  impute_vec : List ImputedData
  impute_map : List (Nat × ImputedData)
  threw_exception : Bool
  ex : Option Failure
  pending : List (Nat × Failure)
  trace : List LoopEvent

/-- Lines 527-537: the `catch (...)` block of worker `w`, if its build raised: inside the
critical section the first exception is kept. -/
def grow_catch (s : GrowState) (w : Nat) : GrowState :=
  match s.pending.find? (fun p => p.1 == w) with
  | none => s
  | some p =>
    let s1 : GrowState :=
      { s with pending := s.pending.filter (fun q => q.1 != w),
               trace := s.trace ++ [LoopEvent.caught w p.2] }
    if !s1.threw_exception then { s1 with threw_exception := true, ex := some p.2 } else s1

/-- The index `omp_get_thread_num()` of the worker memory used by iteration `tree`. -/
def worker_of (run : Run) (a : FitArgs) (tree : Nat) : Nat :=
  if run.openmp then run.thread_num tree % size_of_int (clamp_nthreads a) else 0

/-- Lines 491-511: hand the table of missing cells to the worker on its first tree. -/
def grow_impute_setup (run : Run) (a : FitArgs) (input_data : InputData)
    (model_params : ModelParams) (s : GrowState) (w : Nat) : GrowState :=
  let wm := s.worker_memory.getD w {}
  if model_params.impute_at_fit && decide (input_data.n_missing ≠ 0)
      && wm.impute_vec.isEmpty && wm.impute_map.isEmpty then
    if run.openmp && decide (clamp_nthreads a > 1) then
      { s with worker_memory :=
          s.worker_memory.set w { wm with impute_vec := s.impute_vec, impute_map := s.impute_map } }
    else
      let w0 := s.worker_memory.getD 0 {}
      { s with
        worker_memory :=
          s.worker_memory.set 0 { w0 with impute_vec := s.impute_vec, impute_map := s.impute_map },
        impute_vec := [], impute_map := [] }
  else s

/-- Lines 484-538: one iteration of the tree loop, preceded by the `catch` blocks of the
builds that end before it starts. -/
def grow_iteration (env : Env) (run : Run) (a : FitArgs) (input_data : InputData)
    (model_params : ModelParams) (s : GrowState) (tree : Nat) : GrowState :=
  let w := worker_of run a tree
  let s0 := (run.completes tree ++ [w]).foldl grow_catch s
  if run.interrupt_at_tree tree || s0.threw_exception then
    { s0 with trace := s0.trace ++ [LoopEvent.skipped tree] }
  else
    let s1 := grow_impute_setup run a input_data model_params s0 w
    let b := fit_itree env (s1.model.slot tree) (s1.worker_memory.getD w {}) input_data
      model_params (s1.imputer.map (fun i => i.imputer_tree.getD tree [])) tree
    let call : BuildCall :=
      { tree_num := tree, worker := w, seeded := b.seeded, raised := b.raised }
    { s1 with
      model := s1.model.set_slot tree b.slot,
      imputer := s1.imputer.map (fun i =>
        { i with imputer_tree := i.imputer_tree.set tree (b.impute_nodes.getD []) }),
      worker_memory := s1.worker_memory.set w b.workspace,
      pending := match b.raised with
                 | some e => s1.pending ++ [(w, e)]
                 | none => s1.pending,
      trace := s1.trace ++ [LoopEvent.built call] }

/-- Lines 476-538: the parallel region, up to the barrier at its end. -/
def grow_trees (env : Env) (run : Run) (a : FitArgs) (input_data : InputData)
    (model_params : ModelParams) (s : GrowState) : GrowState :=
  let s1 := (List.range a.ntrees).foldl (grow_iteration env run a input_data model_params) s
  (run.completes a.ntrees ++ s1.pending.map Prod.fst).foldl grow_catch s1

/-- State and outcome of a `fit_iforest` call: the objects and arrays the caller passed,
as the call left them, the worker memories at the end, and the events of the tree loop. -/
structure FitResult where
  model : Model
  imputer : Option Imputer
  tmat : Option (List ℚ)
  output_depths : Option (List ℚ)
  numeric_data : Option (List (Option ℚ))
  categ_data : Option (List Int)
  Xc : Option (List (Option ℚ))
  worker_memory : List WorkerMemory
  outcome : Outcome
  trace : List LoopEvent

/-- A loop `for (row = 0; row < n; row++) v[row] = f(row, v[row])`. -/
def update_rows (n : Nat) (f : Nat → ℚ → ℚ) (v : List ℚ) : List ℚ :=
  (List.range n).foldl (fun v row => v.set row (f row (v.getD row 0))) v

/-- The call `std::copy(src.begin(), src.end(), dst)`. -/
def std_copy (src dst : List ℚ) : List ℚ :=
  (List.range dst.length).map (fun i => if i < src.length then src.getD i 0 else dst.getD i 0)

/-- Expected average depth stored in whichever model object is present. -/
def Model.exp_avg_depth : Model → ℚ
  | .single f => f.exp_avg_depth
  | .extended f => f.exp_avg_depth

/-- Lines 571-606: reduce the per-worker row depths into `output_depths` and average or
standardise them. -/
def fit_reduce_depths (env : Env) (run : Run) (a : FitArgs) (input_data : InputData)
    (model : Model) (worker_memory : List WorkerMemory) (output_depths : List ℚ) : List ℚ :=
  let od1 : List ℚ :=
    if run.openmp && decide (clamp_nthreads a > 1) then
      worker_memory.foldl
        (fun od w =>
          if !w.row_depths.isEmpty then
            update_rows input_data.nrows (fun row x => x + w.row_depths.getD row 0) od
          else od)
        output_depths
    else std_copy (worker_memory.getD 0 {}).row_depths output_depths
  if a.standardize_depth then
    let depth_divisor : ℚ := (a.ntrees : ℚ) * model.exp_avg_depth
    update_rows a.nrows (fun _ x => env.exp2 (-x / depth_divisor)) od1
  else
    let ntrees_dbl : ℚ := (a.ntrees : ℚ)
    update_rows a.nrows (fun _ x => x / ntrees_dbl) od1

/-- Lines 614-629: gather the imputation candidates of the workers. -/
def fit_reduce_imputations (env : Env) (run : Run) (a : FitArgs) (input_data : InputData)
    (s : GrowState) : List ImputedData × List (Nat × ImputedData) :=
  if run.openmp && decide (clamp_nthreads a > 1) then
    s.worker_memory.foldl
      (fun acc w =>
        env.combine_tree_imputations w acc.1 acc.2 input_data.has_missing (clamp_nthreads a))
      (s.impute_vec, s.impute_map)
  else ((s.worker_memory.getD 0 {}).impute_vec, (s.worker_memory.getD 0 {}).impute_map)

/-- The four checks `check_interrupt_switch(ss)` followed, under
`DONT_THROW_ON_INTERRUPT`, by `if (interrupt_switch) return EXIT_FAILURE`: the way the
call ends at check `k`, or `none` when it goes on. -/
def interrupt_check (run : Run) (k : Nat) : Option Outcome :=
  match check_interrupt_switch run.dont_throw_on_interrupt (run.interrupt_at_check k) with
  | some e => some (.raised e)
  | none =>
    if run.dont_throw_on_interrupt && run.interrupt_at_check k then
      some (.returned EXIT_FAILURE)
    else none

/-- Lines 540-638: what follows the parallel region. -/
def fit_finish (env : Env) (run : Run) (a : FitArgs) (input_data : InputData)
    (model_params : ModelParams) (s : GrowState) : FitResult :=
  let r0 : FitResult :=
    { model := s.model, imputer := s.imputer, tmat := a.tmat, output_depths := a.output_depths,
      numeric_data := input_data.numeric_data, categ_data := input_data.categ_data,
      Xc := input_data.Xc, worker_memory := s.worker_memory,
      outcome := .returned EXIT_SUCCESS, trace := s.trace }
  match interrupt_check run 0 with
  | some o => { r0 with outcome := o }
  | none =>
    if s.threw_exception then
      match s.ex with
      | some e => { r0 with outcome := .raised e }
      | none => { r0 with outcome := .null_dereference }
    else
      let r1 : FitResult :=
        if model_params.calc_dist then
          let t1 : Option (List ℚ) :=
            a.tmat.map (fun t =>
              env.gather_sim_result s.worker_memory input_data s.model t model_params.ntrees
                a.standardize_dist (clamp_nthreads a))
          { r0 with tmat := t1 }
        else r0
      match interrupt_check run 1 with
      | some o => { r1 with outcome := o }
      | none =>
        let od : Option (List ℚ) :=
          a.output_depths.map (fit_reduce_depths env run a input_data s.model s.worker_memory)
        let r2 : FitResult := { r1 with output_depths := od }
        match interrupt_check run 2 with
        | some o => { r2 with outcome := o }
        | none =>
          if model_params.impute_at_fit then
            let c := fit_reduce_imputations env run a input_data s
            match s.imputer with
            | none => { r2 with outcome := .null_dereference }
            | some i =>
              let p := env.apply_imputation_results c.1 c.2 i input_data (clamp_nthreads a)
              let r3 : FitResult :=
                { r2 with imputer := some p.1, numeric_data := p.2.numeric_data,
                          categ_data := p.2.categ_data, Xc := p.2.Xc }
              match interrupt_check run 3 with
              | some o => { r3 with outcome := o }
              | none => r3
          else
            match interrupt_check run 3 with
            | some o => { r2 with outcome := o }
            | none => r2

/-- Lines 430-434: the table of missing cells, when imputing on the fly; the first
component is the input data with its missing-value counts filled in. -/
def fit_missing (env : Env) (a : FitArgs) :
    InputData × List ImputedData × List (Nat × ImputedData) :=
  if (fit_model_params env a).impute_at_fit then
    env.check_for_missing (fit_input_data env a) a.nthreads
  else (fit_input_data env a, [], [])

/-- Lines 436-480: the state in which the parallel region is entered. -/
def fit_loop_init (env : Env) (run : Run) (a : FitArgs) : GrowState :=
  { model := fit_store_model env a (fit_missing env a).1 (fit_model_params env a),
    imputer := a.imputer.map (fun i =>
      env.init_imputer i (fit_missing env a).1 a.ntrees a.nthreads),
    worker_memory := List.replicate (n_workers run a) {},
    impute_vec := (fit_missing env a).2.1, impute_map := (fit_missing env a).2.2,
    threw_exception := false, ex := none, pending := [], trace := [] }

/-- The state at the end of the parallel region of a call that passed the checks. -/
def fit_grown (env : Env) (run : Run) (a : FitArgs) : GrowState :=
  grow_trees env run a (fit_missing env a).1 (fit_model_params env a) (fit_loop_init env run a)

/-- The entry point `fit_iforest`. -/
def fit_iforest (env : Env) (run : Run) (a : FitArgs) : FitResult :=
  if a.prob_pick_by_gain_avg < 0 ∨ a.prob_pick_by_gain_pl < 0 then
    { model := a.model, imputer := a.imputer, tmat := a.tmat, output_depths := a.output_depths,
      numeric_data := a.numeric_data, categ_data := a.categ_data, Xc := a.Xc,
      worker_memory := [], trace := [],
      outcome := .raised negative_probabilities }
  else if a.ndim = 0 ∧ a.model.is_single = false then
    { model := a.model, imputer := a.imputer, tmat := a.tmat, output_depths := a.output_depths,
      numeric_data := a.numeric_data, categ_data := a.categ_data, Xc := a.Xc,
      worker_memory := [], trace := [],
      outcome := .raised ndim_zero_extended }
  else
    fit_finish env run a (fit_missing env a).1 (fit_model_params env a) (fit_grown env run a)

/-- The tree sequence of the model, `trees` or `hplanes`, as a sequence of slots. -/
def Model.slots : Model → List TreeSlot
  | .single f => f.trees.map TreeSlot.tree
  | .extended f => f.hplanes.map TreeSlot.hplane

/-! ## Invariant of the tree loop -/

/-- Whether the event is a `catch` block entering its critical section. -/
def LoopEvent.is_caught : LoopEvent → Bool
  | .caught _ _ => true
  | _ => false

/-- Whether the event is an invocation of `fit_itree`. -/
def LoopEvent.is_built : LoopEvent → Bool
  | .built _ => true
  | _ => false

/-- In `trace` the first exception captured is `e`, and no build starts after its capture. -/
def FirstCaught (trace : List LoopEvent) (e : Failure) : Prop :=
  ∃ pre w post, trace = pre ++ LoopEvent.caught w e :: post ∧
    (∀ ev ∈ pre, ev.is_caught = false) ∧ (∀ ev ∈ post, ev.is_built = false)

/-- What holds of the state of the parallel region at every moment of a run that started
from the model `m0` with the base seed `seed` and builds `ntrees` trees. -/
structure GrowInv (run : Run) (seed ntrees : Nat) (m0 : Model) (s : GrowState) : Prop where
  not_thrown : s.threw_exception = false →
    (∀ ev ∈ s.trace, ev.is_caught = false) ∧ s.ex = none
  thrown : s.threw_exception = true → ∃ e, s.ex = some e ∧ FirstCaught s.trace e
  raised_pending : ∀ c e, LoopEvent.built c ∈ s.trace → c.raised = some e →
    (c.worker, e) ∈ s.pending ∨ s.threw_exception = true
  pending_built : ∀ p ∈ s.pending, ∃ c, LoopEvent.built c ∈ s.trace ∧ c.raised = some p.2
  caught_built : ∀ w e, LoopEvent.caught w e ∈ s.trace →
    ∃ c, LoopEvent.built c ∈ s.trace ∧ c.raised = some e
  built_ok : ∀ c, LoopEvent.built c ∈ s.trace →
    c.tree_num < ntrees ∧ run.interrupt_at_tree c.tree_num = false ∧
      c.seeded = RndGenerator.reseed ((seed + c.tree_num) % 2 ^ 64) ∧
      ∀ e, c.raised = some e → ∃ tag, e = Failure.escaped tag
  slot_kept : ∀ t, (∀ c, LoopEvent.built c ∈ s.trace → c.tree_num ≠ t) →
    s.model.slot t = m0.slot t

/-! ## Concrete stand-ins used to evaluate the entry points -/

/-- A stand-in for the external routines: the sampler takes rows `0, 1, ...`, kurtosis is
`3`, and the split routines append one terminal node, raising `raise` afterwards if it
is given. -/
def test_env (raise : Option Nat) : Env :=
  { sample_random_rows := fun ix_arr _ _ rng ix_all _ btree _ _ is_repeated =>
      .ok { ix_arr := List.range ix_arr.length, rnd_generator := { rng with ndraws := rng.ndraws + 1 },
            ix_all := ix_all, btree_weights := btree, is_repeated := is_repeated },
    calc_kurtosis_dense := fun _ _ _ _ _ _ => 3,
    calc_kurtosis_sparse := fun _ _ _ _ _ _ _ _ _ => 3,
    calc_kurtosis_categ := fun _ _ _ _ _ _ _ rng _ => (3, rng),
    leave_m_cols_rng := fun _ _ rng => rng,
    split_itree_recursive := fun nodes ws _ _ imp _ =>
      { nodes := nodes ++ [{ content := 1 }], workspace := ws, impute_nodes := imp, raised := raise },
    split_hplane_recursive := fun nodes ws _ _ imp _ =>
      { nodes := nodes ++ [{ content := 1 }], workspace := ws, impute_nodes := imp, raised := raise },
    drop_nonterminal_imp_node := fun v _ => v,
    pow2 := fun n => 2 ^ n,
    log2ceil := fun n => Nat.clog 2 n,
    expected_avg_depth := fun n => n,
    expected_separation_depth := fun n => n,
    build_btree_sampler := fun w _ => (w, 1, 0),
    check_for_missing := fun d _ => (d, [], []),
    init_imputer := fun i _ ntrees _ => { i with imputer_tree := List.replicate ntrees [] },
    gather_sim_result := fun _ _ _ t _ _ _ => t,
    combine_tree_imputations := fun _ v m _ _ => (v, m),
    apply_imputation_results := fun _ _ i d _ => (i, d),
    exp2 := fun x => x }

/-- A single-variable forest with two trees. -/
def test_forest : IsoForest :=
  { trees := [[{ content := 1 }], [{ content := 1 }]],
    new_cat_action := .Weighted, cat_split_type := .SubSet, missing_action := .Divide,
    exp_avg_depth := 2, exp_avg_sep := 3, orig_sample_size := 4, has_range_penalty := false }

/-- An extended forest without trees. -/
def test_ext_forest : ExtIsoForest :=
  { hplanes := [],
    new_cat_action := .Weighted, cat_split_type := .SubSet, missing_action := .Impute,
    exp_avg_depth := 0, exp_avg_sep := 0, orig_sample_size := 0, has_range_penalty := false }

/-- An imputer paired to `test_forest`. -/
def test_imputer : Imputer :=
  { ncols_numeric := 1, ncols_categ := 0, ncat := [],
    imputer_tree := [[{ parent := 0 }], [{ parent := 0 }]], col_means := [0], col_modes := [] }

/-- Arguments of an `add_tree` call on four rows of one dense numeric column. -/
def test_add_args (model : Model) (imputer : Option Imputer) : AddTreeArgs :=
  { model := model, numeric_data := some [some 1, some 2, some 3, some 4], ncols_numeric := 1,
    categ_data := none, ncols_categ := 0, ncat := [], Xc := none, Xc_ind := none,
    Xc_indptr := none, ndim := 1, ntry := 1, coef_type := .Normal, coef_by_prop := false,
    sample_weights := none, nrows := 4, max_depth := 0, ncols_per_tree := 0,
    limit_depth := false, penalize_range := true, standardize_data := false,
    col_weights := none, weigh_by_kurt := false, prob_pick_by_gain_pl := 0,
    prob_pick_by_gain_avg := 0, min_gain := 0, missing_action := .Divide,
    cat_split_type := .SubSet, new_cat_action := .Weighted, depth_imp := .Higher,
    weigh_imp_rows := .Inverse, all_perm := false, imputer := imputer, min_imp_obs := 3,
    random_seed := 10 }

/-- Arguments of a `fit_iforest` call on four rows of one dense numeric column. -/
def test_fit_args (model : Model) (imputer : Option Imputer) (ntrees : Nat) (nthreads : Int) :
    FitArgs :=
  { model := model, numeric_data := some [some 1, some 2, some 3, some 4], ncols_numeric := 1,
    categ_data := none, ncols_categ := 0, ncat := [], Xc := none, Xc_ind := none,
    Xc_indptr := none, ndim := 1, ntry := 1, coef_type := .Normal, coef_by_prop := false,
    sample_weights := none, with_replacement := false, weight_as_sample := false,
    nrows := 4, sample_size := 0, ntrees := ntrees, max_depth := 0, ncols_per_tree := 0,
    limit_depth := false, penalize_range := false, standardize_data := false,
    standardize_dist := false, tmat := none, output_depths := none, standardize_depth := false,
    col_weights := none, weigh_by_kurt := false, prob_pick_by_gain_pl := 0,
    prob_pick_by_gain_avg := 0, min_gain := 0, missing_action := .Divide,
    cat_split_type := .SubSet, new_cat_action := .Weighted, all_perm := false,
    imputer := imputer, min_imp_obs := 3, depth_imp := .Higher, weigh_imp_rows := .Inverse,
    impute_at_fit := false, random_seed := 10, nthreads := nthreads }

/-- A run built with OpenMP and `DONT_THROW_ON_INTERRUPT`, iteration `t` taken by thread
`t`, every build ending when its thread takes its next iteration, the interrupt switch
read as `interrupt t` in iteration `t` and as unset after the loop. -/
def test_run (interrupt : Nat → Bool) : Run :=
  { openmp := true, dont_throw_on_interrupt := true, thread_num := fun t => t,
    completes := fun _ => [], interrupt_at_tree := interrupt,
    interrupt_at_check := fun _ => false }

/-- A stand-in for the external routines in which a sample drawn with replacement takes
every row to be row `seed mod nrows`, and the hyperplane split routine appends one
terminal node recording the sum of the density weights of the rows of the node. -/
def weights_env : Env :=
  { test_env none with
    sample_random_rows := fun ix_arr nrows with_replacement rng ix_all _ btree _ _ is_repeated =>
      .ok { ix_arr := if with_replacement then ix_arr.map (fun _ => rng.seed % nrows)
                      else List.range ix_arr.length,
            rnd_generator := { rng with ndraws := rng.ndraws + ix_arr.length },
            ix_all := ix_all, btree_weights := btree, is_repeated := is_repeated },
    split_hplane_recursive := fun nodes ws _ _ imp _ =>
      { nodes := nodes ++
          [{ content := (ws.ix_arr.foldl (fun t ix => t + ws.weights_arr.getD ix 0) 0).floor.toNat }],
        workspace := ws, impute_nodes := imp, raised := none } }

/-- Arguments of a `fit_iforest` call for the extended model on two rows with density
weights `1` and `3`, two trees, each built on a sample of two rows drawn with
replacement. -/
def weights_fit_args (nthreads : Int) : FitArgs :=
  { test_fit_args (.extended test_ext_forest) none 2 nthreads with
    numeric_data := some [some 1, some 2], nrows := 2, ndim := 2,
    sample_weights := some [1, 3], weight_as_sample := false, with_replacement := true,
    random_seed := 0 }

/-! ## Further notions used to state properties -/

/-- The interrupt switch, once read as set in the tree loop, is read as set at every
check after the loop: nothing in `fit_iforest` resets it during the call. -/
def Run.switch_stays_set (run : Run) : Prop :=
  ∀ t k, run.interrupt_at_tree t = true → run.interrupt_at_check k = true

/-- What holds of the tree slots at every moment of the parallel region, `done t` telling
whether the iteration of tree `t` has started: the tree vector keeps its length and kind,
only iterations that started have built, an iteration that started has built unless the
interrupt switch was set or an exception had been captured, the slot of a tree that was
built is what its `fit_itree` call left from the slot of the initial model `m0`, and
the other slots are those of `m0`. -/
structure SlotInv (env : Env) (run : Run) (input_data : InputData) (model_params : ModelParams)
    (m0 : Model) (done : Nat → Prop) (s : GrowState) : Prop where
  ntrees_eq : s.model.ntrees = m0.ntrees
  kind_eq : s.model.is_single = m0.is_single
  built_done : ∀ c, LoopEvent.built c ∈ s.trace → done c.tree_num
  done_cases : ∀ t, done t →
    (∃ c, LoopEvent.built c ∈ s.trace ∧ c.tree_num = t) ∨
      run.interrupt_at_tree t = true ∨ s.threw_exception = true
  built_slot : ∀ c, LoopEvent.built c ∈ s.trace →
    ∃ ws imp, s.model.slot c.tree_num =
      (fit_itree env (m0.slot c.tree_num) ws input_data model_params imp c.tree_num).slot
  kept : ∀ t, (∀ c, LoopEvent.built c ∈ s.trace → c.tree_num ≠ t) →
    s.model.slot t = m0.slot t

/-- Expected average separation depth stored in whichever model object is present. -/
def Model.exp_avg_sep : Model → ℚ
  | .single f => f.exp_avg_sep
  | .extended f => f.exp_avg_sep

/-- Field `orig_sample_size` of whichever model object is present. -/
def Model.orig_sample_size : Model → Nat
  | .single f => f.orig_sample_size
  | .extended f => f.orig_sample_size

/-- A caller's sequence of `add_tree` calls on one model object: each call is made with
its own allocation behaviour and arguments on the model object as the call before it
left it. Gives the model object after the last call and the results in call order. -/
def add_tree_seq (env : Env) (model : Model) :
    List (AllocFaults × AddTreeArgs) → Model × List AddTreeResult
  | [] => (model, [])
  | c :: rest =>
    let r := add_tree env c.1 { c.2 with model := model }
    let s := add_tree_seq env r.model rest
    (s.1, r :: s.2)

/-- Whether the call returned `EXIT_SUCCESS`. -/
def AddTreeResult.succeeded (r : AddTreeResult) : Bool :=
  decide (r.outcome = Outcome.returned EXIT_SUCCESS)

/-- The result of an `add_tree` call with `penalize_range` set and an imputer, on a forest
of two trees whose `has_range_penalty` is `false`, in which the tree is built and the
`shrink_to_fit` of the new imputer entry (line 866) raises. -/
def range_penalty_failed : AddTreeResult :=
  add_tree (test_env none) { imputer_shrink := some 1 }
    (test_add_args (.single test_forest) (some test_imputer))

/-- The worker memory whose row-index array the kurtosis block has sorted (sparse input). -/
def kurt_sorted (ws : WorkerMemory) (input_data : InputData) : WorkerMemory :=
  if input_data.Xc_indptr.isSome then
    { ws with ix_arr := ws.ix_arr.insertionSort (fun a b => a ≤ b) }
  else ws

/-- Lines 923-1164 of `fit_itree` as `fit_itree` composes them: the worker memory with
which the kurtosis block is reached, `ws` being the worker memory after the rows of the tree
were sampled. -/
def fit_itree_upto_kurtosis (env : Env) (is_tree : Bool) (ws : WorkerMemory)
    (input_data : InputData) (model_params : ModelParams) : WorkerMemory :=
  fit_itree_buffers env is_tree
    (fit_itree_tmat
      (fit_itree_density_weights is_tree
        (fit_itree_scratch is_tree (fit_itree_col_weights is_tree ws input_data model_params)
          input_data model_params)
        input_data model_params)
      input_data model_params)
    input_data model_params

/-- Arguments of an `add_tree` call on four rows of one dense numeric column, with columns
weighted by kurtosis. -/
def kurt_add_args : AddTreeArgs :=
  { test_add_args (.single test_forest) none with weigh_by_kurt := true }

/-- The worker memory after the rows of the tree of `kurt_add_args` were sampled. -/
def kurt_sampled : WorkerMemory :=
  match fit_itree_sample (test_env none)
      (fit_itree_begin {} (add_tree_input_data kurt_add_args)
        (add_tree_model_params kurt_add_args) 2)
      (add_tree_input_data kurt_add_args) (add_tree_model_params kurt_add_args) with
  | .ok ws => ws
  | .error _ => {}

/-- The position documented for entry `0 <= i < j < n` of the upper triangle (lines
176-178): `p(i,j) = (i * (n - (i+1)/2) + j - i - 1)`, in exact arithmetic. -/
def tmat_position (n i j : Nat) : ℚ :=
  (i : ℚ) * ((n : ℚ) - ((i : ℚ) + 1) / 2) + (j : ℚ) - (i : ℚ) - 1

/-- A stand-in for the external routines in which the single-variable split routine adds
the depths `1, 2, 3, 4` to the row depths of the worker. -/
def depths_env : Env :=
  { test_env none with
    split_itree_recursive := fun nodes ws _ _ imp _ =>
      { nodes := nodes ++ [{ content := 1 }],
        workspace :=
          { ws with row_depths := List.zipWith (fun x y => x + y) ws.row_depths [1, 2, 3, 4] },
        impute_nodes := imp, raised := none } }

/-- Arguments of a `fit_iforest` call that grows `ntrees` trees on four rows and asks for
the average depths. -/
def depths_fit_args (ntrees : Nat) (nthreads : Int) : FitArgs :=
  { test_fit_args (.single test_forest) none ntrees nthreads with
    output_depths := some [0, 0, 0, 0] }

/-- A rational stand-in for `std::exp2`: positive, increasing, with value `1` at `0`. -/
def rational_exp2 (x : ℚ) : ℚ := if x ≤ 0 then 1 / (1 - x) else 1 + x

/-- The stand-in `depths_env` with `rational_exp2` for `std::exp2`. -/
def scores_env : Env := { depths_env with exp2 := rational_exp2 }

/-- Arguments of a `fit_iforest` call that grows `ntrees` trees on four rows and asks for
the standardised depths. -/
def scores_fit_args (ntrees : Nat) (nthreads : Int) : FitArgs :=
  { depths_fit_args ntrees nthreads with standardize_depth := true }

/-- The three scratch buffers of the worker. -/
def WorkerMemory.buffers (w : WorkerMemory) : List ℚ × List Nat × List Int :=
  (w.buffer_dbl, w.buffer_szt, w.buffer_chr)

/-- The three scratch buffers of `w2` are at least as long as those of `w1`. -/
def BuffersGrown (w1 w2 : WorkerMemory) : Prop :=
  w1.buffer_dbl.length ≤ w2.buffer_dbl.length ∧ w1.buffer_szt.length ≤ w2.buffer_szt.length ∧
    w1.buffer_chr.length ≤ w2.buffer_chr.length

/-- The recursive split routines, declared elsewhere, do not shrink the scratch buffers of
the worker memory they are handed. -/
def Env.split_keeps_buffers (env : Env) : Prop :=
  (∀ nodes ws input_data model_params impute_nodes depth,
    BuffersGrown ws
      (env.split_itree_recursive nodes ws input_data model_params impute_nodes depth).workspace) ∧
  (∀ nodes ws input_data model_params impute_nodes depth,
    BuffersGrown ws
      (env.split_hplane_recursive nodes ws input_data model_params impute_nodes depth).workspace)

/-- Arguments of an `add_tree` call on four rows of one dense numeric column, with column
weights supplied, columns weighted by kurtosis, and every split chosen by pooled gain. -/
def avoid_add_args : AddTreeArgs :=
  { test_add_args (.single test_forest) none with
    prob_pick_by_gain_pl := 1, col_weights := some [5], weigh_by_kurt := true }

/-- The worker memory after the rows of the tree of `avoid_add_args` were sampled. -/
def avoid_sampled : WorkerMemory :=
  match fit_itree_sample (test_env none)
      (fit_itree_begin {} (add_tree_input_data avoid_add_args)
        (add_tree_model_params avoid_add_args) 2)
      (add_tree_input_data avoid_add_args) (add_tree_model_params avoid_add_args) with
  | .ok ws => ws
  | .error _ => {}

/-- Arguments of a `fit_iforest` call on a hundred rows of one dense numeric column with
density weights, each tree built on a sub-sample of one row. -/
def small_sample_fit_args : FitArgs :=
  { test_fit_args (.single test_forest) none 1 1 with
    numeric_data := some (List.replicate 100 (some 1)), nrows := 100, sample_size := 1,
    sample_weights := some (List.replicate 100 2), weight_as_sample := false }

/-- The first tree that the only worker of `fit_iforest weights_env (weights_fit_args 1)`
builds: tree `0`, with a new worker memory. -/
def weights_first_tree : TreeBuild :=
  fit_itree weights_env (.hplane []) {} (fit_input_data weights_env (weights_fit_args 1))
    (fit_model_params weights_env (weights_fit_args 1)) none 0

/-- The second tree of that worker: tree `1`, with the worker memory tree `0` left. -/
def weights_second_tree : TreeBuild :=
  fit_itree weights_env (.hplane []) weights_first_tree.workspace
    (fit_input_data weights_env (weights_fit_args 1))
    (fit_model_params weights_env (weights_fit_args 1)) none 1

/-- Sum, over the positions of the row-index array, of the entry of `weights_arr` for the
row at that position: the density weights of the sample, counted with multiplicity. -/
def sample_weight_total (ws : WorkerMemory) : ℚ :=
  ws.ix_arr.foldl (fun t ix => t + ws.weights_arr.getD ix 0) 0

/-- Arguments of an `add_tree` call on four rows of two dense numeric columns, with columns
weighted by kurtosis and one column per tree. -/
def subset_add_args : AddTreeArgs :=
  { test_add_args (.single test_forest) none with
    numeric_data := some [some 1, some 2, some 3, some 4, some 5, some 6, some 7, some 8],
    ncols_numeric := 2, ncols_per_tree := 1, weigh_by_kurt := true }

/-- Policy for categories not seen at fit time, stored in whichever model object is
present. -/
def Model.new_cat_action : Model → NewCategAction
  | .single f => f.new_cat_action
  | .extended f => f.new_cat_action

/-- Type of categorical split stored in whichever model object is present. -/
def Model.cat_split_type : Model → CategSplit
  | .single f => f.cat_split_type
  | .extended f => f.cat_split_type

/-- Policy for missing values stored in whichever model object is present. -/
def Model.missing_action : Model → MissingAction
  | .single f => f.missing_action
  | .extended f => f.missing_action

/-! ## Verified properties -/

theorem set_length_append_singleton {α : Type} (l : List α) (x y : α) :
    (l ++ [x]).set l.length y = l ++ [y] := by
  induction l with
  | nil => rfl
  | cons a l ih => simp [List.set, ih]

theorem resize_append_singleton {α : Type} (l : List α) (x d : α) :
    resize (l ++ [x]) l.length d = l := by
  simp [resize]

theorem Model.ntrees_emplace_back (m : Model) : m.emplace_back.ntrees = m.ntrees + 1 := by
  cases m <;> simp [Model.emplace_back, Model.ntrees]

theorem Model.set_back_emplace_back (m : Model) (s : TreeSlot) :
    ∃ s1, (m.emplace_back.set_back s).slots = m.slots ++ [s1] ∧
      (m.emplace_back.set_back s).pop_back = m ∧
      (m.emplace_back.set_back s).ntrees = m.ntrees + 1 := by
  cases m with
  | single f =>
    cases s with
    | tree n =>
      refine ⟨.tree n, ?_, ?_, ?_⟩ <;>
        simp [Model.emplace_back, Model.set_back, Model.set_slot, Model.ntrees, Model.slots,
          Model.pop_back, Isotree.pop_back, set_length_append_singleton]
    | hplane n =>
      refine ⟨.tree [], ?_, ?_, ?_⟩ <;>
        simp [Model.emplace_back, Model.set_back, Model.set_slot, Model.ntrees, Model.slots,
          Model.pop_back, Isotree.pop_back]
  | extended f =>
    cases s with
    | tree n =>
      refine ⟨.hplane [], ?_, ?_, ?_⟩ <;>
        simp [Model.emplace_back, Model.set_back, Model.set_slot, Model.ntrees, Model.slots,
          Model.pop_back, Isotree.pop_back]
    | hplane n =>
      refine ⟨.hplane n, ?_, ?_, ?_⟩ <;>
        simp [Model.emplace_back, Model.set_back, Model.set_slot, Model.ntrees, Model.slots,
          Model.pop_back, Isotree.pop_back, set_length_append_singleton]

theorem add_tree_finish_raised (faults : AllocFaults) (a : AddTreeArgs)
    (imputer : Option Imputer) (b : TreeBuild) (e : Failure) (hb : b.raised = some e) :
    (add_tree_finish faults a imputer b).outcome = Outcome.raised e ∧
      (add_tree_finish faults a imputer b).model = a.model ∧
      (add_tree_finish faults a imputer b).imputer =
        (imputer.map (fun i => i.set_back (b.impute_nodes.getD []))).map
          (fun i => { i with imputer_tree := resize i.imputer_tree a.model.ntrees [] }) := by
  obtain ⟨s1, -, hpop, -⟩ := Model.set_back_emplace_back a.model b.slot
  simp [add_tree_finish, hb, add_tree_rollback, hpop]

theorem add_tree_finish_calls (faults : AllocFaults) (a : AddTreeArgs)
    (imputer : Option Imputer) (b : TreeBuild) :
    (add_tree_finish faults a imputer b).calls =
      [{ tree_num := a.model.ntrees, worker := 0, seeded := b.seeded, raised := b.raised }] := by
  unfold add_tree_finish
  cases b.raised with
  | some e => rfl
  | none =>
    cases faults.tree_shrink with
    | some t => rfl
    | none =>
      cases imputer with
      | none => rfl
      | some i => cases faults.imputer_shrink <;> rfl

/-- Every `add_tree` call that invokes `fit_itree` goes through `add_tree_finish`. -/
theorem add_tree_of_calls (env : Env) (faults : AllocFaults) (a : AddTreeArgs) (c : BuildCall)
    (hcall : (add_tree env faults a).calls = [c]) :
    add_tree env faults a =
        add_tree_finish faults a (a.imputer.map Imputer.emplace_back)
          (add_tree_build env a (a.imputer.map Imputer.emplace_back)) ∧
      c.raised = (add_tree_build env a (a.imputer.map Imputer.emplace_back)).raised := by
  unfold add_tree at hcall ⊢
  split_ifs at hcall ⊢ with h1 h2
  · unfold add_tree_try at hcall ⊢
    cases hf : faults.tree_emplace with
    | some e1 => simp [hf] at hcall
    | none =>
      cases hi : a.imputer with
      | none =>
        simp only [hf, hi, Option.map_none'] at hcall ⊢
        rw [add_tree_finish_calls] at hcall
        simp only [List.cons.injEq, and_true] at hcall
        exact ⟨trivial, by rw [← hcall]⟩
      | some i =>
        cases hie : faults.imputer_emplace with
        | some e2 => simp [hf, hi, hie] at hcall
        | none =>
          simp only [hf, hi, hie, Option.map_some'] at hcall ⊢
          rw [add_tree_finish_calls] at hcall
          simp only [List.cons.injEq, and_true] at hcall
          exact ⟨trivial, by rw [← hcall]⟩

/-- C1: whenever `add_tree` has appended the tree slot and the `fit_itree` call that
follows raises `e`, `add_tree` re-raises `e` and the model object is exactly the one
passed in: same tree (or hyperplane-tree) sequence, same `has_range_penalty`, same
other fields. -/
theorem add_tree_failed_build_restores_model (env : Env) (faults : AllocFaults)
    (a : AddTreeArgs) (c : BuildCall) (e : Failure)
    (hcall : (add_tree env faults a).calls = [c]) (hraise : c.raised = some e) :
    (add_tree env faults a).outcome = Outcome.raised e ∧
      (add_tree env faults a).model = a.model := by
  obtain ⟨heq, hc⟩ := add_tree_of_calls env faults a c hcall
  rw [hraise] at hc
  obtain ⟨h1, h2, -⟩ := add_tree_finish_raised faults a _ _ e hc.symm
  rw [heq]
  exact ⟨h1, h2⟩

theorem add_tree_failed_build_restores_model_witness :
    (add_tree (test_env (some 7)) {}
        (test_add_args (.single test_forest) none)).outcome = Outcome.raised (Failure.escaped 7) ∧
      (add_tree (test_env (some 7)) {}
        (test_add_args (.single test_forest) none)).model = .single test_forest :=
  add_tree_failed_build_restores_model (test_env (some 7)) {}
    (test_add_args (.single test_forest) none)
    { tree_num := 2, worker := 0, seeded := { seed := 12, ndraws := 0 },
      raised := some (Failure.escaped 7) }
    (Failure.escaped 7) (by decide) rfl

theorem Imputer.rollback_paired (i : Imputer) (nodes : List ImputeNode) (n : Nat)
    (hpair : i.imputer_tree.length = n) :
    resize (i.emplace_back.set_back nodes).imputer_tree n [] = i.imputer_tree := by
  subst hpair
  simp [Imputer.emplace_back, Imputer.set_back, set_length_append_singleton,
    resize_append_singleton]

/-- C2: when `add_tree` is called with an imputer paired to the forest (as many imputer
entries as the forest has trees) and the `fit_itree` call raises, the forest has as many
trees and the imputer as many entries after the call as before it, and the entries of
the imputer are the ones it had. -/
theorem add_tree_failed_build_keeps_counts (env : Env) (faults : AllocFaults)
    (a : AddTreeArgs) (i : Imputer) (c : BuildCall) (e : Failure)
    (himp : a.imputer = some i) (hpair : i.imputer_tree.length = a.model.ntrees)
    (hcall : (add_tree env faults a).calls = [c]) (hraise : c.raised = some e) :
    (add_tree env faults a).model.ntrees = a.model.ntrees ∧
      ∃ j, (add_tree env faults a).imputer = some j ∧
        j.imputer_tree.length = i.imputer_tree.length ∧
        j.imputer_tree = i.imputer_tree := by
  obtain ⟨heq, hc⟩ := add_tree_of_calls env faults a c hcall
  rw [hraise] at hc
  obtain ⟨-, h2, h3⟩ := add_tree_finish_raised faults a _ _ e hc.symm
  rw [heq, h2, h3, himp]
  refine ⟨rfl, _, rfl, ?_⟩
  have := Imputer.rollback_paired i
    ((add_tree_build env a (Option.map Imputer.emplace_back (some i))).impute_nodes.getD [])
    a.model.ntrees hpair
  have hlen := congrArg List.length this
  exact ⟨hlen, this⟩

theorem add_tree_failed_build_keeps_counts_witness :
    (add_tree (test_env (some 7)) {}
        (test_add_args (.single test_forest) (some test_imputer))).model.ntrees = 2 ∧
      ∃ j, (add_tree (test_env (some 7)) {}
          (test_add_args (.single test_forest) (some test_imputer))).imputer = some j ∧
        j.imputer_tree.length = 2 ∧ j.imputer_tree = test_imputer.imputer_tree :=
  add_tree_failed_build_keeps_counts (test_env (some 7)) {}
    (test_add_args (.single test_forest) (some test_imputer)) test_imputer
    { tree_num := 2, worker := 0, seeded := { seed := 12, ndraws := 0 },
      raised := some (Failure.escaped 7) }
    (Failure.escaped 7) rfl (by decide) (by decide) rfl

theorem add_tree_finish_returned (faults : AllocFaults) (a : AddTreeArgs)
    (imputer : Option Imputer) (b : TreeBuild) (code : Int)
    (h : (add_tree_finish faults a imputer b).outcome = Outcome.returned code) :
    code = EXIT_SUCCESS ∧
      (add_tree_finish faults a imputer b).model =
        (a.model.emplace_back.set_back b.slot).or_range_penalty a.penalize_range ∧
      (add_tree_finish faults a imputer b).imputer =
        imputer.map (fun i => i.set_back (b.impute_nodes.getD [])) := by
  unfold add_tree_finish at h ⊢
  cases hb : b.raised with
  | some e => simp [hb] at h
  | none =>
    cases ht : faults.tree_shrink with
    | some t => simp [hb, ht] at h
    | none =>
      cases imputer with
      | none =>
        simp only [hb, ht, Option.map_none'] at h ⊢
        simp only [Outcome.returned.injEq] at h
        exact ⟨h.symm, trivial, trivial⟩
      | some i =>
        cases hs : faults.imputer_shrink with
        | some t => simp [hb, ht, hs] at h
        | none =>
          simp only [hb, ht, hs, Option.map_some'] at h ⊢
          simp only [Outcome.returned.injEq] at h
          exact ⟨h.symm, trivial, trivial⟩

/-- The three ways `add_tree` ends once `fit_itree` came back: with the exception of
`fit_itree`, with the exception of a `shrink_to_fit`, or with `EXIT_SUCCESS`. -/
theorem add_tree_finish_outcome (faults : AllocFaults) (a : AddTreeArgs)
    (imputer : Option Imputer) (b : TreeBuild) :
    (∃ e, b.raised = some e ∧
        (add_tree_finish faults a imputer b).outcome = Outcome.raised e) ∨
      (∃ tag, (add_tree_finish faults a imputer b).outcome =
        Outcome.raised (Failure.escaped tag)) ∨
      (add_tree_finish faults a imputer b).outcome = Outcome.returned EXIT_SUCCESS := by
  unfold add_tree_finish
  cases hb : b.raised with
  | some e => exact Or.inl ⟨e, rfl, rfl⟩
  | none =>
    cases ht : faults.tree_shrink with
    | some t => exact Or.inr (Or.inl ⟨t, rfl⟩)
    | none =>
      cases imputer with
      | none => exact Or.inr (Or.inr rfl)
      | some i =>
        cases hs : faults.imputer_shrink with
        | some t => exact Or.inr (Or.inl ⟨t, rfl⟩)
        | none => exact Or.inr (Or.inr rfl)

theorem Model.slots_or_range_penalty (m : Model) (p : Bool) :
    (m.or_range_penalty p).slots = m.slots := by
  cases m <;> rfl

/-- C3: every `add_tree` call that completes without raising returns `EXIT_SUCCESS`,
leaves the tree sequence of the forest equal to the original sequence with one tree
appended at the end, and, when an imputer is supplied, leaves its entry sequence equal to
the original one with one entry appended at the end. -/
theorem add_tree_success_appends_one (env : Env) (faults : AllocFaults) (a : AddTreeArgs)
    (code : Int) (h : (add_tree env faults a).outcome = Outcome.returned code) :
    code = EXIT_SUCCESS ∧
      (∃ s, (add_tree env faults a).model.slots = a.model.slots ++ [s]) ∧
      ∀ i, a.imputer = some i →
        ∃ j n, (add_tree env faults a).imputer = some j ∧
          j.imputer_tree = i.imputer_tree ++ [n] := by
  unfold add_tree at h ⊢
  split_ifs at h ⊢ with h1 h2
  unfold add_tree_try at h ⊢
  cases hf : faults.tree_emplace with
  | some e1 => simp [hf] at h
  | none =>
    have hs := Model.set_back_emplace_back a.model
    cases hi : a.imputer with
    | none =>
      simp only [hf, hi, Option.map_none'] at h ⊢
      obtain ⟨hc, hm, -⟩ := add_tree_finish_returned faults a none _ code h
      obtain ⟨s1, hs1, -, -⟩ := hs (add_tree_build env a none).slot
      refine ⟨hc, ⟨s1, ?_⟩, by simp⟩
      rw [hm, Model.slots_or_range_penalty]
      exact hs1
    | some i =>
      cases hie : faults.imputer_emplace with
      | some e2 => simp [hf, hi, hie] at h
      | none =>
        simp only [hf, hi, hie, Option.map_some'] at h ⊢
        obtain ⟨hc, hm, himp⟩ := add_tree_finish_returned faults a _ _ code h
        obtain ⟨s1, hs1, -, -⟩ := hs (add_tree_build env a (some i.emplace_back)).slot
        refine ⟨hc, ⟨s1, ?_⟩, ?_⟩
        · rw [hm, Model.slots_or_range_penalty]
          exact hs1
        · intro i1 hi1
          cases hi1
          refine ⟨_, (add_tree_build env a (some i.emplace_back)).impute_nodes.getD [], himp, ?_⟩
          simp [Imputer.emplace_back, Imputer.set_back, set_length_append_singleton]

theorem add_tree_success_appends_one_witness :
    (0 : Int) = EXIT_SUCCESS ∧
      (∃ s, (add_tree (test_env none) {}
          (test_add_args (.single test_forest) (some test_imputer))).model.slots =
        (test_add_args (.single test_forest) (some test_imputer)).model.slots ++ [s]) ∧
      ∀ i, (test_add_args (.single test_forest) (some test_imputer)).imputer = some i →
        ∃ j n, (add_tree (test_env none) {}
            (test_add_args (.single test_forest) (some test_imputer))).imputer = some j ∧
          j.imputer_tree = i.imputer_tree ++ [n] :=
  add_tree_success_appends_one (test_env none) {}
    (test_add_args (.single test_forest) (some test_imputer)) 0 (by decide)

/-- C4: `fit_iforest` and `add_tree` raise the configuration error of lines 384 and 794
whenever `prob_pick_by_gain_avg < 0` or `prob_pick_by_gain_pl < 0`, and nothing has
changed by then: the model object, the imputer, the output arrays and the data are the
ones passed in, and `fit_itree` was not invoked (no tree slot created, no row sampled). -/
theorem negative_probabilities_rejected_first (env : Env) (run : Run) (faults : AllocFaults)
    (a : FitArgs) (b : AddTreeArgs) :
    ((a.prob_pick_by_gain_avg < 0 ∨ a.prob_pick_by_gain_pl < 0) →
      (fit_iforest env run a).outcome = Outcome.raised negative_probabilities ∧
      (fit_iforest env run a).model = a.model ∧
      (fit_iforest env run a).imputer = a.imputer ∧
      (fit_iforest env run a).tmat = a.tmat ∧
      (fit_iforest env run a).output_depths = a.output_depths ∧
      (fit_iforest env run a).numeric_data = a.numeric_data ∧
      (fit_iforest env run a).categ_data = a.categ_data ∧
      (fit_iforest env run a).Xc = a.Xc ∧
      (fit_iforest env run a).trace = []) ∧
    ((b.prob_pick_by_gain_avg < 0 ∨ b.prob_pick_by_gain_pl < 0) →
      (add_tree env faults b).outcome = Outcome.raised negative_probabilities ∧
      (add_tree env faults b).model = b.model ∧
      (add_tree env faults b).imputer = b.imputer ∧
      (add_tree env faults b).calls = []) := by
  constructor
  · intro h
    simp [fit_iforest, h]
  · intro h
    simp [add_tree, h]

theorem negative_probabilities_rejected_first_witness :
    ((fit_iforest (test_env none) (test_run (fun _ => false))
        { test_fit_args (.single test_forest) none 3 2 with prob_pick_by_gain_avg := -1 }).outcome
        = Outcome.raised negative_probabilities ∧
      (fit_iforest (test_env none) (test_run (fun _ => false))
        { test_fit_args (.single test_forest) none 3 2 with prob_pick_by_gain_avg := -1 }).model
        = .single test_forest) ∧
    ((add_tree (test_env none) {}
        { test_add_args (.single test_forest) none with prob_pick_by_gain_pl := -1 }).outcome
        = Outcome.raised negative_probabilities ∧
      (add_tree (test_env none) {}
        { test_add_args (.single test_forest) none with prob_pick_by_gain_pl := -1 }).model
        = .single test_forest) :=
  have h := negative_probabilities_rejected_first (test_env none) (test_run (fun _ => false)) {}
    { test_fit_args (.single test_forest) none 3 2 with prob_pick_by_gain_avg := -1 }
    { test_add_args (.single test_forest) none with prob_pick_by_gain_pl := -1 }
  ⟨⟨(h.1 (by decide)).1, (h.1 (by decide)).2.1⟩, ⟨(h.2 (by decide)).1, (h.2 (by decide)).2.1⟩⟩

/-! ### The tree loop -/

theorem fit_itree_begin_rnd_generator (workspace : WorkerMemory) (input_data : InputData)
    (model_params : ModelParams) (tree_num : Nat) :
    (fit_itree_begin workspace input_data model_params tree_num).rnd_generator =
      RndGenerator.reseed ((model_params.random_seed + tree_num) % 2 ^ 64) := by
  simp [fit_itree_begin, add64]

theorem fit_itree_grow_seeded (env : Env) (slot : TreeSlot) (ws : WorkerMemory)
    (input_data : InputData) (model_params : ModelParams)
    (impute_nodes : Option (List ImputeNode)) (seeded : RndGenerator) :
    (fit_itree_grow env slot ws input_data model_params impute_nodes seeded).seeded = seeded := by
  unfold fit_itree_grow
  cases slot <;> simp only <;> split <;> rfl

theorem fit_itree_seeded (env : Env) (slot : TreeSlot) (workspace : WorkerMemory)
    (input_data : InputData) (model_params : ModelParams)
    (impute_nodes : Option (List ImputeNode)) (tree_num : Nat) :
    (fit_itree env slot workspace input_data model_params impute_nodes tree_num).seeded =
      RndGenerator.reseed ((model_params.random_seed + tree_num) % 2 ^ 64) := by
  unfold fit_itree
  simp only
  split
  · exact fit_itree_begin_rnd_generator workspace input_data model_params tree_num
  · split
    · exact fit_itree_begin_rnd_generator workspace input_data model_params tree_num
    · rw [fit_itree_grow_seeded]
      exact fit_itree_begin_rnd_generator workspace input_data model_params tree_num

theorem fit_itree_grow_raised (env : Env) (slot : TreeSlot) (ws : WorkerMemory)
    (input_data : InputData) (model_params : ModelParams)
    (impute_nodes : Option (List ImputeNode)) (seeded : RndGenerator) (e : Failure)
    (h : (fit_itree_grow env slot ws input_data model_params impute_nodes seeded).raised
      = some e) : ∃ tag, e = Failure.escaped tag := by
  unfold fit_itree_grow at h
  cases slot <;> simp only at h <;> split at h <;> simp at h <;> exact ⟨_, h.symm⟩

/-- Every exception that leaves `fit_itree` escaped from one of its callees. -/
theorem fit_itree_raised_escaped (env : Env) (slot : TreeSlot) (workspace : WorkerMemory)
    (input_data : InputData) (model_params : ModelParams)
    (impute_nodes : Option (List ImputeNode)) (tree_num : Nat) (e : Failure)
    (h : (fit_itree env slot workspace input_data model_params impute_nodes tree_num).raised
      = some e) : ∃ tag, e = Failure.escaped tag := by
  unfold fit_itree at h
  simp only at h
  split at h
  · rename_i e1 he1
    simp only [Option.some.injEq] at h
    subst h
    unfold fit_itree_sample at he1
    split at he1
    · simp only [Except.error.injEq] at he1
      exact ⟨_, he1.symm⟩
    · simp at he1
  · split at h
    · rename_i e1 he1
      simp only [Option.some.injEq] at h
      subst h
      unfold fit_itree_kurtosis at he1
      split at he1
      · split at he1
        · simp at he1
        · simp only at he1
          split at he1
          · simp only [Except.error.injEq] at he1
            exact ⟨_, he1.symm⟩
          · simp at he1
      · simp at he1
    · exact fit_itree_grow_raised _ _ _ _ _ _ _ e h

theorem foldl_preserves {σ α : Type} (P : σ → Prop) (f : σ → α → σ) (l : List α) (s : σ)
    (hs : P s) (hf : ∀ s x, x ∈ l → P s → P (f s x)) : P (l.foldl f s) := by
  induction l generalizing s with
  | nil => exact hs
  | cons x l ih =>
    simp only [List.foldl_cons]
    exact ih _ (hf s x (List.mem_cons_self _ _) hs)
      (fun s y hy h => hf s y (List.mem_cons_of_mem _ hy) h)

theorem FirstCaught.append (trace : List LoopEvent) (e : Failure) (ev : LoopEvent)
    (h : FirstCaught trace e) (hev : ev.is_built = false) : FirstCaught (trace ++ [ev]) e := by
  obtain ⟨pre, w, post, ht, hpre, hpost⟩ := h
  refine ⟨pre, w, post ++ [ev], by simp [ht], hpre, ?_⟩
  intro x hx
  rcases List.mem_append.1 hx with hx | hx
  · exact hpost x hx
  · simp only [List.mem_singleton] at hx
    rw [hx]; exact hev

theorem Model.slot_set_slot_ne (m : Model) (t u : Nat) (s : TreeSlot) (h : t ≠ u) :
    (m.set_slot t s).slot u = m.slot u := by
  cases m <;> cases s <;> simp [Model.set_slot, Model.slot, List.getD, List.getElem?_set, h]

theorem grow_catch_inv (run : Run) (seed ntrees : Nat) (m0 : Model) (s : GrowState) (w : Nat)
    (h : GrowInv run seed ntrees m0 s) : GrowInv run seed ntrees m0 (grow_catch s w) := by
  unfold grow_catch
  cases hfind : s.pending.find? (fun p => p.1 == w) with
  | none => exact h
  | some p =>
    have hp : p ∈ s.pending := List.mem_of_find?_eq_some hfind
    simp only
    cases hthrew : s.threw_exception with
    | false =>
      obtain ⟨hnc, -⟩ := h.not_thrown hthrew
      simp only [Bool.not_false, if_true]
      refine ⟨by simp, ?_, ?_, ?_, ?_, ?_, ?_⟩
      · intro _
        exact ⟨p.2, rfl, s.trace, w, [], rfl, hnc, by simp⟩
      · intro c e hc hr
        exact Or.inr rfl
      · intro q hq
        obtain ⟨c, hc, hr⟩ := h.pending_built q (List.mem_of_mem_filter hq)
        exact ⟨c, List.mem_append_left _ hc, hr⟩
      · intro w1 e hc
        rcases List.mem_append.1 hc with hc | hc
        · obtain ⟨c, hc1, hr⟩ := h.caught_built w1 e hc
          exact ⟨c, List.mem_append_left _ hc1, hr⟩
        · simp only [List.mem_singleton, LoopEvent.caught.injEq] at hc
          obtain ⟨c, hc1, hr⟩ := h.pending_built p hp
          exact ⟨c, List.mem_append_left _ hc1, by rw [hr, hc.2]⟩
      · intro c hc
        rcases List.mem_append.1 hc with hc | hc
        · exact h.built_ok c hc
        · simp at hc
      · intro t ht
        exact h.slot_kept t (fun c hc => ht c (List.mem_append_left _ hc))
    | true =>
      obtain ⟨e, hex, hfc⟩ := h.thrown hthrew
      simp only [Bool.not_true, Bool.false_eq_true, if_false]
      refine ⟨by simp [hthrew], ?_, ?_, ?_, ?_, ?_, ?_⟩
      · intro _
        exact ⟨e, hex, FirstCaught.append _ _ _ hfc rfl⟩
      · intro c e hc hr
        exact Or.inr rfl
      · intro q hq
        obtain ⟨c, hc, hr⟩ := h.pending_built q (List.mem_of_mem_filter hq)
        exact ⟨c, List.mem_append_left _ hc, hr⟩
      · intro w1 e1 hc
        rcases List.mem_append.1 hc with hc | hc
        · obtain ⟨c, hc1, hr⟩ := h.caught_built w1 e1 hc
          exact ⟨c, List.mem_append_left _ hc1, hr⟩
        · simp only [List.mem_singleton, LoopEvent.caught.injEq] at hc
          obtain ⟨c, hc1, hr⟩ := h.pending_built p hp
          exact ⟨c, List.mem_append_left _ hc1, by rw [hr, hc.2]⟩
      · intro c hc
        rcases List.mem_append.1 hc with hc | hc
        · exact h.built_ok c hc
        · simp at hc
      · intro t ht
        exact h.slot_kept t (fun c hc => ht c (List.mem_append_left _ hc))

theorem grow_impute_setup_fields (run : Run) (a : FitArgs) (input_data : InputData)
    (model_params : ModelParams) (s : GrowState) (w : Nat) :
    (grow_impute_setup run a input_data model_params s w).model = s.model ∧
    (grow_impute_setup run a input_data model_params s w).imputer = s.imputer ∧
    (grow_impute_setup run a input_data model_params s w).threw_exception = s.threw_exception ∧
    (grow_impute_setup run a input_data model_params s w).ex = s.ex ∧
    (grow_impute_setup run a input_data model_params s w).pending = s.pending ∧
    (grow_impute_setup run a input_data model_params s w).trace = s.trace := by
  unfold grow_impute_setup
  simp only
  split_ifs <;> simp

theorem grow_iteration_inv (env : Env) (run : Run) (a : FitArgs) (input_data : InputData)
    (model_params : ModelParams) (m0 : Model) (s : GrowState) (tree : Nat)
    (htree : tree < a.ntrees)
    (h : GrowInv run model_params.random_seed a.ntrees m0 s) :
    GrowInv run model_params.random_seed a.ntrees m0
      (grow_iteration env run a input_data model_params s tree) := by
  unfold grow_iteration
  simp only
  have h0 : GrowInv run model_params.random_seed a.ntrees m0
      ((run.completes tree ++ [worker_of run a tree]).foldl grow_catch s) :=
    foldl_preserves _ _ _ _ h (fun s x _ hs => grow_catch_inv run _ _ m0 s x hs)
  generalize (run.completes tree ++ [worker_of run a tree]).foldl grow_catch s = s0 at h0 ⊢
  by_cases hskip : (run.interrupt_at_tree tree || s0.threw_exception) = true
  · rw [if_pos hskip]
    refine ⟨?_, ?_, ?_, ?_, ?_, ?_, ?_⟩
    · intro ht
      obtain ⟨hnc, hex⟩ := h0.not_thrown ht
      refine ⟨?_, hex⟩
      intro ev hev
      rcases List.mem_append.1 hev with hev | hev
      · exact hnc ev hev
      · simp only [List.mem_singleton] at hev
        rw [hev]; rfl
    · intro ht
      obtain ⟨e, hex, hfc⟩ := h0.thrown ht
      exact ⟨e, hex, FirstCaught.append _ _ _ hfc rfl⟩
    · intro c e hc hr
      rcases List.mem_append.1 hc with hc | hc
      · exact h0.raised_pending c e hc hr
      · simp at hc
    · intro q hq
      obtain ⟨c, hc, hr⟩ := h0.pending_built q hq
      exact ⟨c, List.mem_append_left _ hc, hr⟩
    · intro w1 e hc
      rcases List.mem_append.1 hc with hc | hc
      · obtain ⟨c, hc1, hr⟩ := h0.caught_built w1 e hc
        exact ⟨c, List.mem_append_left _ hc1, hr⟩
      · simp at hc
    · intro c hc
      rcases List.mem_append.1 hc with hc | hc
      · exact h0.built_ok c hc
      · simp at hc
    · intro t ht
      exact h0.slot_kept t (fun c hc => ht c (List.mem_append_left _ hc))
  · rw [if_neg hskip]
    simp only [Bool.or_eq_true, not_or, Bool.not_eq_true] at hskip
    obtain ⟨hint, hthrew⟩ := hskip
    obtain ⟨f1, f2, f3, f4, f5, f6⟩ :=
      grow_impute_setup_fields run a input_data model_params s0 (worker_of run a tree)
    generalize grow_impute_setup run a input_data model_params s0 (worker_of run a tree) = s1
      at f1 f2 f3 f4 f5 f6 ⊢
    generalize hb : fit_itree env (s1.model.slot tree)
      (s1.worker_memory.getD (worker_of run a tree) {}) input_data model_params
      (Option.map (fun i => i.imputer_tree.getD tree []) s1.imputer) tree = b
    have hseed : b.seeded = RndGenerator.reseed ((model_params.random_seed + tree) % 2 ^ 64) := by
      rw [← hb]; exact fit_itree_seeded _ _ _ _ _ _ _
    obtain ⟨hnc, hex⟩ := h0.not_thrown hthrew
    refine ⟨?_, ?_, ?_, ?_, ?_, ?_, ?_⟩
    · intro _
      simp only [f4, f6]
      refine ⟨?_, hex⟩
      intro ev hev
      rcases List.mem_append.1 hev with hev | hev
      · exact hnc ev hev
      · simp only [List.mem_singleton] at hev
        rw [hev]; rfl
    · intro ht
      simp only [f3, hthrew] at ht
      exact absurd ht (by simp)
    · intro c e hc hr
      simp only [f6] at hc
      rcases List.mem_append.1 hc with hc | hc
      · rcases h0.raised_pending c e hc hr with hp | hp
        · left
          simp only [f5]
          cases b.raised with
          | none => exact hp
          | some e1 => exact List.mem_append_left _ hp
        · rw [hthrew] at hp; exact absurd hp (by simp)
      · simp only [List.mem_singleton, LoopEvent.built.injEq] at hc
        subst hc
        simp only at hr
        left
        simp only [f5, hr]
        exact List.mem_append_right _ (List.mem_singleton_self _)
    · intro q hq
      simp only [f5, f6] at hq ⊢
      have hold : ∀ l : List LoopEvent, q ∈ s0.pending →
          ∃ c, LoopEvent.built c ∈ s0.trace ++ l ∧ c.raised = some q.2 := by
        intro l hq0
        obtain ⟨c, hc, hr⟩ := h0.pending_built q hq0
        exact ⟨c, List.mem_append_left _ hc, hr⟩
      cases hbr : b.raised with
      | none =>
        rw [hbr] at hq
        exact hold _ hq
      | some e1 =>
        rw [hbr] at hq
        rcases List.mem_append.1 hq with hq | hq
        · exact hold _ hq
        · simp only [List.mem_singleton] at hq
          subst hq
          exact ⟨_, List.mem_append_right _ (List.mem_singleton_self _), rfl⟩
    · intro w1 e hc
      simp only [f6] at hc ⊢
      rcases List.mem_append.1 hc with hc | hc
      · obtain ⟨c, hc1, hr⟩ := h0.caught_built w1 e hc
        exact ⟨c, List.mem_append_left _ hc1, hr⟩
      · simp at hc
    · intro c hc
      simp only [f6] at hc
      rcases List.mem_append.1 hc with hc | hc
      · exact h0.built_ok c hc
      · simp only [List.mem_singleton, LoopEvent.built.injEq] at hc
        subst hc
        refine ⟨htree, hint, hseed, ?_⟩
        intro e he
        simp only at he
        rw [← hb] at he
        exact fit_itree_raised_escaped _ _ _ _ _ _ _ e he
    · intro t ht
      simp only [f6] at ht
      have hne : tree ≠ t := by
        intro heq
        exact ht ⟨tree, worker_of run a tree, b.seeded, b.raised⟩
          (List.mem_append_right _ (List.mem_singleton_self _)) heq
      simp only
      rw [Model.slot_set_slot_ne _ _ _ _ hne, f1]
      exact h0.slot_kept t (fun c hc => ht c (List.mem_append_left _ hc))

theorem grow_catch_thrown_mono (s : GrowState) (w : Nat) (h : s.threw_exception = true) :
    (grow_catch s w).threw_exception = true := by
  unfold grow_catch
  split
  · exact h
  · simp [h]

theorem grow_catch_thrown_of_pending (s : GrowState) (p : Nat × Failure) (hp : p ∈ s.pending) :
    (grow_catch s p.1).threw_exception = true := by
  unfold grow_catch
  split
  · rename_i hnone
    rw [List.find?_eq_none] at hnone
    exact absurd (hnone p hp) (by simp)
  · simp only
    split_ifs with h
    · rfl
    · simpa using h

theorem grow_catch_pending_ne (s : GrowState) (w : Nat) (p : Nat × Failure) (hp : p ∈ s.pending)
    (hne : p.1 ≠ w) : p ∈ (grow_catch s w).pending := by
  unfold grow_catch
  split
  · exact hp
  · simp only
    split_ifs <;> simp [List.mem_filter, hp, hne]

theorem foldl_grow_catch_thrown_mono (l : List Nat) (s : GrowState)
    (h : s.threw_exception = true) : (l.foldl grow_catch s).threw_exception = true := by
  induction l generalizing s with
  | nil => exact h
  | cons x l ih => exact ih _ (grow_catch_thrown_mono s x h)

theorem foldl_grow_catch_thrown (l : List Nat) (s : GrowState) (p : Nat × Failure)
    (hp : p ∈ s.pending) (hl : p.1 ∈ l) : (l.foldl grow_catch s).threw_exception = true := by
  induction l generalizing s with
  | nil => simp at hl
  | cons x l ih =>
    simp only [List.foldl_cons]
    by_cases hx : p.1 = x
    · subst hx
      exact foldl_grow_catch_thrown_mono l _ (grow_catch_thrown_of_pending s p hp)
    · have hl1 : p.1 ∈ l := by
        rcases List.mem_cons.1 hl with h | h
        · exact absurd h hx
        · exact h
      exact ih _ (grow_catch_pending_ne s x p hp hx) hl1

theorem grow_catch_built_mem (s : GrowState) (w : Nat) (c : BuildCall)
    (h : LoopEvent.built c ∈ (grow_catch s w).trace) : LoopEvent.built c ∈ s.trace := by
  unfold grow_catch at h
  split at h
  · exact h
  · simp only at h
    split_ifs at h <;> simpa using h

theorem foldl_grow_catch_built_mem (l : List Nat) (s : GrowState) (c : BuildCall)
    (h : LoopEvent.built c ∈ (l.foldl grow_catch s).trace) : LoopEvent.built c ∈ s.trace := by
  induction l generalizing s with
  | nil => exact h
  | cons x l ih => exact grow_catch_built_mem s x c (ih _ h)

/-- The state at the barrier that ends the parallel region: the invariant holds and the
exception of every build that raised has been through its `catch` block. -/
theorem grow_trees_inv (env : Env) (run : Run) (a : FitArgs) (input_data : InputData)
    (model_params : ModelParams) (m0 : Model) (s : GrowState)
    (h : GrowInv run model_params.random_seed a.ntrees m0 s) :
    GrowInv run model_params.random_seed a.ntrees m0
        (grow_trees env run a input_data model_params s) ∧
      ((∃ c e, LoopEvent.built c ∈ (grow_trees env run a input_data model_params s).trace ∧
          c.raised = some e) →
        (grow_trees env run a input_data model_params s).threw_exception = true) := by
  unfold grow_trees
  simp only
  have h1 : GrowInv run model_params.random_seed a.ntrees m0
      ((List.range a.ntrees).foldl (grow_iteration env run a input_data model_params) s) :=
    foldl_preserves _ _ _ _ h
      (fun s x hx hs =>
        grow_iteration_inv env run a input_data model_params m0 s x (List.mem_range.1 hx) hs)
  generalize (List.range a.ntrees).foldl (grow_iteration env run a input_data model_params) s
    = s1 at h1 ⊢
  have h2 : GrowInv run model_params.random_seed a.ntrees m0
      ((run.completes a.ntrees ++ s1.pending.map Prod.fst).foldl grow_catch s1) :=
    foldl_preserves _ _ _ _ h1 (fun s x _ hs => grow_catch_inv run _ _ m0 s x hs)
  refine ⟨h2, ?_⟩
  rintro ⟨c, e, hc, hr⟩
  by_contra hnot
  simp only [Bool.not_eq_true] at hnot
  obtain ⟨hnc, -⟩ := h2.not_thrown hnot
  have hthrew1 : s1.threw_exception = false := by
    by_contra hx
    simp only [Bool.not_eq_false] at hx
    rw [foldl_grow_catch_thrown_mono _ _ hx] at hnot
    exact absurd hnot (by simp)
  have hsame : LoopEvent.built c ∈ s1.trace := foldl_grow_catch_built_mem _ _ c hc
  rcases h1.raised_pending c e hsame hr with hp | hp
  · have := foldl_grow_catch_thrown (run.completes a.ntrees ++ s1.pending.map Prod.fst) s1
      (c.worker, e) hp
      (List.mem_append_right _ (List.mem_map.2 ⟨(c.worker, e), hp, rfl⟩))
    rw [this] at hnot
    exact absurd hnot (by simp)
  · rw [hthrew1] at hp
    exact absurd hp (by simp)

/-! ### After the parallel region -/

theorem interrupt_check_some (run : Run) (k : Nat) (o : Outcome)
    (h : interrupt_check run k = some o) :
    run.interrupt_at_check k = true ∧
      ((run.dont_throw_on_interrupt = true ∧ o = Outcome.returned EXIT_FAILURE) ∨
        (run.dont_throw_on_interrupt = false ∧
          o = Outcome.raised (.runtime_error "Error: procedure was interrupted.\n"))) := by
  unfold interrupt_check check_interrupt_switch at h
  cases hi : run.interrupt_at_check k <;> cases hd : run.dont_throw_on_interrupt <;>
    simp [hi, hd] at h ⊢ <;> exact h.symm

theorem interrupt_check_none (run : Run) (k : Nat) (h : run.interrupt_at_check k = false) :
    interrupt_check run k = none := by
  simp [interrupt_check, check_interrupt_switch, h]

theorem fit_finish_trace_model (env : Env) (run : Run) (a : FitArgs) (input_data : InputData)
    (model_params : ModelParams) (s : GrowState) :
    (fit_finish env run a input_data model_params s).trace = s.trace ∧
      (fit_finish env run a input_data model_params s).model = s.model := by
  unfold fit_finish
  simp only
  repeat' split
  all_goals exact ⟨rfl, rfl⟩

/-- The ways `fit_iforest` can end once the parallel region is over. -/
theorem fit_finish_outcome (env : Env) (run : Run) (a : FitArgs) (input_data : InputData)
    (model_params : ModelParams) (s : GrowState) :
    (∃ k, k < 4 ∧
        interrupt_check run k = some (fit_finish env run a input_data model_params s).outcome) ∨
      (interrupt_check run 0 = none ∧ s.threw_exception = true ∧
        ((∃ e, s.ex = some e ∧
            (fit_finish env run a input_data model_params s).outcome = Outcome.raised e) ∨
          s.ex = none)) ∨
      (s.threw_exception = false ∧ model_params.impute_at_fit = true ∧ s.imputer = none ∧
        (fit_finish env run a input_data model_params s).outcome = Outcome.null_dereference) ∨
      (s.threw_exception = false ∧ (∀ k, k < 4 → interrupt_check run k = none) ∧
        (fit_finish env run a input_data model_params s).outcome =
          Outcome.returned EXIT_SUCCESS) := by
  unfold fit_finish
  simp only
  cases h0 : interrupt_check run 0 with
  | some o => exact Or.inl ⟨0, by decide, by simp [h0]⟩
  | none =>
    simp only
    cases ht : s.threw_exception with
    | true =>
      right; left
      refine ⟨by first | rfl | trivial, rfl, ?_⟩
      cases hex : s.ex with
      | none => exact Or.inr rfl
      | some e => exact Or.inl ⟨e, rfl, by simp⟩
    | false =>
      simp only [Bool.false_eq_true, if_false]
      cases h1 : interrupt_check run 1 with
      | some o => exact Or.inl ⟨1, by decide, by simp [h1]⟩
      | none =>
        simp only
        cases h2 : interrupt_check run 2 with
        | some o => exact Or.inl ⟨2, by decide, by simp [h2]⟩
        | none =>
          simp only
          have hall : interrupt_check run 3 = none →
              ∀ k, k < 4 → interrupt_check run k = none := by
            intro h3 k hk
            interval_cases k <;> assumption
          cases himp : model_params.impute_at_fit with
          | true =>
            simp only [if_true]
            cases hi : s.imputer with
            | none => exact Or.inr (Or.inr (Or.inl ⟨(by first | rfl | trivial), (by first | rfl | trivial), rfl, by simp⟩))
            | some i =>
              simp only
              cases h3 : interrupt_check run 3 with
              | some o => exact Or.inl ⟨3, by decide, by simp [h3]⟩
              | none =>
                refine Or.inr (Or.inr (Or.inr ⟨(by first | rfl | trivial), hall h3, ?_⟩))
                split_ifs <;> rfl
          | false =>
            simp only [Bool.false_eq_true, if_false]
            cases h3 : interrupt_check run 3 with
            | some o => exact Or.inl ⟨3, by decide, by simp [h3]⟩
            | none =>
              refine Or.inr (Or.inr (Or.inr ⟨(by first | rfl | trivial), hall h3, ?_⟩))
              split_ifs <;> rfl

theorem grow_catch_imputer (s : GrowState) (w : Nat) : (grow_catch s w).imputer = s.imputer := by
  unfold grow_catch
  split
  · rfl
  · simp only
    split_ifs <;> rfl

theorem grow_iteration_imputer_isSome (env : Env) (run : Run) (a : FitArgs)
    (input_data : InputData) (model_params : ModelParams) (s : GrowState) (tree : Nat) :
    (grow_iteration env run a input_data model_params s tree).imputer.isSome =
      s.imputer.isSome := by
  have h0 : ((run.completes tree ++ [worker_of run a tree]).foldl grow_catch s).imputer
      = s.imputer :=
    foldl_preserves (fun x : GrowState => x.imputer = s.imputer) _ _ _ rfl
      (fun x w _ hx => by simp only [grow_catch_imputer]; exact hx)
  unfold grow_iteration
  simp only
  generalize (run.completes tree ++ [worker_of run a tree]).foldl grow_catch s = s0 at h0 ⊢
  split_ifs
  · simp [h0]
  · obtain ⟨-, f2, -⟩ :=
      grow_impute_setup_fields run a input_data model_params s0 (worker_of run a tree)
    simp [f2, h0]

theorem grow_trees_imputer_isSome (env : Env) (run : Run) (a : FitArgs)
    (input_data : InputData) (model_params : ModelParams) (s : GrowState) :
    (grow_trees env run a input_data model_params s).imputer.isSome = s.imputer.isSome := by
  unfold grow_trees
  simp only
  have h1 : ((List.range a.ntrees).foldl
      (grow_iteration env run a input_data model_params) s).imputer.isSome = s.imputer.isSome :=
    foldl_preserves (fun x : GrowState => x.imputer.isSome = s.imputer.isSome) _ _ _ rfl
      (fun x t _ hx => by simp only [grow_iteration_imputer_isSome]; exact hx)
  generalize (List.range a.ntrees).foldl (grow_iteration env run a input_data model_params) s
    = s1 at h1 ⊢
  exact foldl_preserves (fun x : GrowState => x.imputer.isSome = s.imputer.isSome) _ _ _ h1
    (fun x w _ hx => by simp only [grow_catch_imputer]; exact hx)

theorem fit_loop_init_inv (env : Env) (run : Run) (a : FitArgs) :
    GrowInv run a.random_seed a.ntrees
      (fit_store_model env a (fit_missing env a).1 (fit_model_params env a))
      (fit_loop_init env run a) :=
  ⟨fun _ => ⟨by simp [fit_loop_init], rfl⟩, fun h => by simp [fit_loop_init] at h,
    by simp [fit_loop_init], by simp [fit_loop_init], by simp [fit_loop_init],
    by simp [fit_loop_init], fun _ _ => rfl⟩

/-- A call that passes the configuration checks runs the parallel region and what follows
it; at the end of the region the loop invariant holds, every exception raised by a build
has been captured, and the imputer is present exactly when one was passed. -/
theorem fit_iforest_accepted (env : Env) (run : Run) (a : FitArgs)
    (h1 : ¬(a.prob_pick_by_gain_avg < 0 ∨ a.prob_pick_by_gain_pl < 0))
    (h2 : ¬(a.ndim = 0 ∧ a.model.is_single = false)) :
    fit_iforest env run a =
        fit_finish env run a (fit_missing env a).1 (fit_model_params env a)
          (fit_grown env run a) ∧
      GrowInv run a.random_seed a.ntrees
        (fit_store_model env a (fit_missing env a).1 (fit_model_params env a))
        (fit_grown env run a) ∧
      ((∃ c e, LoopEvent.built c ∈ (fit_grown env run a).trace ∧ c.raised = some e) →
        (fit_grown env run a).threw_exception = true) ∧
      (fit_grown env run a).imputer.isSome = a.imputer.isSome := by
  have hinv := grow_trees_inv env run a (fit_missing env a).1 (fit_model_params env a)
    (fit_store_model env a (fit_missing env a).1 (fit_model_params env a))
    (fit_loop_init env run a) (fit_loop_init_inv env run a)
  refine ⟨?_, hinv.1, hinv.2, ?_⟩
  · unfold fit_iforest
    rw [if_neg h1, if_neg h2]
  · unfold fit_grown
    rw [grow_trees_imputer_isSome]
    simp [fit_loop_init]

/-! ### Configuration checks -/

theorem interrupted_ne_ndim_zero_extended :
    Failure.runtime_error "Error: procedure was interrupted.\n" ≠ ndim_zero_extended := by
  decide

theorem fit_iforest_accepted_outcome (env : Env) (run : Run) (a : FitArgs)
    (h1 : ¬(a.prob_pick_by_gain_avg < 0 ∨ a.prob_pick_by_gain_pl < 0))
    (h2 : ¬(a.ndim = 0 ∧ a.model.is_single = false)) :
    (fit_iforest env run a).outcome ≠ Outcome.raised ndim_zero_extended := by
  obtain ⟨heq, hinv, -, -⟩ := fit_iforest_accepted env run a h1 h2
  rw [heq]
  intro hout
  rcases fit_finish_outcome env run a (fit_missing env a).1 (fit_model_params env a)
    (fit_grown env run a) with ⟨k, -, hk⟩ | ⟨-, ht, hex⟩ | ⟨-, -, -, ho⟩ | ⟨-, -, ho⟩
  · obtain ⟨-, h | h⟩ := interrupt_check_some run k _ hk
    · rw [hout] at h; simp at h
    · rw [hout] at h
      simp only [Outcome.raised.injEq] at h
      exact interrupted_ne_ndim_zero_extended h.2.symm
  · obtain ⟨e, he, pre, w, post, htr, -, -⟩ := hinv.thrown ht
    rcases hex with ⟨e1, he1, ho⟩ | hnone
    · rw [he] at he1
      cases he1
      obtain ⟨c, hc, hr⟩ := hinv.caught_built w e (by rw [htr]; simp)
      obtain ⟨tag, htag⟩ := (hinv.built_ok c hc).2.2.2 e hr
      rw [hout, htag] at ho
      simp [ndim_zero_extended] at ho
    · rw [he] at hnone; simp at hnone
  · rw [hout] at ho; simp at ho
  · rw [hout] at ho; simp at ho

theorem add_tree_try_outcome (env : Env) (faults : AllocFaults) (a : AddTreeArgs) :
    (add_tree_try env faults a).outcome ≠ Outcome.raised ndim_zero_extended := by
  unfold add_tree_try
  cases hf : faults.tree_emplace with
  | some tag => simp [ndim_zero_extended]
  | none =>
    have hfin : ∀ imp, (add_tree_finish faults a imp (add_tree_build env a imp)).outcome ≠
        Outcome.raised ndim_zero_extended := by
      intro imp
      rcases add_tree_finish_outcome faults a imp (add_tree_build env a imp) with
        ⟨e, hb, ho⟩ | ⟨tag, ho⟩ | ho
      · obtain ⟨tag, htag⟩ := fit_itree_raised_escaped _ _ _ _ _ _ _ e hb
        rw [ho, htag]
        simp [ndim_zero_extended]
      · rw [ho]
        simp [ndim_zero_extended]
      · rw [ho]
        simp
    cases hi : a.imputer with
    | none => exact hfin _
    | some i =>
      cases hie : faults.imputer_emplace with
      | some tag => simp [ndim_zero_extended]
      | none => exact hfin _

/-- C5: among calls whose probabilities pass the first check, `fit_iforest` and `add_tree`
raise the `ndim` error exactly when `ndim = 0` and no single-variable model object is
supplied; the rejected call has changed neither the model object nor the imputer and has
invoked no tree build; with a single-variable model object any `ndim` is accepted and the
model parameters record `ndim` as `0`. -/
theorem ndim_rejected_iff_zero_and_extended (env : Env) (run : Run) (faults : AllocFaults)
    (a : FitArgs) (b : AddTreeArgs)
    (ha : ¬(a.prob_pick_by_gain_avg < 0 ∨ a.prob_pick_by_gain_pl < 0))
    (hb : ¬(b.prob_pick_by_gain_avg < 0 ∨ b.prob_pick_by_gain_pl < 0)) :
    (((fit_iforest env run a).outcome = Outcome.raised ndim_zero_extended ↔
        a.ndim = 0 ∧ a.model.is_single = false) ∧
      ((fit_iforest env run a).outcome = Outcome.raised ndim_zero_extended →
        (fit_iforest env run a).model = a.model ∧
        (fit_iforest env run a).imputer = a.imputer ∧
        (fit_iforest env run a).trace = []) ∧
      (a.model.is_single = true →
        (fit_iforest env run a).outcome ≠ Outcome.raised ndim_zero_extended ∧
        (fit_model_params env a).ndim = 0)) ∧
    (((add_tree env faults b).outcome = Outcome.raised ndim_zero_extended ↔
        b.ndim = 0 ∧ b.model.is_single = false) ∧
      ((add_tree env faults b).outcome = Outcome.raised ndim_zero_extended →
        (add_tree env faults b).model = b.model ∧
        (add_tree env faults b).imputer = b.imputer ∧
        (add_tree env faults b).calls = []) ∧
      (b.model.is_single = true →
        (add_tree env faults b).outcome ≠ Outcome.raised ndim_zero_extended ∧
        (add_tree_model_params b).ndim = 0)) := by
  have hfit : (fit_iforest env run a).outcome = Outcome.raised ndim_zero_extended ↔
      a.ndim = 0 ∧ a.model.is_single = false := by
    constructor
    · intro h
      by_contra hn
      exact fit_iforest_accepted_outcome env run a ha hn h
    · intro h
      simp [fit_iforest, ha, h]
  have hadd : (add_tree env faults b).outcome = Outcome.raised ndim_zero_extended ↔
      b.ndim = 0 ∧ b.model.is_single = false := by
    constructor
    · intro h
      by_contra hn
      unfold add_tree at h
      rw [if_neg hb, if_neg hn] at h
      exact add_tree_try_outcome env faults b h
    · intro h
      simp [add_tree, hb, h]
  refine ⟨⟨hfit, ?_, ?_⟩, ⟨hadd, ?_, ?_⟩⟩
  · intro h
    have h2 := hfit.1 h
    simp [fit_iforest, ha, h2]
  · intro h
    refine ⟨fun hx => ?_, by simp [fit_model_params, h]⟩
    have := (hfit.1 hx).2
    rw [h] at this
    exact absurd this (by simp)
  · intro h
    have h2 := hadd.1 h
    simp [add_tree, hb, h2]
  · intro h
    refine ⟨fun hx => ?_, by simp [add_tree_model_params, h]⟩
    have := (hadd.1 hx).2
    rw [h] at this
    exact absurd this (by simp)

theorem ndim_rejected_iff_zero_and_extended_witness :
    ((fit_iforest (test_env none) (test_run (fun _ => false))
        { test_fit_args (.extended test_ext_forest) none 3 2 with ndim := 0 }).outcome
        = Outcome.raised ndim_zero_extended ↔
      (0 : Nat) = 0 ∧ (Model.extended test_ext_forest).is_single = false) ∧
    ((add_tree (test_env none) {}
        { test_add_args (.single test_forest) none with ndim := 0 }).outcome
        = Outcome.raised ndim_zero_extended ↔
      (0 : Nat) = 0 ∧ (Model.single test_forest).is_single = false) :=
  have h := ndim_rejected_iff_zero_and_extended (test_env none) (test_run (fun _ => false)) {}
    { test_fit_args (.extended test_ext_forest) none 3 2 with ndim := 0 }
    { test_add_args (.single test_forest) none with ndim := 0 }
    (by decide) (by decide)
  ⟨h.1.1, h.2.1⟩

/-! ### Seeding, interrupts and failures of the tree loop -/

theorem fit_iforest_trace_built (env : Env) (run : Run) (a : FitArgs) (c : BuildCall)
    (hc : LoopEvent.built c ∈ (fit_iforest env run a).trace) :
    (¬(a.prob_pick_by_gain_avg < 0 ∨ a.prob_pick_by_gain_pl < 0)) ∧
      ¬(a.ndim = 0 ∧ a.model.is_single = false) := by
  refine ⟨fun h => ?_, fun h => ?_⟩
  · simp [fit_iforest, h] at hc
  · by_cases h1 : a.prob_pick_by_gain_avg < 0 ∨ a.prob_pick_by_gain_pl < 0
    · simp [fit_iforest, h1] at hc
    · simp [fit_iforest, h1, h] at hc

theorem add_tree_calls_mem (env : Env) (faults : AllocFaults) (a : AddTreeArgs) (c : BuildCall)
    (hc : c ∈ (add_tree env faults a).calls) :
    c.tree_num = a.model.ntrees ∧
      c.seeded = RndGenerator.reseed ((a.random_seed + a.model.ntrees) % 2 ^ 64) := by
  have key : ∀ imp, c ∈ (add_tree_finish faults a imp (add_tree_build env a imp)).calls →
      c.tree_num = a.model.ntrees ∧
        c.seeded = RndGenerator.reseed ((a.random_seed + a.model.ntrees) % 2 ^ 64) := by
    intro imp h
    rw [add_tree_finish_calls] at h
    simp only [List.mem_singleton] at h
    subst h
    exact ⟨rfl, fit_itree_seeded _ _ _ _ _ _ _⟩
  unfold add_tree at hc
  split_ifs at hc
  · simp at hc
  · simp at hc
  · unfold add_tree_try at hc
    cases hf : faults.tree_emplace with
    | some tag => simp [hf] at hc
    | none =>
      cases hi : a.imputer with
      | none =>
        simp only [hf, hi] at hc
        exact key _ hc
      | some i =>
        cases hie : faults.imputer_emplace with
        | some tag => simp [hf, hi, hie] at hc
        | none =>
          simp only [hf, hi, hie] at hc
          exact key _ hc

/-- C6: every tree build seeds the random engine, before anything draws from it, with
`(random_seed + tree_num) mod 2^64`, whatever the worker memory it is given holds; in
`fit_iforest` the tree number of a build is its loop index `t < ntrees`, and in `add_tree`
it is the number of trees the forest had before the call. -/
theorem tree_seed_is_base_seed_plus_index (env : Env) (run : Run) (faults : AllocFaults)
    (a : FitArgs) (b : AddTreeArgs) :
    (∀ (slot : TreeSlot) (workspace : WorkerMemory) (input_data : InputData)
        (model_params : ModelParams) (impute_nodes : Option (List ImputeNode)) (tree_num : Nat),
      (fit_itree_begin workspace input_data model_params tree_num).rnd_generator =
          RndGenerator.reseed ((model_params.random_seed + tree_num) % 2 ^ 64) ∧
        (fit_itree env slot workspace input_data model_params impute_nodes tree_num).seeded =
          RndGenerator.reseed ((model_params.random_seed + tree_num) % 2 ^ 64)) ∧
    (∀ c, LoopEvent.built c ∈ (fit_iforest env run a).trace →
      c.tree_num < a.ntrees ∧
        c.seeded = RndGenerator.reseed ((a.random_seed + c.tree_num) % 2 ^ 64)) ∧
    (∀ c, c ∈ (add_tree env faults b).calls →
      c.tree_num = b.model.ntrees ∧
        c.seeded = RndGenerator.reseed ((b.random_seed + b.model.ntrees) % 2 ^ 64)) := by
  refine ⟨fun slot ws d mp imp t =>
    ⟨fit_itree_begin_rnd_generator ws d mp t, fit_itree_seeded env slot ws d mp imp t⟩, ?_,
    add_tree_calls_mem env faults b⟩
  intro c hc
  obtain ⟨h1, h2⟩ := fit_iforest_trace_built env run a c hc
  obtain ⟨heq, hinv, -, -⟩ := fit_iforest_accepted env run a h1 h2
  rw [heq, (fit_finish_trace_model _ _ _ _ _ _).1] at hc
  obtain ⟨hlt, -, hseed, -⟩ := hinv.built_ok c hc
  exact ⟨hlt, hseed⟩

theorem fit_store_model_slot (env : Env) (a : FitArgs) (input_data : InputData)
    (model_params : ModelParams) (t : Nat) (ht : t < a.ntrees) :
    (fit_store_model env a input_data model_params).slot t = a.model.slot t := by
  unfold fit_store_model
  cases hm : a.model with
  | single f =>
    simp only [Model.slot, resize, TreeSlot.tree.injEq, List.getD_eq_getElem?_getD]
    by_cases hl : t < f.trees.length
    · rw [List.getElem?_append_left (by simp [ht, hl])]
      simp [List.getElem?_take, ht]
    · rw [List.getElem?_append_right (by simp; omega)]
      simp only [not_lt] at hl
      rw [List.getElem?_eq_none (l := f.trees) hl]
      by_cases hx : t - (List.take a.ntrees f.trees).length
          < (List.replicate (a.ntrees - f.trees.length) ([] : List IsoTree)).length
      · rw [List.getElem?_eq_getElem hx]; simp
      · rw [List.getElem?_eq_none (by omega)]
  | extended f =>
    simp only [Model.slot, resize, TreeSlot.hplane.injEq, List.getD_eq_getElem?_getD]
    by_cases hl : t < f.hplanes.length
    · rw [List.getElem?_append_left (by simp [ht, hl])]
      simp [List.getElem?_take, ht]
    · rw [List.getElem?_append_right (by simp; omega)]
      simp only [not_lt] at hl
      rw [List.getElem?_eq_none (l := f.hplanes) hl]
      by_cases hx : t - (List.take a.ntrees f.hplanes).length
          < (List.replicate (a.ntrees - f.hplanes.length) ([] : List IsoHPlane)).length
      · rw [List.getElem?_eq_getElem hx]; simp
      · rw [List.getElem?_eq_none (by omega)]

theorem fit_finish_rethrow (env : Env) (run : Run) (a : FitArgs) (input_data : InputData)
    (model_params : ModelParams) (s : GrowState) (e : Failure)
    (h0 : run.interrupt_at_check 0 = false) (ht : s.threw_exception = true)
    (hex : s.ex = some e) :
    (fit_finish env run a input_data model_params s).outcome = Outcome.raised e := by
  unfold fit_finish
  simp [interrupt_check_none run 0 h0, ht, hex]

/-- C9 (as stated, refuted): a model object that already holds a tree is passed to
`fit_iforest`; the iteration of tree `0` begins with the interrupt switch set, and the
slot of tree `0` is not empty afterwards, it still holds the node it held. -/
theorem interrupted_slot_not_empty :
    (test_run (fun _ => true)).interrupt_at_tree 0 = true ∧
      ((fit_iforest (test_env none) (test_run (fun _ => true))
        (test_fit_args (.single test_forest) none 2 1)).model.slot 0).size ≠ 0 := by
  decide

/-- C9 (amended): for every tree index `t < ntrees` whose loop iteration reads the
interrupt switch as set, `fit_itree` is not invoked for `t` and the slot of tree `t`
is left as the resize of lines 439 and 452 left it: it holds what the model object that
was passed in held at index `t`, and is empty when that object held no tree there. -/
theorem interrupted_iteration_builds_nothing (env : Env) (run : Run) (a : FitArgs) (t : Nat)
    (ht : t < a.ntrees) (hint : run.interrupt_at_tree t = true) :
    (∀ c, LoopEvent.built c ∈ (fit_iforest env run a).trace → c.tree_num ≠ t) ∧
      (fit_iforest env run a).model.slot t = a.model.slot t ∧
      (a.model.ntrees ≤ t → ((fit_iforest env run a).model.slot t).size = 0) := by
  have hbuilt : ∀ c, LoopEvent.built c ∈ (fit_iforest env run a).trace → c.tree_num ≠ t := by
    intro c hc heq
    obtain ⟨h1, h2⟩ := fit_iforest_trace_built env run a c hc
    obtain ⟨hfin, hinv, -, -⟩ := fit_iforest_accepted env run a h1 h2
    rw [hfin, (fit_finish_trace_model _ _ _ _ _ _).1] at hc
    have := (hinv.built_ok c hc).2.1
    rw [heq, hint] at this
    exact absurd this (by simp)
  have hslot : (fit_iforest env run a).model.slot t = a.model.slot t := by
    by_cases h1 : a.prob_pick_by_gain_avg < 0 ∨ a.prob_pick_by_gain_pl < 0
    · simp [fit_iforest, h1]
    · by_cases h2 : a.ndim = 0 ∧ a.model.is_single = false
      · simp [fit_iforest, h1, h2]
      · obtain ⟨hfin, hinv, -, -⟩ := fit_iforest_accepted env run a h1 h2
        have hb := hbuilt
        rw [hfin, (fit_finish_trace_model _ _ _ _ _ _).1] at hb
        rw [hfin, (fit_finish_trace_model _ _ _ _ _ _).2, hinv.slot_kept t hb]
        exact fit_store_model_slot env a _ _ t ht
  refine ⟨hbuilt, hslot, ?_⟩
  intro hle
  rw [hslot]
  cases hm : a.model with
  | single f =>
    rw [hm] at hle
    simp only [Model.ntrees] at hle
    simp [Model.slot, TreeSlot.size, List.getD_eq_getElem?_getD, List.getElem?_eq_none hle]
  | extended f =>
    rw [hm] at hle
    simp only [Model.ntrees] at hle
    simp [Model.slot, TreeSlot.size, List.getD_eq_getElem?_getD, List.getElem?_eq_none hle]

theorem interrupted_iteration_builds_nothing_witness :
    (∀ c, LoopEvent.built c ∈ (fit_iforest (test_env none) (test_run (fun t => decide (1 ≤ t)))
        (test_fit_args (.extended test_ext_forest) none 3 2)).trace → c.tree_num ≠ 1) ∧
      (fit_iforest (test_env none) (test_run (fun t => decide (1 ≤ t)))
        (test_fit_args (.extended test_ext_forest) none 3 2)).model.slot 1
        = (test_fit_args (.extended test_ext_forest) none 3 2).model.slot 1 ∧
      ((test_fit_args (.extended test_ext_forest) none 3 2).model.ntrees ≤ 1 →
        ((fit_iforest (test_env none) (test_run (fun t => decide (1 ≤ t)))
          (test_fit_args (.extended test_ext_forest) none 3 2)).model.slot 1).size = 0) :=
  interrupted_iteration_builds_nothing (test_env none) (test_run (fun t => decide (1 ≤ t)))
    (test_fit_args (.extended test_ext_forest) none 3 2) 1 (by decide) (by decide)

theorem fit_iforest_rethrows (env : Env) (run : Run) (a : FitArgs)
    (c : BuildCall) (e : Failure) (hint : run.interrupt_at_check 0 = false)
    (hc : LoopEvent.built c ∈ (fit_iforest env run a).trace) (hr : c.raised = some e) :
    ∃ e1, (fit_iforest env run a).outcome = Outcome.raised e1 ∧
      FirstCaught (fit_iforest env run a).trace e1 ∧
      ∃ c1, LoopEvent.built c1 ∈ (fit_iforest env run a).trace ∧ c1.raised = some e1 := by
  obtain ⟨h1, h2⟩ := fit_iforest_trace_built env run a c hc
  obtain ⟨hfin, hinv, hall, -⟩ := fit_iforest_accepted env run a h1 h2
  rw [hfin, (fit_finish_trace_model _ _ _ _ _ _).1] at hc ⊢
  have hthrew := hall ⟨c, e, hc, hr⟩
  obtain ⟨e1, hex, hfc⟩ := hinv.thrown hthrew
  refine ⟨e1, fit_finish_rethrow env run a _ _ _ e1 hint hthrew hex, hfc, ?_⟩
  obtain ⟨pre, w, post, htr, -, -⟩ := hfc
  exact hinv.caught_built w e1 (by rw [htr]; simp)

/-- C10: if some tree build of `fit_iforest` raises and the interrupt switch is not set
at the check that follows the loop, the call raises the exception that was captured
first; exceptions captured later do not replace it, it is the exception some build
raised, and no tree build starts after the first capture. -/
theorem first_captured_failure_is_rethrown (env : Env) (run : Run) (a : FitArgs)
    (c : BuildCall) (e : Failure) (hint : run.interrupt_at_check 0 = false)
    (hc : LoopEvent.built c ∈ (fit_iforest env run a).trace) (hr : c.raised = some e) :
    ∃ e1, (fit_iforest env run a).outcome = Outcome.raised e1 ∧
      FirstCaught (fit_iforest env run a).trace e1 ∧
      ∃ c1, LoopEvent.built c1 ∈ (fit_iforest env run a).trace ∧ c1.raised = some e1 :=
  fit_iforest_rethrows env run a c e hint hc hr

set_option maxRecDepth 100000 in
theorem first_captured_failure_is_rethrown_witness :
    ∃ e1, (fit_iforest (test_env (some 7)) (test_run (fun _ => false))
        (test_fit_args (.single test_forest) none 3 2)).outcome = Outcome.raised e1 ∧
      FirstCaught (fit_iforest (test_env (some 7)) (test_run (fun _ => false))
        (test_fit_args (.single test_forest) none 3 2)).trace e1 ∧
      ∃ c1, LoopEvent.built c1 ∈ (fit_iforest (test_env (some 7)) (test_run (fun _ => false))
        (test_fit_args (.single test_forest) none 3 2)).trace ∧ c1.raised = some e1 :=
  first_captured_failure_is_rethrown (test_env (some 7)) (test_run (fun _ => false))
    (test_fit_args (.single test_forest) none 3 2)
    { tree_num := 0, worker := 0, seeded := { seed := 10, ndraws := 0 },
      raised := some (Failure.escaped 7) }
    (Failure.escaped 7) rfl (by decide) rfl

/-- C8 (as stated, refuted): with the interrupt switch never set and no tree build
raising (none is even started), `fit_iforest` does not return `EXIT_SUCCESS`: the call
is made with a negative probability and ends with the configuration error. -/
theorem config_error_is_not_exit_success :
    (∀ t, (test_run (fun _ => false)).interrupt_at_tree t = false) ∧
      (∀ k, (test_run (fun _ => false)).interrupt_at_check k = false) ∧
      (fit_iforest (test_env none) (test_run (fun _ => false))
        { test_fit_args (.single test_forest) none 3 2 with
          prob_pick_by_gain_avg := -1 }).trace = [] ∧
      (fit_iforest (test_env none) (test_run (fun _ => false))
        { test_fit_args (.single test_forest) none 3 2 with
          prob_pick_by_gain_avg := -1 }).outcome = Outcome.raised negative_probabilities ∧
      (fit_iforest (test_env none) (test_run (fun _ => false))
        { test_fit_args (.single test_forest) none 3 2 with
          prob_pick_by_gain_avg := -1 }).outcome ≠ Outcome.returned EXIT_SUCCESS := by
  refine ⟨fun _ => rfl, fun _ => rfl, ?_, ?_, ?_⟩ <;> decide

/-- C8 (amended): `fit_iforest` returns `EXIT_FAILURE` only when the interrupt switch is
set at one of its four checks; a call that passes the configuration checks and supplies
an imputer whenever `impute_at_fit` is set returns `EXIT_SUCCESS` when the switch is set
at none of the checks and no tree build raises; and when the switch is not set at the
check that follows the loop, an exception raised by a tree build is not turned into a
return code: the call raises an exception that a tree build raised. -/
theorem return_code_and_failure_propagation (env : Env) (run : Run) (a : FitArgs) :
    ((fit_iforest env run a).outcome = Outcome.returned EXIT_FAILURE →
      ∃ k, k < 4 ∧ run.interrupt_at_check k = true) ∧
    (¬(a.prob_pick_by_gain_avg < 0 ∨ a.prob_pick_by_gain_pl < 0) →
      ¬(a.ndim = 0 ∧ a.model.is_single = false) →
      (a.impute_at_fit = true → a.imputer.isSome = true) →
      (∀ k, k < 4 → run.interrupt_at_check k = false) →
      (∀ c, LoopEvent.built c ∈ (fit_iforest env run a).trace → c.raised = none) →
      (fit_iforest env run a).outcome = Outcome.returned EXIT_SUCCESS) ∧
    (run.interrupt_at_check 0 = false →
      ∀ c e, LoopEvent.built c ∈ (fit_iforest env run a).trace → c.raised = some e →
        ∃ c1 e1, LoopEvent.built c1 ∈ (fit_iforest env run a).trace ∧ c1.raised = some e1 ∧
          (fit_iforest env run a).outcome = Outcome.raised e1) := by
  refine ⟨?_, ?_, ?_⟩
  · intro hout
    by_cases h1 : a.prob_pick_by_gain_avg < 0 ∨ a.prob_pick_by_gain_pl < 0
    · simp [fit_iforest, h1] at hout
    · by_cases h2 : a.ndim = 0 ∧ a.model.is_single = false
      · simp [fit_iforest, h1, h2] at hout
      · obtain ⟨hfin, hinv, -, -⟩ := fit_iforest_accepted env run a h1 h2
        rw [hfin] at hout
        rcases fit_finish_outcome env run a (fit_missing env a).1 (fit_model_params env a)
          (fit_grown env run a) with ⟨k, hk4, hk⟩ | ⟨-, ht, hex⟩ | ⟨-, -, -, ho⟩ | ⟨-, -, ho⟩
        · exact ⟨k, hk4, (interrupt_check_some run k _ hk).1⟩
        · obtain ⟨e, he, -⟩ := hinv.thrown ht
          rcases hex with ⟨e1, -, ho⟩ | hnone
          · rw [hout] at ho; simp at ho
          · rw [he] at hnone; simp at hnone
        · rw [hout] at ho; simp at ho
        · rw [hout] at ho
          simp only [Outcome.returned.injEq] at ho
          exact absurd ho (by decide)
  · intro h1 h2 himp hint hnone
    obtain ⟨hfin, hinv, -, hsome⟩ := fit_iforest_accepted env run a h1 h2
    rw [hfin, (fit_finish_trace_model _ _ _ _ _ _).1] at hnone
    rw [hfin]
    rcases fit_finish_outcome env run a (fit_missing env a).1 (fit_model_params env a)
      (fit_grown env run a) with ⟨k, hk4, hk⟩ | ⟨-, ht, -⟩ | ⟨-, hi, hn, -⟩ | ⟨-, -, ho⟩
    · rw [interrupt_check_none run k (hint k hk4)] at hk
      simp at hk
    · obtain ⟨e, -, pre, w, post, htr, -, -⟩ := hinv.thrown ht
      obtain ⟨c, hc, hr⟩ := hinv.caught_built w e (by rw [htr]; simp)
      rw [hnone c hc] at hr
      simp at hr
    · have hi1 : a.impute_at_fit = true := hi
      rw [hn, himp hi1] at hsome
      simp at hsome
    · exact ho
  · intro hint c e hc hr
    obtain ⟨e1, hout, -, c1, hc1, hr1⟩ := fit_iforest_rethrows env run a c e hint hc hr
    exact ⟨c1, e1, hc1, hr1, hout⟩

set_option maxRecDepth 100000 in
theorem return_code_and_failure_propagation_witness :
    (fit_iforest (test_env none) (test_run (fun _ => false))
      (test_fit_args (.single test_forest) none 3 2)).outcome = Outcome.returned EXIT_SUCCESS :=
  (return_code_and_failure_propagation (test_env none) (test_run (fun _ => false))
    (test_fit_args (.single test_forest) none 3 2)).2.1
    (by decide) (by decide) (by decide) (fun _ _ => rfl)
    (by
      intro c hc
      have ht : (fit_iforest (test_env none) (test_run (fun _ => false))
          (test_fit_args (.single test_forest) none 3 2)).trace =
          [LoopEvent.built ⟨0, 0, ⟨10, 0⟩, none⟩, LoopEvent.built ⟨1, 1, ⟨11, 0⟩, none⟩,
            LoopEvent.built ⟨2, 0, ⟨12, 0⟩, none⟩] := by decide
      rw [ht] at hc
      simp only [List.mem_cons, LoopEvent.built.injEq, List.mem_singleton, List.not_mem_nil,
        or_false] at hc
      rcases hc with rfl | rfl | rfl <;> rfl)

/-! ### Reproducibility across thread counts -/

/-- C7 (the code at the failing input): the extended model is fitted twice to the same
two rows with density weights, samples drawn with replacement, same seed, once with one
thread and once with two. Both calls return `EXIT_SUCCESS`. With one thread the worker
that built tree `0` builds tree `1` with the weight array it scaled for the sample of
tree `0` (lines 1024-1028 skip the rescaling); with two threads tree `1` is built by a
new worker with the array scaled for its own sample. The weight arrays differ, and so
do the trees stored at index `1`. -/
theorem forest_depends_on_thread_count :
    (fit_iforest weights_env (test_run (fun _ => false)) (weights_fit_args 1)).outcome
        = Outcome.returned EXIT_SUCCESS ∧
      (fit_iforest weights_env (test_run (fun _ => false)) (weights_fit_args 2)).outcome
        = Outcome.returned EXIT_SUCCESS ∧
      (fit_iforest weights_env (test_run (fun _ => false)) (weights_fit_args 1)).worker_memory.map
        (fun w => w.weights_arr) = [[1, 3]] ∧
      (fit_iforest weights_env (test_run (fun _ => false)) (weights_fit_args 2)).worker_memory.map
        (fun w => w.weights_arr) = [[1, 3], [1 / 3, 1]] ∧
      (fit_iforest weights_env (test_run (fun _ => false)) (weights_fit_args 1)).model.slot 1
        = TreeSlot.hplane [{ content := 0 }, { content := 6 }] ∧
      (fit_iforest weights_env (test_run (fun _ => false)) (weights_fit_args 2)).model.slot 1
        = TreeSlot.hplane [{ content := 0 }, { content := 2 }] ∧
      (fit_iforest weights_env (test_run (fun _ => false)) (weights_fit_args 1)).model ≠
        (fit_iforest weights_env (test_run (fun _ => false)) (weights_fit_args 2)).model := by
  refine ⟨?_, ?_, ?_, ?_, ?_, ?_, ?_⟩ <;> decide!

/-! ### The trees of a fitted forest -/

theorem Model.ntrees_set_slot (m : Model) (t : Nat) (s : TreeSlot) :
    (m.set_slot t s).ntrees = m.ntrees := by
  cases m <;> cases s <;> simp [Model.set_slot, Model.ntrees]

theorem Model.is_single_set_slot (m : Model) (t : Nat) (s : TreeSlot) :
    (m.set_slot t s).is_single = m.is_single := by
  cases m <;> cases s <;> rfl

theorem Model.is_tree_slot (m : Model) (t : Nat) : (m.slot t).is_tree = m.is_single := by
  cases m <;> rfl

theorem Model.slot_set_slot_eq (m : Model) (t : Nat) (s : TreeSlot) (ht : t < m.ntrees)
    (hk : s.is_tree = m.is_single) : (m.set_slot t s).slot t = s := by
  cases m <;> cases s <;>
    simp_all [Model.set_slot, Model.slot, Model.ntrees, Model.is_single, TreeSlot.is_tree,
      List.getD_eq_getElem?_getD, List.getElem?_set]

theorem fit_itree_grow_is_tree (env : Env) (slot : TreeSlot) (ws : WorkerMemory)
    (input_data : InputData) (model_params : ModelParams)
    (impute_nodes : Option (List ImputeNode)) (seeded : RndGenerator) :
    (fit_itree_grow env slot ws input_data model_params impute_nodes seeded).slot.is_tree
      = slot.is_tree := by
  unfold fit_itree_grow
  cases slot <;> simp only <;> split <;> rfl

theorem add_root_is_tree (slot : TreeSlot) : (add_root slot).is_tree = slot.is_tree := by
  cases slot <;> rfl

/-- The slot that `fit_itree` leaves is of the kind of the slot it was given. -/
theorem fit_itree_is_tree (env : Env) (slot : TreeSlot) (workspace : WorkerMemory)
    (input_data : InputData) (model_params : ModelParams)
    (impute_nodes : Option (List ImputeNode)) (tree_num : Nat) :
    (fit_itree env slot workspace input_data model_params impute_nodes tree_num).slot.is_tree
      = slot.is_tree := by
  unfold fit_itree
  simp only
  split
  · rfl
  · split
    · exact add_root_is_tree slot
    · rw [fit_itree_grow_is_tree]
      exact add_root_is_tree slot

theorem grow_catch_model (s : GrowState) (w : Nat) : (grow_catch s w).model = s.model := by
  unfold grow_catch
  split
  · rfl
  · simp only
    split_ifs <;> rfl

theorem grow_catch_built_mem_iff (s : GrowState) (w : Nat) (c : BuildCall) :
    LoopEvent.built c ∈ (grow_catch s w).trace ↔ LoopEvent.built c ∈ s.trace := by
  refine ⟨grow_catch_built_mem s w c, fun h => ?_⟩
  unfold grow_catch
  split
  · exact h
  · simp only
    split_ifs <;> exact List.mem_append_left _ h

theorem grow_catch_slot_inv (env : Env) (run : Run) (input_data : InputData)
    (model_params : ModelParams) (m0 : Model) (done : Nat → Prop) (s : GrowState) (w : Nat)
    (h : SlotInv env run input_data model_params m0 done s) :
    SlotInv env run input_data model_params m0 done (grow_catch s w) := by
  refine ⟨?_, ?_, ?_, ?_, ?_, ?_⟩
  · rw [grow_catch_model]; exact h.ntrees_eq
  · rw [grow_catch_model]; exact h.kind_eq
  · intro c hc
    exact h.built_done c ((grow_catch_built_mem_iff s w c).1 hc)
  · intro t ht
    rcases h.done_cases t ht with ⟨c, hc, hct⟩ | hi | hth
    · exact Or.inl ⟨c, (grow_catch_built_mem_iff s w c).2 hc, hct⟩
    · exact Or.inr (Or.inl hi)
    · exact Or.inr (Or.inr (grow_catch_thrown_mono s w hth))
  · intro c hc
    rw [grow_catch_model]
    exact h.built_slot c ((grow_catch_built_mem_iff s w c).1 hc)
  · intro t ht
    rw [grow_catch_model]
    exact h.kept t (fun c hc => ht c ((grow_catch_built_mem_iff s w c).2 hc))

theorem grow_iteration_slot_inv (env : Env) (run : Run) (a : FitArgs) (input_data : InputData)
    (model_params : ModelParams) (m0 : Model) (done : Nat → Prop) (s : GrowState) (tree : Nat)
    (htree : tree < m0.ntrees) (hnew : ¬done tree)
    (h : SlotInv env run input_data model_params m0 done s) :
    SlotInv env run input_data model_params m0 (fun t => t = tree ∨ done t)
      (grow_iteration env run a input_data model_params s tree) := by
  unfold grow_iteration
  simp only
  have h0 : SlotInv env run input_data model_params m0 done
      ((run.completes tree ++ [worker_of run a tree]).foldl grow_catch s) :=
    foldl_preserves _ _ _ _ h
      (fun s x _ hs => grow_catch_slot_inv env run input_data model_params m0 done s x hs)
  generalize (run.completes tree ++ [worker_of run a tree]).foldl grow_catch s = s0 at h0 ⊢
  by_cases hskip : (run.interrupt_at_tree tree || s0.threw_exception) = true
  · rw [if_pos hskip]
    refine ⟨h0.ntrees_eq, h0.kind_eq, ?_, ?_, ?_, ?_⟩
    · intro c hc
      rcases List.mem_append.1 hc with hc | hc
      · exact Or.inr (h0.built_done c hc)
      · simp at hc
    · intro t ht
      rcases ht with ht | ht
      · subst ht
        simp only [Bool.or_eq_true] at hskip
        rcases hskip with hi | hth
        · exact Or.inr (Or.inl hi)
        · exact Or.inr (Or.inr hth)
      · rcases h0.done_cases t ht with ⟨c, hc, hct⟩ | hi | hth
        · exact Or.inl ⟨c, List.mem_append_left _ hc, hct⟩
        · exact Or.inr (Or.inl hi)
        · exact Or.inr (Or.inr hth)
    · intro c hc
      rcases List.mem_append.1 hc with hc | hc
      · exact h0.built_slot c hc
      · simp at hc
    · intro t ht
      exact h0.kept t (fun c hc => ht c (List.mem_append_left _ hc))
  · rw [if_neg hskip]
    obtain ⟨f1, -, f3, -, -, f6⟩ :=
      grow_impute_setup_fields run a input_data model_params s0 (worker_of run a tree)
    generalize grow_impute_setup run a input_data model_params s0 (worker_of run a tree) = s1
      at f1 f3 f6 ⊢
    generalize hws : s1.worker_memory.getD (worker_of run a tree) {} = ws
    generalize himp : Option.map (fun i : Imputer => i.imputer_tree.getD tree []) s1.imputer = imp
    have hslot0 : s1.model.slot tree = m0.slot tree := by
      rw [f1]
      exact h0.kept tree (fun c hc heq => hnew (heq ▸ h0.built_done c hc))
    rw [hslot0]
    generalize hb : fit_itree env (m0.slot tree) ws input_data model_params imp tree = b
    have hkind : b.slot.is_tree = s1.model.is_single := by
      rw [← hb, fit_itree_is_tree, Model.is_tree_slot, f1, h0.kind_eq]
    have hlt : tree < s1.model.ntrees := by rw [f1, h0.ntrees_eq]; exact htree
    refine ⟨?_, ?_, ?_, ?_, ?_, ?_⟩
    · simp only [Model.ntrees_set_slot, f1]; exact h0.ntrees_eq
    · simp only [Model.is_single_set_slot, f1]; exact h0.kind_eq
    · intro c hc
      simp only [f6] at hc
      rcases List.mem_append.1 hc with hc | hc
      · exact Or.inr (h0.built_done c hc)
      · simp only [List.mem_singleton, LoopEvent.built.injEq] at hc
        subst hc
        exact Or.inl rfl
    · intro t ht
      simp only [f3, f6]
      rcases ht with ht | ht
      · subst ht
        exact Or.inl ⟨_, List.mem_append_right _ (List.mem_singleton_self _), rfl⟩
      · rcases h0.done_cases t ht with ⟨c, hc, hct⟩ | hi | hth
        · exact Or.inl ⟨c, List.mem_append_left _ hc, hct⟩
        · exact Or.inr (Or.inl hi)
        · exact Or.inr (Or.inr hth)
    · intro c hc
      simp only [f6] at hc
      simp only
      rcases List.mem_append.1 hc with hc | hc
      · have hne : tree ≠ c.tree_num := fun heq => hnew (heq ▸ h0.built_done c hc)
        rw [Model.slot_set_slot_ne _ _ _ _ hne, f1]
        exact h0.built_slot c hc
      · simp only [List.mem_singleton, LoopEvent.built.injEq] at hc
        subst hc
        simp only
        rw [Model.slot_set_slot_eq _ _ _ hlt hkind]
        exact ⟨ws, imp, by rw [hb]⟩
    · intro t ht
      simp only [f6] at ht
      have hne : tree ≠ t := by
        intro heq
        exact ht ⟨tree, worker_of run a tree, b.seeded, b.raised⟩
          (List.mem_append_right _ (List.mem_singleton_self _)) heq
      simp only
      rw [Model.slot_set_slot_ne _ _ _ _ hne, f1]
      exact h0.kept t (fun c hc => ht c (List.mem_append_left _ hc))

theorem foldl_grow_iteration_slot_inv (env : Env) (run : Run) (a : FitArgs)
    (input_data : InputData) (model_params : ModelParams) (m0 : Model) (l : List Nat)
    (hl : l.Nodup) (hlt : ∀ t ∈ l, t < m0.ntrees) (done : Nat → Prop)
    (hdone : ∀ t ∈ l, ¬done t) (s : GrowState)
    (h : SlotInv env run input_data model_params m0 done s) :
    SlotInv env run input_data model_params m0 (fun t => t ∈ l ∨ done t)
      (l.foldl (grow_iteration env run a input_data model_params) s) := by
  induction l generalizing s done with
  | nil => simpa using h
  | cons x l ih =>
    simp only [List.foldl_cons]
    have hx := grow_iteration_slot_inv env run a input_data model_params m0 done s x
      (hlt x (List.mem_cons_self _ _)) (hdone x (List.mem_cons_self _ _)) h
    obtain ⟨hxl, hl1⟩ := List.nodup_cons.1 hl
    have := ih hl1 (fun t ht => hlt t (List.mem_cons_of_mem _ ht)) (fun t => t = x ∨ done t)
      (fun t ht hd => by
        rcases hd with hd | hd
        · exact hxl (hd ▸ ht)
        · exact hdone t (List.mem_cons_of_mem _ ht) hd) _ hx
    have heq : (fun t => t ∈ x :: l ∨ done t) = (fun t => t ∈ l ∨ t = x ∨ done t) := by
      funext t
      simp only [List.mem_cons, eq_iff_iff]
      tauto
    rw [heq]
    exact this

theorem fit_store_model_ntrees (env : Env) (a : FitArgs) (input_data : InputData)
    (model_params : ModelParams) :
    (fit_store_model env a input_data model_params).ntrees = a.ntrees ∧
      (fit_store_model env a input_data model_params).is_single = a.model.is_single := by
  unfold fit_store_model
  cases a.model <;> simp [Model.ntrees, Model.is_single, resize] <;> omega

theorem fit_grown_slot_inv (env : Env) (run : Run) (a : FitArgs) :
    SlotInv env run (fit_missing env a).1 (fit_model_params env a)
      (fit_store_model env a (fit_missing env a).1 (fit_model_params env a))
      (fun t => t ∈ List.range a.ntrees ∨ False) (fit_grown env run a) := by
  unfold fit_grown grow_trees
  simp only
  have hinit : SlotInv env run (fit_missing env a).1 (fit_model_params env a)
      (fit_store_model env a (fit_missing env a).1 (fit_model_params env a))
      (fun _ => False) (fit_loop_init env run a) :=
    ⟨rfl, rfl, by simp [fit_loop_init], fun _ h => h.elim, by simp [fit_loop_init],
      fun _ _ => rfl⟩
  have h1 := foldl_grow_iteration_slot_inv env run a (fit_missing env a).1
    (fit_model_params env a) _ (List.range a.ntrees) (List.nodup_range _)
    (fun t ht => by
      rw [(fit_store_model_ntrees env a _ _).1]
      exact List.mem_range.1 ht)
    (fun _ => False) (fun _ _ h => h) _ hinit
  exact foldl_preserves _ _ _ _ h1
    (fun s x _ hs => grow_catch_slot_inv env run _ _ _ _ s x hs)

theorem interrupt_check_eq_none (run : Run) (k : Nat) (h : interrupt_check run k = none) :
    run.interrupt_at_check k = false := by
  unfold interrupt_check check_interrupt_switch at h
  cases hi : run.interrupt_at_check k <;> cases hd : run.dont_throw_on_interrupt <;>
    simp [hi, hd] at h ⊢

/-- A call that returns `EXIT_SUCCESS` passed the configuration checks, captured no
exception, and read the interrupt switch as unset at each of the four checks. -/
theorem fit_iforest_success (env : Env) (run : Run) (a : FitArgs)
    (hout : (fit_iforest env run a).outcome = Outcome.returned EXIT_SUCCESS) :
    ¬(a.prob_pick_by_gain_avg < 0 ∨ a.prob_pick_by_gain_pl < 0) ∧
      ¬(a.ndim = 0 ∧ a.model.is_single = false) ∧
      (fit_grown env run a).threw_exception = false ∧
      ∀ k, k < 4 → run.interrupt_at_check k = false := by
  have h1 : ¬(a.prob_pick_by_gain_avg < 0 ∨ a.prob_pick_by_gain_pl < 0) := by
    intro h
    simp [fit_iforest, h] at hout
  have h2 : ¬(a.ndim = 0 ∧ a.model.is_single = false) := by
    intro h
    simp [fit_iforest, h1, h] at hout
  refine ⟨h1, h2, ?_⟩
  obtain ⟨hfin, hinv, -, -⟩ := fit_iforest_accepted env run a h1 h2
  rw [hfin] at hout
  rcases fit_finish_outcome env run a (fit_missing env a).1 (fit_model_params env a)
    (fit_grown env run a) with ⟨k, -, hk⟩ | ⟨-, ht, hex⟩ | ⟨-, -, -, ho⟩ | ⟨ht, hall, -⟩
  · obtain ⟨-, h | h⟩ := interrupt_check_some run k _ hk
    · rw [hout] at h
      simp only [Outcome.returned.injEq] at h
      exact absurd h.2 (by decide)
    · rw [hout] at h; simp at h
  · obtain ⟨e, he, -⟩ := hinv.thrown ht
    rcases hex with ⟨e1, -, ho⟩ | hnone
    · rw [hout] at ho; simp at ho
    · rw [he] at hnone; simp at hnone
  · rw [hout] at ho; simp at ho
  · exact ⟨ht, fun k hk => interrupt_check_eq_none run k (hall k hk)⟩

/-- C11: after a `fit_iforest` call that returns `EXIT_SUCCESS` (the interrupt switch
staying set once it is set), the model object supplied, of the kind it had, holds exactly
`ntrees` trees, and for every `t < ntrees` the tree at position `t` is the slot left by a
`fit_itree` call made with tree number `t` on the slot the object held at position `t`. -/
theorem fitted_forest_holds_ntrees_built_trees (env : Env) (run : Run) (a : FitArgs)
    (hsticky : run.switch_stays_set)
    (hout : (fit_iforest env run a).outcome = Outcome.returned EXIT_SUCCESS) :
    (fit_iforest env run a).model.ntrees = a.ntrees ∧
      (fit_iforest env run a).model.is_single = a.model.is_single ∧
      ∀ t, t < a.ntrees →
        (∃ c, LoopEvent.built c ∈ (fit_iforest env run a).trace ∧ c.tree_num = t) ∧
        ∃ ws imp, (fit_iforest env run a).model.slot t =
          (fit_itree env (a.model.slot t) ws (fit_missing env a).1 (fit_model_params env a)
            imp t).slot := by
  obtain ⟨h1, h2, hth, hchk⟩ := fit_iforest_success env run a hout
  obtain ⟨hfin, -, -, -⟩ := fit_iforest_accepted env run a h1 h2
  have hs := fit_grown_slot_inv env run a
  obtain ⟨htr, hmod⟩ := fit_finish_trace_model env run a (fit_missing env a).1
    (fit_model_params env a) (fit_grown env run a)
  rw [hfin, htr, hmod]
  refine ⟨?_, ?_, ?_⟩
  · rw [hs.ntrees_eq]; exact (fit_store_model_ntrees env a _ _).1
  · rw [hs.kind_eq]; exact (fit_store_model_ntrees env a _ _).2
  · intro t ht
    rcases hs.done_cases t (Or.inl (List.mem_range.2 ht)) with ⟨c, hc, hct⟩ | hi | hx
    · refine ⟨⟨c, hc, hct⟩, ?_⟩
      obtain ⟨ws, imp, hslot⟩ := hs.built_slot c hc
      rw [hct, fit_store_model_slot env a _ _ t ht] at hslot
      exact ⟨ws, imp, hslot⟩
    · have := hsticky t 0 hi
      rw [hchk 0 (by decide)] at this
      exact absurd this (by simp)
    · rw [hth] at hx
      exact absurd hx (by simp)

set_option maxRecDepth 100000 in
theorem fitted_forest_holds_ntrees_built_trees_witness :
    (fit_iforest (test_env none) (test_run (fun _ => false))
        (test_fit_args (.extended test_ext_forest) none 3 2)).model.ntrees = 3 ∧
      (fit_iforest (test_env none) (test_run (fun _ => false))
        (test_fit_args (.extended test_ext_forest) none 3 2)).model.is_single
        = (test_fit_args (.extended test_ext_forest) none 3 2).model.is_single ∧
      ∀ t, t < 3 →
        (∃ c, LoopEvent.built c ∈ (fit_iforest (test_env none) (test_run (fun _ => false))
            (test_fit_args (.extended test_ext_forest) none 3 2)).trace ∧ c.tree_num = t) ∧
        ∃ ws imp, (fit_iforest (test_env none) (test_run (fun _ => false))
            (test_fit_args (.extended test_ext_forest) none 3 2)).model.slot t =
          (fit_itree (test_env none)
            ((test_fit_args (.extended test_ext_forest) none 3 2).model.slot t) ws
            (fit_missing (test_env none) (test_fit_args (.extended test_ext_forest) none 3 2)).1
            (fit_model_params (test_env none)
              (test_fit_args (.extended test_ext_forest) none 3 2)) imp t).slot :=
  fitted_forest_holds_ntrees_built_trees (test_env none) (test_run (fun _ => false))
    (test_fit_args (.extended test_ext_forest) none 3 2)
    (fun _ _ h => absurd h (by simp [test_run])) (by decide)

/-! ### The parameters with which the trees are built -/

/-- Every tree that the loop of `fit_iforest` builds is the slot left by a `fit_itree`
call that was given the input data and the model parameters set up at lines 407-434. -/
theorem fit_iforest_built_slot (env : Env) (run : Run) (a : FitArgs) (c : BuildCall)
    (hc : LoopEvent.built c ∈ (fit_iforest env run a).trace) :
    c.tree_num < a.ntrees ∧
      ∃ ws imp, (fit_iforest env run a).model.slot c.tree_num =
        (fit_itree env (a.model.slot c.tree_num) ws (fit_missing env a).1
          (fit_model_params env a) imp c.tree_num).slot := by
  obtain ⟨h1, h2⟩ := fit_iforest_trace_built env run a c hc
  obtain ⟨hfin, hinv, -, -⟩ := fit_iforest_accepted env run a h1 h2
  have hs := fit_grown_slot_inv env run a
  obtain ⟨htr, hmod⟩ := fit_finish_trace_model env run a (fit_missing env a).1
    (fit_model_params env a) (fit_grown env run a)
  rw [hfin, htr] at hc
  rw [hfin, hmod]
  have hlt := (hinv.built_ok c hc).1
  obtain ⟨ws, imp, hslot⟩ := hs.built_slot c hc
  rw [fit_store_model_slot env a _ _ c.tree_num hlt] at hslot
  exact ⟨hlt, ws, imp, hslot⟩

/-- C12: the sample size stored in the model parameters of `fit_iforest` is `nrows` when
the requested `sample_size` is `0` or `tmat` is passed, and the requested `sample_size`
otherwise; every tree of the loop is built by a `fit_itree` call given these parameters. -/
theorem effective_sample_size_in_model_params (env : Env) (run : Run) (a : FitArgs) :
    (fit_model_params env a).sample_size =
        (if a.sample_size = 0 ∨ a.tmat.isSome = true then a.nrows else a.sample_size) ∧
      ∀ c, LoopEvent.built c ∈ (fit_iforest env run a).trace →
        ∃ ws imp, (fit_iforest env run a).model.slot c.tree_num =
          (fit_itree env (a.model.slot c.tree_num) ws (fit_missing env a).1
            (fit_model_params env a) imp c.tree_num).slot := by
  refine ⟨?_, fun c hc => (fit_iforest_built_slot env run a c hc).2⟩
  simp only [fit_model_params, effective_sample_size, Bool.or_eq_true, decide_eq_true_eq]
  by_cases h1 : a.sample_size = 0 <;> by_cases h2 : a.tmat.isSome = true <;> simp [h1, h2]

theorem sub64_one (s : Nat) (h1 : 0 < s) (h2 : s < 2 ^ 64) : sub64 s 1 = s - 1 := by
  unfold sub64
  omega

/-- C14: the depth limit stored in the model parameters of `fit_iforest` is
`log2ceil(s)` when `limit_depth` is set, whatever `max_depth` is, otherwise `max_depth`
when `max_depth > 0`, otherwise `s - 1` computed in `size_t` (the number `s - 1` for
`0 < s < 2^64`), `s` being the effective sample size; every tree of the loop is built by a
`fit_itree` call given these parameters. -/
theorem depth_limit_in_model_params (env : Env) (run : Run) (a : FitArgs) :
    (a.limit_depth = true →
        (fit_model_params env a).max_depth = env.log2ceil (fit_model_params env a).sample_size) ∧
      (a.limit_depth = false → 0 < a.max_depth →
        (fit_model_params env a).max_depth = a.max_depth) ∧
      (a.limit_depth = false → a.max_depth = 0 →
        (fit_model_params env a).max_depth = sub64 (fit_model_params env a).sample_size 1 ∧
        (0 < (fit_model_params env a).sample_size → (fit_model_params env a).sample_size < 2 ^ 64 →
          (fit_model_params env a).max_depth = (fit_model_params env a).sample_size - 1)) ∧
      (fit_model_params env a).sample_size =
        (if a.sample_size = 0 ∨ a.tmat.isSome = true then a.nrows else a.sample_size) ∧
      ∀ c, LoopEvent.built c ∈ (fit_iforest env run a).trace →
        ∃ ws imp, (fit_iforest env run a).model.slot c.tree_num =
          (fit_itree env (a.model.slot c.tree_num) ws (fit_missing env a).1
            (fit_model_params env a) imp c.tree_num).slot := by
  refine ⟨?_, ?_, ?_, ?_, fun c hc => (fit_iforest_built_slot env run a c hc).2⟩
  · intro h
    simp [fit_model_params, h]
  · intro h hpos
    simp [fit_model_params, h, Nat.pos_iff_ne_zero.1 hpos]
  · intro h hz
    have hm : (fit_model_params env a).max_depth
        = sub64 (fit_model_params env a).sample_size 1 := by
      simp [fit_model_params, h, hz]
    exact ⟨hm, fun h1 h2 => by rw [hm]; exact sub64_one _ h1 h2⟩
  · simp only [fit_model_params, effective_sample_size, Bool.or_eq_true, decide_eq_true_eq]
    by_cases h1 : a.sample_size = 0 <;> by_cases h2 : a.tmat.isSome = true <;> simp [h1, h2]

theorem depth_limit_in_model_params_witness :
    (fit_model_params (test_env none)
        { test_fit_args (.single test_forest) none 3 2 with
          limit_depth := true, max_depth := 9 }).max_depth = (test_env none).log2ceil 4 ∧
      (fit_model_params (test_env none)
        { test_fit_args (.single test_forest) none 3 2 with max_depth := 9 }).max_depth = 9 ∧
      (fit_model_params (test_env none)
        (test_fit_args (.single test_forest) none 3 2)).max_depth = 3 :=
  ⟨(depth_limit_in_model_params (test_env none) (test_run (fun _ => false))
      { test_fit_args (.single test_forest) none 3 2 with
        limit_depth := true, max_depth := 9 }).1 rfl,
    (depth_limit_in_model_params (test_env none) (test_run (fun _ => false))
      { test_fit_args (.single test_forest) none 3 2 with max_depth := 9 }).2.1 rfl
      (by decide),
    ((depth_limit_in_model_params (test_env none) (test_run (fun _ => false))
      (test_fit_args (.single test_forest) none 3 2)).2.2.1 rfl rfl).2 (by decide) (by decide)⟩

/-! ### Forest-level constants -/

theorem fit_input_data_nrows (env : Env) (a : FitArgs) : (fit_input_data env a).nrows = a.nrows := by
  unfold fit_input_data
  simp only
  split
  · split_ifs <;> rfl
  · rfl

theorem fit_missing_nrows (env : Env) (a : FitArgs)
    (hrows : (env.check_for_missing (fit_input_data env a) a.nthreads).1.nrows
      = (fit_input_data env a).nrows) :
    (fit_missing env a).1.nrows = a.nrows := by
  unfold fit_missing
  split_ifs
  · rw [hrows, fit_input_data_nrows]
  · exact fit_input_data_nrows env a

theorem grow_iteration_model_const {α : Type} (g : Model → α)
    (hg : ∀ m t s, g (m.set_slot t s) = g m) (env : Env) (run : Run) (a : FitArgs)
    (input_data : InputData) (model_params : ModelParams) (s : GrowState) (tree : Nat) :
    g (grow_iteration env run a input_data model_params s tree).model = g s.model := by
  have h0 : ((run.completes tree ++ [worker_of run a tree]).foldl grow_catch s).model
      = s.model :=
    foldl_preserves (fun x : GrowState => x.model = s.model) _ _ _ rfl
      (fun x w _ hx => by simp only [grow_catch_model]; exact hx)
  unfold grow_iteration
  simp only
  generalize (run.completes tree ++ [worker_of run a tree]).foldl grow_catch s = s0 at h0 ⊢
  split_ifs
  · simp [h0]
  · obtain ⟨f1, -⟩ :=
      grow_impute_setup_fields run a input_data model_params s0 (worker_of run a tree)
    simp only [hg, f1, h0]

/-- What the parallel region leaves of the fields of the model object other than its
trees: a function of the model that no write to a tree slot changes has, at the end of the
region, the value it had when the model data were stored. -/
theorem fit_grown_model_const {α : Type} (g : Model → α)
    (hg : ∀ m t s, g (m.set_slot t s) = g m) (env : Env) (run : Run) (a : FitArgs) :
    g (fit_grown env run a).model =
      g (fit_store_model env a (fit_missing env a).1 (fit_model_params env a)) := by
  unfold fit_grown grow_trees
  simp only
  have h1 : g ((List.range a.ntrees).foldl
      (grow_iteration env run a (fit_missing env a).1 (fit_model_params env a))
      (fit_loop_init env run a)).model = g (fit_loop_init env run a).model :=
    foldl_preserves (fun x : GrowState => g x.model = g (fit_loop_init env run a).model) _ _ _ rfl
      (fun x t _ hx => by simp only [grow_iteration_model_const g hg]; exact hx)
  exact foldl_preserves (fun x : GrowState => g x.model = g (fit_loop_init env run a).model)
    _ _ _ h1 (fun x w _ hx => by simp only [grow_catch_model]; exact hx)

theorem Model.exp_avg_depth_set_slot (m : Model) (t : Nat) (s : TreeSlot) :
    (m.set_slot t s).exp_avg_depth = m.exp_avg_depth := by
  cases m <;> cases s <;> rfl

theorem Model.exp_avg_sep_set_slot (m : Model) (t : Nat) (s : TreeSlot) :
    (m.set_slot t s).exp_avg_sep = m.exp_avg_sep := by
  cases m <;> cases s <;> rfl

theorem Model.orig_sample_size_set_slot (m : Model) (t : Nat) (s : TreeSlot) :
    (m.set_slot t s).orig_sample_size = m.orig_sample_size := by
  cases m <;> cases s <;> rfl

theorem Model.has_range_penalty_set_slot (m : Model) (t : Nat) (s : TreeSlot) :
    (m.set_slot t s).has_range_penalty = m.has_range_penalty := by
  cases m <;> cases s <;> rfl

/-- C13: in a `fit_iforest` call that passes the configuration checks (the routine
`check_for_missing` leaving the row count of the input data), the model object, of
either kind, is set up with `exp_avg_depth = expected_avg_depth(s)`,
`exp_avg_sep = expected_separation_depth(s)` and `orig_sample_size = nrows`, `s` being
`nrows` when `sample_size = 0` or `tmat` is passed and `sample_size` otherwise; the
object still has these values when the call ends. -/
theorem forest_constants_for_effective_sample_size (env : Env) (run : Run) (a : FitArgs)
    (h1 : ¬(a.prob_pick_by_gain_avg < 0 ∨ a.prob_pick_by_gain_pl < 0))
    (h2 : ¬(a.ndim = 0 ∧ a.model.is_single = false))
    (hrows : (env.check_for_missing (fit_input_data env a) a.nthreads).1.nrows
      = (fit_input_data env a).nrows) :
    ((fit_store_model env a (fit_missing env a).1 (fit_model_params env a)).exp_avg_depth =
        env.expected_avg_depth
          (if a.sample_size = 0 ∨ a.tmat.isSome = true then a.nrows else a.sample_size) ∧
      (fit_store_model env a (fit_missing env a).1 (fit_model_params env a)).exp_avg_sep =
        env.expected_separation_depth
          (if a.sample_size = 0 ∨ a.tmat.isSome = true then a.nrows else a.sample_size) ∧
      (fit_store_model env a (fit_missing env a).1 (fit_model_params env a)).orig_sample_size
        = a.nrows) ∧
    ((fit_iforest env run a).model.exp_avg_depth =
        env.expected_avg_depth
          (if a.sample_size = 0 ∨ a.tmat.isSome = true then a.nrows else a.sample_size) ∧
      (fit_iforest env run a).model.exp_avg_sep =
        env.expected_separation_depth
          (if a.sample_size = 0 ∨ a.tmat.isSome = true then a.nrows else a.sample_size) ∧
      (fit_iforest env run a).model.orig_sample_size = a.nrows) := by
  have hs : effective_sample_size a =
      (if a.sample_size = 0 ∨ a.tmat.isSome = true then a.nrows else a.sample_size) := by
    simp only [effective_sample_size, Bool.or_eq_true, decide_eq_true_eq]
    by_cases h1 : a.sample_size = 0 <;> by_cases h2 : a.tmat.isSome = true <;> simp [h1, h2]
  have hstore : (fit_store_model env a (fit_missing env a).1 (fit_model_params env a)).exp_avg_depth
        = env.expected_avg_depth
          (if a.sample_size = 0 ∨ a.tmat.isSome = true then a.nrows else a.sample_size) ∧
      (fit_store_model env a (fit_missing env a).1 (fit_model_params env a)).exp_avg_sep =
        env.expected_separation_depth
          (if a.sample_size = 0 ∨ a.tmat.isSome = true then a.nrows else a.sample_size) ∧
      (fit_store_model env a (fit_missing env a).1 (fit_model_params env a)).orig_sample_size
        = a.nrows := by
    rw [← hs, ← fit_missing_nrows env a hrows]
    unfold fit_store_model
    cases a.model <;>
      exact ⟨rfl, rfl, rfl⟩
  refine ⟨hstore, ?_⟩
  obtain ⟨hfin, -, -, -⟩ := fit_iforest_accepted env run a h1 h2
  rw [hfin, (fit_finish_trace_model _ _ _ _ _ _).2,
    fit_grown_model_const Model.exp_avg_depth Model.exp_avg_depth_set_slot,
    fit_grown_model_const Model.exp_avg_sep Model.exp_avg_sep_set_slot,
    fit_grown_model_const Model.orig_sample_size Model.orig_sample_size_set_slot]
  exact hstore

theorem forest_constants_for_effective_sample_size_witness :
    (fit_iforest (test_env none) (test_run (fun _ => false))
        { test_fit_args (.extended test_ext_forest) none 3 2 with sample_size := 3 }).model.exp_avg_depth
        = (test_env none).expected_avg_depth 3 ∧
      (fit_iforest (test_env none) (test_run (fun _ => false))
        { test_fit_args (.extended test_ext_forest) none 3 2 with sample_size := 3 }).model.exp_avg_sep
        = (test_env none).expected_separation_depth 3 ∧
      (fit_iforest (test_env none) (test_run (fun _ => false))
        { test_fit_args (.extended test_ext_forest) none 3 2 with
          sample_size := 3 }).model.orig_sample_size = 4 :=
  (forest_constants_for_effective_sample_size (test_env none) (test_run (fun _ => false))
    { test_fit_args (.extended test_ext_forest) none 3 2 with sample_size := 3 }
    (by decide) (by decide) rfl).2

/-- C15 (the code at the failing input): `add_tree` is called on four rows with
`limit_depth = true` and `max_depth = 9`. The depth limit in the model parameters of the
appended tree is `9`, the `max_depth` passed, and not `log2ceil(4) = 2`, which is the
limit `fit_iforest` uses for the same arguments; `limit_depth` is not read in `add_tree`. -/
theorem add_tree_ignores_limit_depth :
    (add_tree_model_params
        { test_add_args (.single test_forest) none with
          limit_depth := true, max_depth := 9 }).max_depth = 9 ∧
      (add_tree_model_params
        { test_add_args (.single test_forest) none with
          limit_depth := true, max_depth := 9 }).sample_size = 4 ∧
      (test_env none).log2ceil 4 = 2 ∧
      (fit_model_params (test_env none)
        { test_fit_args (.single test_forest) none 3 2 with
          limit_depth := true, max_depth := 9 }).max_depth = 2 ∧
      ∀ a : AddTreeArgs, (add_tree_model_params { a with limit_depth := true }).max_depth
        = (add_tree_model_params { a with limit_depth := false }).max_depth := by
  refine ⟨rfl, rfl, ?_, ?_, fun a => rfl⟩
  · decide!
  · decide!

/-! ### The checks on the split-selection probabilities -/

theorem interrupted_ne_negative_probabilities :
    Failure.runtime_error "Error: procedure was interrupted.\n" ≠ negative_probabilities := by
  decide

theorem fit_iforest_accepted_not_negative (env : Env) (run : Run) (a : FitArgs)
    (h1 : ¬(a.prob_pick_by_gain_avg < 0 ∨ a.prob_pick_by_gain_pl < 0))
    (h2 : ¬(a.ndim = 0 ∧ a.model.is_single = false)) :
    (fit_iforest env run a).outcome ≠ Outcome.raised negative_probabilities := by
  obtain ⟨heq, hinv, -, -⟩ := fit_iforest_accepted env run a h1 h2
  rw [heq]
  intro hout
  rcases fit_finish_outcome env run a (fit_missing env a).1 (fit_model_params env a)
    (fit_grown env run a) with ⟨k, -, hk⟩ | ⟨-, ht, hex⟩ | ⟨-, -, -, ho⟩ | ⟨-, -, ho⟩
  · obtain ⟨-, h | h⟩ := interrupt_check_some run k _ hk
    · rw [hout] at h; simp at h
    · rw [hout] at h
      simp only [Outcome.raised.injEq] at h
      exact interrupted_ne_negative_probabilities h.2.symm
  · obtain ⟨e, he, pre, w, post, htr, -, -⟩ := hinv.thrown ht
    rcases hex with ⟨e1, he1, ho⟩ | hnone
    · rw [he] at he1
      cases he1
      obtain ⟨c, hc, hr⟩ := hinv.caught_built w e (by rw [htr]; simp)
      obtain ⟨tag, htag⟩ := (hinv.built_ok c hc).2.2.2 e hr
      rw [hout, htag] at ho
      simp [negative_probabilities] at ho
    · rw [he] at hnone; simp at hnone
  · rw [hout] at ho; simp at ho
  · rw [hout] at ho; simp at ho

theorem add_tree_try_not_negative (env : Env) (faults : AllocFaults) (a : AddTreeArgs) :
    (add_tree_try env faults a).outcome ≠ Outcome.raised negative_probabilities := by
  unfold add_tree_try
  cases hf : faults.tree_emplace with
  | some tag => simp [negative_probabilities]
  | none =>
    have hfin : ∀ imp, (add_tree_finish faults a imp (add_tree_build env a imp)).outcome ≠
        Outcome.raised negative_probabilities := by
      intro imp
      rcases add_tree_finish_outcome faults a imp (add_tree_build env a imp) with
        ⟨e, hb, ho⟩ | ⟨tag, ho⟩ | ho
      · obtain ⟨tag, htag⟩ := fit_itree_raised_escaped _ _ _ _ _ _ _ e hb
        rw [ho, htag]
        simp [negative_probabilities]
      · rw [ho]
        simp [negative_probabilities]
      · rw [ho]
        simp
    cases hi : a.imputer with
    | none => exact hfin _
    | some i =>
      cases hie : faults.imputer_emplace with
      | some tag => simp [negative_probabilities]
      | none => exact hfin _

theorem negative_probabilities_ne_ndim_zero_extended :
    negative_probabilities ≠ ndim_zero_extended := by
  decide

/-- C16 (counterexample): `fit_iforest` and `add_tree` are called with
`prob_pick_by_gain_pl = 1` and `prob_pick_by_gain_avg = 1`, which sum to `2`. Neither call
is rejected: `fit_iforest` returns `EXIT_SUCCESS` after three tree builds and `add_tree`
returns `EXIT_SUCCESS` after one. -/
theorem probabilities_summing_to_two_are_accepted :
    ((1 : ℚ) + 1 > 1) ∧
      (fit_iforest (test_env none) (test_run (fun _ => false))
        { test_fit_args (.single test_forest) none 3 2 with
          prob_pick_by_gain_pl := 1, prob_pick_by_gain_avg := 1 }).outcome
        = Outcome.returned EXIT_SUCCESS ∧
      (fit_iforest (test_env none) (test_run (fun _ => false))
        { test_fit_args (.single test_forest) none 3 2 with
          prob_pick_by_gain_pl := 1, prob_pick_by_gain_avg := 1 }).trace.length = 3 ∧
      (add_tree (test_env none) {}
        { test_add_args (.single test_forest) none with
          prob_pick_by_gain_pl := 1, prob_pick_by_gain_avg := 1 }).outcome
        = Outcome.returned EXIT_SUCCESS ∧
      (add_tree (test_env none) {}
        { test_add_args (.single test_forest) none with
          prob_pick_by_gain_pl := 1, prob_pick_by_gain_avg := 1 }).calls.length = 1 := by
  refine ⟨by norm_num, ?_, ?_, ?_, ?_⟩ <;> decide!

/-- C16 (amended): a parameter set passes the configuration checks of `fit_iforest`, and of
`add_tree`, exactly when neither `prob_pick_by_gain_avg < 0` nor `prob_pick_by_gain_pl < 0`
holds, the two comparisons of lines 383 and 793, and it is not the case that `ndim = 0`
without a single-variable model object; the sum of the two probabilities is not
examined. -/
theorem config_checks_reject_only_negative_probabilities (env : Env) (run : Run)
    (faults : AllocFaults) (a : FitArgs) (b : AddTreeArgs) :
    (((fit_iforest env run a).outcome ≠ Outcome.raised negative_probabilities ∧
        (fit_iforest env run a).outcome ≠ Outcome.raised ndim_zero_extended) ↔
      (¬(a.prob_pick_by_gain_avg < 0) ∧ ¬(a.prob_pick_by_gain_pl < 0) ∧
        ¬(a.ndim = 0 ∧ a.model.is_single = false))) ∧
    (((add_tree env faults b).outcome ≠ Outcome.raised negative_probabilities ∧
        (add_tree env faults b).outcome ≠ Outcome.raised ndim_zero_extended) ↔
      (¬(b.prob_pick_by_gain_avg < 0) ∧ ¬(b.prob_pick_by_gain_pl < 0) ∧
        ¬(b.ndim = 0 ∧ b.model.is_single = false))) := by
  constructor
  · by_cases h1 : a.prob_pick_by_gain_avg < 0 ∨ a.prob_pick_by_gain_pl < 0
    · have hout : (fit_iforest env run a).outcome = Outcome.raised negative_probabilities := by
        simp [fit_iforest, h1]
      constructor
      · intro h; exact absurd hout h.1
      · intro h
        rcases h1 with h1 | h1
        · exact absurd h1 h.1
        · exact absurd h1 h.2.1
    · have hnn := not_or.mp h1
      by_cases h2 : a.ndim = 0 ∧ a.model.is_single = false
      · have hout : (fit_iforest env run a).outcome = Outcome.raised ndim_zero_extended := by
          unfold fit_iforest
          rw [if_neg h1, if_pos h2]
        constructor
        · intro h; exact absurd hout h.2
        · intro h; exact absurd h2 h.2.2
      · exact ⟨fun _ => ⟨hnn.1, hnn.2, h2⟩, fun _ =>
          ⟨fit_iforest_accepted_not_negative env run a h1 h2,
            fit_iforest_accepted_outcome env run a h1 h2⟩⟩
  · by_cases h1 : b.prob_pick_by_gain_avg < 0 ∨ b.prob_pick_by_gain_pl < 0
    · have hout : (add_tree env faults b).outcome = Outcome.raised negative_probabilities := by
        simp [add_tree, h1]
      constructor
      · intro h; exact absurd hout h.1
      · intro h
        rcases h1 with h1 | h1
        · exact absurd h1 h.1
        · exact absurd h1 h.2.1
    · have hnn := not_or.mp h1
      by_cases h2 : b.ndim = 0 ∧ b.model.is_single = false
      · have hout : (add_tree env faults b).outcome = Outcome.raised ndim_zero_extended := by
          unfold add_tree
          rw [if_neg h1, if_pos h2]
        constructor
        · intro h; exact absurd hout h.2
        · intro h; exact absurd h2 h.2.2
      · have heq : add_tree env faults b = add_tree_try env faults b := by
          unfold add_tree
          rw [if_neg h1, if_neg h2]
        rw [heq]
        exact ⟨fun _ => ⟨hnn.1, hnn.2, h2⟩, fun _ =>
          ⟨add_tree_try_not_negative env faults b, add_tree_try_outcome env faults b⟩⟩

/-! ### The range-penalty flag of the forest -/

theorem Model.has_range_penalty_emplace_back (m : Model) :
    m.emplace_back.has_range_penalty = m.has_range_penalty := by
  cases m <;> rfl

theorem Model.has_range_penalty_pop_back (m : Model) :
    m.pop_back.has_range_penalty = m.has_range_penalty := by
  cases m <;> rfl

theorem Model.has_range_penalty_or_range_penalty (m : Model) (p : Bool) :
    (m.or_range_penalty p).has_range_penalty = (m.has_range_penalty || p) := by
  cases m <;> rfl

theorem fit_store_model_has_range_penalty (env : Env) (a : FitArgs) (input_data : InputData)
    (model_params : ModelParams) :
    (fit_store_model env a input_data model_params).has_range_penalty = a.penalize_range := by
  unfold fit_store_model
  cases a.model <;> rfl

theorem Model.has_range_penalty_set_back (m : Model) (s : TreeSlot) :
    (m.set_back s).has_range_penalty = m.has_range_penalty := by
  unfold Model.set_back
  exact Model.has_range_penalty_set_slot m _ s

/-- The flag after the part of `add_tree` that follows `fit_itree`: the disjunction with
`penalize_range` when the call succeeds, and also when it fails at line 866; the former flag
when it fails earlier. -/
theorem add_tree_finish_has_range_penalty (faults : AllocFaults) (a : AddTreeArgs)
    (imputer : Option Imputer) (b : TreeBuild) :
    ((add_tree_finish faults a imputer b).outcome = Outcome.returned EXIT_SUCCESS ∧
        (add_tree_finish faults a imputer b).model.has_range_penalty =
          (a.model.has_range_penalty || a.penalize_range)) ∨
      ((add_tree_finish faults a imputer b).outcome ≠ Outcome.returned EXIT_SUCCESS ∧
        (add_tree_finish faults a imputer b).model.has_range_penalty =
          a.model.has_range_penalty) ∨
      ((add_tree_finish faults a imputer b).outcome ≠ Outcome.returned EXIT_SUCCESS ∧
        imputer.isSome = true ∧ faults.imputer_shrink.isSome = true ∧
        (add_tree_finish faults a imputer b).model.has_range_penalty =
          (a.model.has_range_penalty || a.penalize_range)) := by
  have hm2 : (a.model.emplace_back.set_back b.slot).has_range_penalty =
      a.model.has_range_penalty := by
    rw [Model.has_range_penalty_set_back, Model.has_range_penalty_emplace_back]
  unfold add_tree_finish
  cases hb : b.raised with
  | some e =>
    refine Or.inr (Or.inl ⟨by simp, ?_⟩)
    simp only [add_tree_rollback]
    rw [Model.has_range_penalty_pop_back, hm2]
  | none =>
    cases ht : faults.tree_shrink with
    | some t =>
      refine Or.inr (Or.inl ⟨by simp, ?_⟩)
      simp only [add_tree_rollback]
      rw [Model.has_range_penalty_pop_back, hm2]
    | none =>
      cases imputer with
      | none =>
        refine Or.inl ⟨rfl, ?_⟩
        simp only [Option.map_none']
        rw [Model.has_range_penalty_or_range_penalty, hm2]
      | some i =>
        cases hs : faults.imputer_shrink with
        | some t =>
          refine Or.inr (Or.inr ⟨by simp, rfl, rfl, ?_⟩)
          simp only [Option.map_some', add_tree_rollback]
          rw [Model.has_range_penalty_pop_back, Model.has_range_penalty_or_range_penalty, hm2]
        | none =>
          refine Or.inl ⟨rfl, ?_⟩
          simp only [Option.map_some']
          rw [Model.has_range_penalty_or_range_penalty, hm2]

theorem add_tree_has_range_penalty (env : Env) (faults : AllocFaults) (a : AddTreeArgs) :
    ((add_tree env faults a).outcome = Outcome.returned EXIT_SUCCESS ∧
        (add_tree env faults a).model.has_range_penalty =
          (a.model.has_range_penalty || a.penalize_range)) ∨
      ((add_tree env faults a).outcome ≠ Outcome.returned EXIT_SUCCESS ∧
        (add_tree env faults a).model.has_range_penalty = a.model.has_range_penalty) ∨
      ((add_tree env faults a).outcome ≠ Outcome.returned EXIT_SUCCESS ∧
        a.imputer.isSome = true ∧ faults.imputer_shrink.isSome = true ∧
        (add_tree env faults a).model.has_range_penalty =
          (a.model.has_range_penalty || a.penalize_range)) := by
  unfold add_tree
  split
  · exact Or.inr (Or.inl ⟨by simp, rfl⟩)
  · split
    · exact Or.inr (Or.inl ⟨by simp, rfl⟩)
    · unfold add_tree_try
      cases hf : faults.tree_emplace with
      | some tag => exact Or.inr (Or.inl ⟨by simp, rfl⟩)
      | none =>
        cases hi : a.imputer with
        | none =>
          have h := add_tree_finish_has_range_penalty faults a none (add_tree_build env a none)
          simpa using h
        | some i =>
          cases hie : faults.imputer_emplace with
          | some tag =>
            refine Or.inr (Or.inl ⟨by simp, ?_⟩)
            simp only [add_tree_rollback]
            rw [Model.has_range_penalty_pop_back, Model.has_range_penalty_emplace_back]
          | none =>
            have h := add_tree_finish_has_range_penalty faults a (some i.emplace_back)
              (add_tree_build env a (some i.emplace_back))
            simpa using h

/-- The flag after a sequence of `add_tree` calls in none of which the `shrink_to_fit` of
line 866 raises: the disjunction of the former flag and of the `penalize_range` flags of the
calls that returned `EXIT_SUCCESS`. -/
theorem add_tree_seq_has_range_penalty (env : Env) (calls : List (AllocFaults × AddTreeArgs))
    (hcalls : ∀ c ∈ calls, c.2.imputer = none ∨ c.1.imputer_shrink = none) :
    ∀ model : Model, (add_tree_seq env model calls).1.has_range_penalty =
      (model.has_range_penalty ||
        (List.zip calls (add_tree_seq env model calls).2).any
          (fun cr => cr.2.succeeded && cr.1.2.penalize_range)) := by
  induction calls with
  | nil => intro model; simp [add_tree_seq]
  | cons c rest ih =>
    intro model
    simp only [add_tree_seq, List.zip_cons_cons, List.any_cons]
    rw [ih (fun c1 hc1 => hcalls c1 (List.mem_cons_of_mem _ hc1)), ← Bool.or_assoc]
    congr 1
    rcases add_tree_has_range_penalty env c.1 { c.2 with model := model } with
      ⟨ho, hm⟩ | ⟨ho, hm⟩ | ⟨-, hi, hs, -⟩
    · rw [hm]
      simp [AddTreeResult.succeeded, ho]
    · rw [hm]
      simp [AddTreeResult.succeeded, ho]
    · rcases hcalls c (List.mem_cons_self _ _) with h | h
      · simp [h] at hi
      · simp [h] at hs

set_option maxRecDepth 100000 in
/-- C17 (the program at the failing input): `add_tree` is called with `penalize_range = true`
and an imputer on a forest of two trees whose `has_range_penalty` is `false`; the tree is
built and the `shrink_to_fit` of the new imputer entry (line 866) raises. The call fails
with that exception, the forest has its two trees again and the imputer its two entries,
yet `has_range_penalty` is `true`: it was written at line 858, inside the `try` block, and
the `catch` block does not restore it. So a failed `add_tree` has changed the flag, and
the flag is not the disjunction over the calls that succeeded: no call did. Of all other
calls the claim holds. A `fit_iforest` call that passes the configuration checks leaves
`has_range_penalty = penalize_range`; no `add_tree` call turns a true flag to false; an
`add_tree` call that returns `EXIT_SUCCESS` leaves the disjunction of the flag and its
`penalize_range`; an `add_tree` call that fails, made without an imputer or without a
failure of line 866, leaves the flag as it was; and after any sequence of `add_tree`
calls none of which has both an imputer and a failure of line 866, the flag is the
disjunction of the flag before the sequence and the `penalize_range` flags of the calls
that returned `EXIT_SUCCESS`. -/
theorem failed_add_tree_sets_range_penalty :
    (Model.single test_forest).has_range_penalty = false ∧
      (test_add_args (.single test_forest) (some test_imputer)).penalize_range = true ∧
      range_penalty_failed.outcome = Outcome.raised (Failure.escaped 1) ∧
      range_penalty_failed.model.slots = (Model.single test_forest).slots ∧
      range_penalty_failed.imputer = some test_imputer ∧
      range_penalty_failed.model.has_range_penalty = true ∧
      (add_tree_seq (test_env none) (.single test_forest)
          [({ imputer_shrink := some 1 },
            test_add_args (.single test_forest) (some test_imputer))]).2.map
        AddTreeResult.succeeded = [false] ∧
      (add_tree_seq (test_env none) (.single test_forest)
          [({ imputer_shrink := some 1 },
            test_add_args (.single test_forest) (some test_imputer))]).1.has_range_penalty =
        true ∧
      (∀ (env : Env) (run : Run) (a : FitArgs),
        ¬(a.prob_pick_by_gain_avg < 0 ∨ a.prob_pick_by_gain_pl < 0) →
        ¬(a.ndim = 0 ∧ a.model.is_single = false) →
        (fit_iforest env run a).model.has_range_penalty = a.penalize_range) ∧
      (∀ (env : Env) (faults : AllocFaults) (b : AddTreeArgs),
        b.model.has_range_penalty = true →
        (add_tree env faults b).model.has_range_penalty = true) ∧
      (∀ (env : Env) (faults : AllocFaults) (b : AddTreeArgs),
        (add_tree env faults b).outcome = Outcome.returned EXIT_SUCCESS →
        (add_tree env faults b).model.has_range_penalty =
          (b.model.has_range_penalty || b.penalize_range)) ∧
      (∀ (env : Env) (faults : AllocFaults) (b : AddTreeArgs),
        (add_tree env faults b).outcome ≠ Outcome.returned EXIT_SUCCESS →
        b.imputer = none ∨ faults.imputer_shrink = none →
        (add_tree env faults b).model.has_range_penalty = b.model.has_range_penalty) ∧
      (∀ (env : Env) (model : Model) (calls : List (AllocFaults × AddTreeArgs)),
        (∀ c ∈ calls, c.2.imputer = none ∨ c.1.imputer_shrink = none) →
        (add_tree_seq env model calls).1.has_range_penalty =
          (model.has_range_penalty ||
            (List.zip calls (add_tree_seq env model calls).2).any
              (fun cr => cr.2.succeeded && cr.1.2.penalize_range))) := by
  refine ⟨rfl, rfl, by decide!, by decide!, by decide!, by decide!, by decide!, by decide!,
    fun env run a h1 h2 => ?_, fun env faults b hb => ?_, fun env faults b ho => ?_,
    fun env faults b ho hi => ?_,
    fun env model calls hcalls => add_tree_seq_has_range_penalty env calls hcalls model⟩
  · obtain ⟨heq, -, -, -⟩ := fit_iforest_accepted env run a h1 h2
    rw [heq, (fit_finish_trace_model env run a _ _ _).2,
      fit_grown_model_const Model.has_range_penalty Model.has_range_penalty_set_slot,
      fit_store_model_has_range_penalty]
  · rcases add_tree_has_range_penalty env faults b with ⟨-, hm⟩ | ⟨-, hm⟩ | ⟨-, -, -, hm⟩
    · rw [hm, hb, Bool.true_or]
    · rw [hm, hb]
    · rw [hm, hb, Bool.true_or]
  · rcases add_tree_has_range_penalty env faults b with ⟨-, hm⟩ | ⟨hn, -⟩ | ⟨hn, -⟩
    · exact hm
    · exact absurd ho hn
    · exact absurd ho hn
  · rcases add_tree_has_range_penalty env faults b with ⟨hs, -⟩ | ⟨-, hm⟩ | ⟨-, hi1, hs1, -⟩
    · exact absurd hs ho
    · exact hm
    · rcases hi with h | h
      · simp [h] at hi1
      · simp [h] at hs1

/-! ### Column weights from kurtosis -/

theorem getD_set_eq (l : List ℚ) (i j : Nat) (x d : ℚ) :
    (l.set i x).getD j d = if i = j ∧ i < l.length then x else l.getD j d := by
  simp only [List.getD_eq_getElem?_getD, List.getElem?_set]
  by_cases h : i = j
  · subst h
    by_cases hl : i < l.length
    · simp [hl]
    · simp [hl, List.getElem?_eq_none (not_lt.mp hl)]
  · simp [h]

theorem getD_map_lt (l : List ℚ) (f : ℚ → ℚ) (j : Nat) (d : ℚ) (h : j < l.length) :
    (l.map f).getD j d = f (l.getD j d) := by
  simp [List.getD_eq_getElem?_getD, List.getElem?_map, List.getElem?_eq_getElem h]

theorem foldl_range_induct {σ : Type} (f : σ → Nat → σ) (init : σ) (P : Nat → σ → Prop)
    (n : Nat) (h0 : P 0 init) (hstep : ∀ k s, k < n → P k s → P (k + 1) (f s k)) :
    P n ((List.range n).foldl f init) := by
  have h : ∀ m, m ≤ n → P m ((List.range m).foldl f init) := by
    intro m
    induction m with
    | zero => intro _; exact h0
    | succ k ih =>
      intro hk
      rw [List.range_succ, List.foldl_append]
      exact hstep k _ hk (ih (Nat.le_of_succ_le hk))
  exact h n le_rfl

theorem kurt_weights_all_entries (env : Env) (ws : WorkerMemory) (input_data : InputData)
    (model_params : ModelParams)
    (hcols : input_data.ncols_numeric + input_data.ncols_categ < 2 ^ 64) :
    (kurt_weights_all env ws input_data model_params).1.length =
        input_data.ncols_numeric + input_data.ncols_categ ∧
      (∀ c, c < input_data.ncols_numeric →
        (kurt_weights_all env ws input_data model_params).1.getD c 0 =
          kurt_to_weight
            (kurtosis_numeric env (kurt_sorted ws input_data) input_data model_params c)) ∧
      (∀ c, c < input_data.ncols_categ → ∃ rng,
        (kurt_weights_all env ws input_data model_params).1.getD (c + input_data.ncols_numeric) 0 =
          kurt_to_weight
            (kurtosis_categ env { kurt_sorted ws input_data with rnd_generator := rng }
              input_data model_params c).1) ∧
      ∃ rng, (kurt_weights_all env ws input_data model_params).2 =
        { kurt_sorted ws input_data with rnd_generator := rng } := by
  have hL : add64 input_data.ncols_numeric input_data.ncols_categ =
      input_data.ncols_numeric + input_data.ncols_categ := by
    unfold add64
    exact Nat.mod_eq_of_lt hcols
  have hnum := foldl_range_induct
    (fun (kw : List ℚ) col => kw.set col
      (kurtosis_numeric env (kurt_sorted ws input_data) input_data model_params col))
    (List.replicate (add64 input_data.ncols_numeric input_data.ncols_categ) 0)
    (fun k kw => kw.length = input_data.ncols_numeric + input_data.ncols_categ ∧
      ∀ c, c < k → kw.getD c 0 =
        kurtosis_numeric env (kurt_sorted ws input_data) input_data model_params c)
    input_data.ncols_numeric
    ⟨by rw [List.length_replicate, hL], fun c hc => absurd hc (Nat.not_lt_zero c)⟩
    (fun k kw hk hkw => by
      refine ⟨by rw [List.length_set]; exact hkw.1, fun c hc => ?_⟩
      rw [getD_set_eq]
      by_cases hck : k = c
      · rw [if_pos ⟨hck, by rw [hkw.1]; omega⟩, hck]
      · rw [if_neg (fun h => hck h.1)]
        exact hkw.2 c (by omega))
  have hcat := foldl_range_induct
    (fun (acc : List ℚ × WorkerMemory) col =>
      ((acc.1.set (col + input_data.ncols_numeric)
          (kurtosis_categ env acc.2 input_data model_params col).1,
        { acc.2 with
          rnd_generator := (kurtosis_categ env acc.2 input_data model_params col).2 }) :
        List ℚ × WorkerMemory))
    ((List.range input_data.ncols_numeric).foldl
      (fun (kw : List ℚ) col => kw.set col
        (kurtosis_numeric env (kurt_sorted ws input_data) input_data model_params col))
      (List.replicate (add64 input_data.ncols_numeric input_data.ncols_categ) 0),
      kurt_sorted ws input_data)
    (fun k acc => acc.1.length = input_data.ncols_numeric + input_data.ncols_categ ∧
      (∀ c, c < input_data.ncols_numeric → acc.1.getD c 0 =
        kurtosis_numeric env (kurt_sorted ws input_data) input_data model_params c) ∧
      (∀ c, c < k → ∃ rng, acc.1.getD (c + input_data.ncols_numeric) 0 =
        (kurtosis_categ env { kurt_sorted ws input_data with rnd_generator := rng }
          input_data model_params c).1) ∧
      ∃ rng, acc.2 = { kurt_sorted ws input_data with rnd_generator := rng })
    input_data.ncols_categ
    ⟨hnum.1, hnum.2, fun c hc => absurd hc (Nat.not_lt_zero c), ⟨_, rfl⟩⟩
    (fun k acc hk hacc => by
      obtain ⟨hlen, hn, hc, rng, hrng⟩ := hacc
      refine ⟨by rw [List.length_set]; exact hlen, fun c hcn => ?_, fun c hck => ?_, ?_⟩
      · rw [getD_set_eq, if_neg (fun h => by omega)]
        exact hn c hcn
      · rw [getD_set_eq]
        by_cases hkc : k = c
        · rw [if_pos ⟨by rw [hkc], by rw [hlen]; omega⟩, hrng, hkc]
          exact ⟨rng, rfl⟩
        · rw [if_neg (fun h => by omega)]
          exact hc c (by omega)
      · exact ⟨(kurtosis_categ env acc.2 input_data model_params k).2, by
          show ({ acc.2 with rnd_generator := _ } : WorkerMemory) = _
          rw [hrng]⟩)
  obtain ⟨hlen, hn, hc, hws⟩ := hcat
  have hdef : kurt_weights_all env ws input_data model_params =
      (((List.range input_data.ncols_categ).foldl
        (fun (acc : List ℚ × WorkerMemory) col =>
          ((acc.1.set (col + input_data.ncols_numeric)
              (kurtosis_categ env acc.2 input_data model_params col).1,
            { acc.2 with
              rnd_generator := (kurtosis_categ env acc.2 input_data model_params col).2 }) :
            List ℚ × WorkerMemory))
        ((List.range input_data.ncols_numeric).foldl
          (fun (kw : List ℚ) col => kw.set col
            (kurtosis_numeric env (kurt_sorted ws input_data) input_data model_params col))
          (List.replicate (add64 input_data.ncols_numeric input_data.ncols_categ) 0),
          kurt_sorted ws input_data)).1.map kurt_to_weight,
       ((List.range input_data.ncols_categ).foldl
        (fun (acc : List ℚ × WorkerMemory) col =>
          ((acc.1.set (col + input_data.ncols_numeric)
              (kurtosis_categ env acc.2 input_data model_params col).1,
            { acc.2 with
              rnd_generator := (kurtosis_categ env acc.2 input_data model_params col).2 }) :
            List ℚ × WorkerMemory))
        ((List.range input_data.ncols_numeric).foldl
          (fun (kw : List ℚ) col => kw.set col
            (kurtosis_numeric env (kurt_sorted ws input_data) input_data model_params col))
          (List.replicate (add64 input_data.ncols_numeric input_data.ncols_categ) 0),
          kurt_sorted ws input_data)).2) := rfl
  rw [hdef]
  refine ⟨by rw [List.length_map]; exact hlen, fun c hcn => ?_, fun c hcc => ?_, hws⟩
  · rw [getD_map_lt _ _ _ _ (by rw [hlen]; omega), hn c hcn]
  · obtain ⟨rng, hr⟩ := hc c hcc
    exact ⟨rng, by rw [getD_map_lt _ _ _ _ (by rw [hlen]; omega), hr]⟩

theorem fit_itree_col_weights_sample (is_tree : Bool) (ws : WorkerMemory) (input_data : InputData)
    (model_params : ModelParams) :
    (fit_itree_col_weights is_tree ws input_data model_params).st = ws.st ∧
      (fit_itree_col_weights is_tree ws input_data model_params).end_ = ws.end_ ∧
      (fit_itree_col_weights is_tree ws input_data model_params).ix_arr = ws.ix_arr := by
  unfold fit_itree_col_weights
  repeat' split
  all_goals exact ⟨rfl, rfl, rfl⟩

theorem fit_itree_scratch_sample (is_tree : Bool) (ws : WorkerMemory) (input_data : InputData)
    (model_params : ModelParams) :
    (fit_itree_scratch is_tree ws input_data model_params).st = ws.st ∧
      (fit_itree_scratch is_tree ws input_data model_params).end_ = ws.end_ ∧
      (fit_itree_scratch is_tree ws input_data model_params).ix_arr = ws.ix_arr := by
  unfold fit_itree_scratch
  cases model_params.cat_split_type <;>
    simp only [apply_ite WorkerMemory.st, apply_ite WorkerMemory.end_,
      apply_ite WorkerMemory.ix_arr, ite_self, and_self]

theorem fit_itree_density_weights_sample (is_tree : Bool) (ws : WorkerMemory)
    (input_data : InputData) (model_params : ModelParams) :
    (fit_itree_density_weights is_tree ws input_data model_params).st = ws.st ∧
      (fit_itree_density_weights is_tree ws input_data model_params).end_ = ws.end_ ∧
      (fit_itree_density_weights is_tree ws input_data model_params).ix_arr = ws.ix_arr := by
  unfold fit_itree_density_weights
  cases input_data.sample_weights <;>
    simp only [apply_ite WorkerMemory.st, apply_ite WorkerMemory.end_,
      apply_ite WorkerMemory.ix_arr, ite_self, and_self]

theorem fit_itree_tmat_sample (ws : WorkerMemory) (input_data : InputData)
    (model_params : ModelParams) :
    (fit_itree_tmat ws input_data model_params).st = ws.st ∧
      (fit_itree_tmat ws input_data model_params).end_ = ws.end_ ∧
      (fit_itree_tmat ws input_data model_params).ix_arr = ws.ix_arr := by
  unfold fit_itree_tmat
  split <;> exact ⟨rfl, rfl, rfl⟩

theorem fit_itree_buffers_sample (env : Env) (is_tree : Bool) (ws : WorkerMemory)
    (input_data : InputData) (model_params : ModelParams) :
    (fit_itree_buffers env is_tree ws input_data model_params).st = ws.st ∧
      (fit_itree_buffers env is_tree ws input_data model_params).end_ = ws.end_ ∧
      (fit_itree_buffers env is_tree ws input_data model_params).ix_arr = ws.ix_arr := by
  unfold fit_itree_buffers
  simp only [apply_ite WorkerMemory.st, apply_ite WorkerMemory.end_,
    apply_ite WorkerMemory.ix_arr, ite_self, and_self]

/-- The blocks between the sampling of the rows and the kurtosis block leave the sample:
the row-index array and the positions `st` and `end` that delimit it. -/
theorem fit_itree_upto_kurtosis_sample (env : Env) (is_tree : Bool) (ws : WorkerMemory)
    (input_data : InputData) (model_params : ModelParams) :
    (fit_itree_upto_kurtosis env is_tree ws input_data model_params).st = ws.st ∧
      (fit_itree_upto_kurtosis env is_tree ws input_data model_params).end_ = ws.end_ ∧
      (fit_itree_upto_kurtosis env is_tree ws input_data model_params).ix_arr = ws.ix_arr := by
  unfold fit_itree_upto_kurtosis
  obtain ⟨a1, a2, a3⟩ := fit_itree_col_weights_sample is_tree ws input_data model_params
  obtain ⟨b1, b2, b3⟩ := fit_itree_scratch_sample is_tree
    (fit_itree_col_weights is_tree ws input_data model_params) input_data model_params
  obtain ⟨c1, c2, c3⟩ := fit_itree_density_weights_sample is_tree
    (fit_itree_scratch is_tree (fit_itree_col_weights is_tree ws input_data model_params)
      input_data model_params) input_data model_params
  obtain ⟨d1, d2, d3⟩ := fit_itree_tmat_sample
    (fit_itree_density_weights is_tree
      (fit_itree_scratch is_tree (fit_itree_col_weights is_tree ws input_data model_params)
        input_data model_params) input_data model_params) input_data model_params
  obtain ⟨e1, e2, e3⟩ := fit_itree_buffers_sample env is_tree
    (fit_itree_tmat (fit_itree_density_weights is_tree
      (fit_itree_scratch is_tree (fit_itree_col_weights is_tree ws input_data model_params)
        input_data model_params) input_data model_params) input_data model_params)
    input_data model_params
  exact ⟨by rw [e1, d1, c1, b1, a1], by rw [e2, d2, c2, b2, a2], by rw [e3, d3, c3, b3, a3]⟩

theorem fit_itree_sample_ok (env : Env) (ws ws1 : WorkerMemory) (input_data : InputData)
    (model_params : ModelParams)
    (h : fit_itree_sample env ws input_data model_params = .ok ws1) :
    ws1.st = 0 ∧ ws1.end_ = sub64 model_params.sample_size 1 := by
  unfold fit_itree_sample at h
  split at h
  · cases h
  · cases h
    exact ⟨rfl, rfl⟩

theorem kurt_sorted_fields (ws : WorkerMemory) (input_data : InputData) :
    (kurt_sorted ws input_data).st = ws.st ∧ (kurt_sorted ws input_data).end_ = ws.end_ ∧
      (kurt_sorted ws input_data).col_sampler = ws.col_sampler ∧
      row_weights (kurt_sorted ws input_data) = row_weights ws ∧
      (kurt_sorted ws input_data).ix_arr =
        (if input_data.Xc_indptr.isSome then ws.ix_arr.insertionSort (fun a b => a ≤ b)
         else ws.ix_arr) := by
  unfold kurt_sorted
  split <;> exact ⟨rfl, rfl, rfl, rfl, rfl⟩

theorem kurt_to_weight_ge (w : ℚ) : 1 / 100000000 ≤ kurt_to_weight w :=
  le_max_left _ _

theorem fit_itree_kurtosis_all (env : Env) (is_tree : Bool) (ws : WorkerMemory)
    (input_data : InputData) (model_params : ModelParams)
    (hkurt : model_params.weigh_by_kurt = true)
    (havoid : avoid_col_weights is_tree input_data model_params = false)
    (hall : model_params.ncols_per_tree = 0 ∨ model_params.ncols_per_tree ≥ input_data.ncols_tot) :
    fit_itree_kurtosis env is_tree ws input_data model_params =
      .ok { (kurt_weights_all env ws input_data model_params).2 with
            col_sampler := (kurt_weights_all env ws input_data model_params).2.col_sampler ++
              [SamplerCall.init_weights (kurt_weights_all env ws input_data model_params).1
                (kurt_weights_all env ws input_data model_params).1.length] } := by
  unfold fit_itree_kurtosis
  rw [hkurt, havoid]
  simp only [Bool.not_false, Bool.and_self, if_true]
  rw [if_pos hall]

theorem fit_itree_of_kurtosis_ok (env : Env) (slot : TreeSlot) (workspace : WorkerMemory)
    (input_data : InputData) (model_params : ModelParams)
    (impute_nodes : Option (List ImputeNode)) (tree_num : Nat) (ws1 ws7 : WorkerMemory)
    (hsample : fit_itree_sample env (fit_itree_begin workspace input_data model_params tree_num)
      input_data model_params = .ok ws1)
    (hk : fit_itree_kurtosis env slot.is_tree
      (fit_itree_upto_kurtosis env slot.is_tree ws1 input_data model_params)
      input_data model_params = .ok ws7) :
    fit_itree env slot workspace input_data model_params impute_nodes tree_num =
      fit_itree_grow env (add_root slot)
        (fit_itree_col_sampler env slot.is_tree ws7 input_data model_params)
        input_data model_params (add_root_impute impute_nodes)
        (fit_itree_begin workspace input_data model_params tree_num).rnd_generator := by
  unfold fit_itree
  simp only [hsample]
  unfold fit_itree_upto_kurtosis at hk
  simp only [hk]

/-- C18: in a `fit_itree` call whose rows were sampled (leaving worker memory `ws1`), with
columns weighted by kurtosis and all columns eligible, the kurtosis block hands the column
sampler one weight per column, `max(1e-8, k_c - 1)`, where `k_c` is what the kurtosis
routine returns for column `c` on the row-index array of the sample (sorted when the input
is sparse) between positions `0` and `sample_size - 1`; every weight is at least `1e-8`, and
the tree is grown with the worker memory the block leaves. -/
theorem kurtosis_weights_handed_to_sampler (env : Env) (slot : TreeSlot)
    (workspace : WorkerMemory) (input_data : InputData) (model_params : ModelParams)
    (impute_nodes : Option (List ImputeNode)) (tree_num : Nat) (ws1 : WorkerMemory)
    (hsample : fit_itree_sample env (fit_itree_begin workspace input_data model_params tree_num)
      input_data model_params = .ok ws1)
    (hkurt : model_params.weigh_by_kurt = true)
    (havoid : avoid_col_weights slot.is_tree input_data model_params = false)
    (hall : model_params.ncols_per_tree = 0 ∨ model_params.ncols_per_tree ≥ input_data.ncols_tot)
    (hcols : input_data.ncols_numeric + input_data.ncols_categ < 2 ^ 64) :
    ∃ (kw : List ℚ) (ws7 : WorkerMemory),
      fit_itree_kurtosis env slot.is_tree
          (fit_itree_upto_kurtosis env slot.is_tree ws1 input_data model_params)
          input_data model_params = .ok ws7 ∧
        fit_itree env slot workspace input_data model_params impute_nodes tree_num =
          fit_itree_grow env (add_root slot)
            (fit_itree_col_sampler env slot.is_tree ws7 input_data model_params)
            input_data model_params (add_root_impute impute_nodes)
            (fit_itree_begin workspace input_data model_params tree_num).rnd_generator ∧
        ws7.col_sampler =
          (fit_itree_upto_kurtosis env slot.is_tree ws1 input_data model_params).col_sampler ++
            [SamplerCall.init_weights kw kw.length] ∧
        kw.length = input_data.ncols_numeric + input_data.ncols_categ ∧
        (∀ c, c < input_data.ncols_numeric →
          kw.getD c 0 = max (1 / 100000000) (-1 +
            (match input_data.Xc_indptr with
              | none =>
                env.calc_kurtosis_dense ws1.ix_arr 0 (sub64 model_params.sample_size 1)
                  ((input_data.numeric_data.getD []).drop (c * input_data.nrows))
                  model_params.missing_action
                  (row_weights
                    (fit_itree_upto_kurtosis env slot.is_tree ws1 input_data model_params))
              | some indptr =>
                env.calc_kurtosis_sparse (ws1.ix_arr.insertionSort (fun a b => a ≤ b)) 0
                  (sub64 model_params.sample_size 1) c (input_data.Xc.getD [])
                  (input_data.Xc_ind.getD []) indptr model_params.missing_action
                  (row_weights
                    (fit_itree_upto_kurtosis env slot.is_tree ws1 input_data model_params))))) ∧
        (∀ c, c < input_data.ncols_categ → ∃ rng,
          kw.getD (c + input_data.ncols_numeric) 0 = max (1 / 100000000) (-1 +
            (env.calc_kurtosis_categ
              (if input_data.Xc_indptr.isSome then ws1.ix_arr.insertionSort (fun a b => a ≤ b)
               else ws1.ix_arr)
              0 (sub64 model_params.sample_size 1)
              ((input_data.categ_data.getD []).drop (c * input_data.nrows))
              (input_data.ncat.getD c 0) model_params.missing_action model_params.cat_split_type
              rng
              (row_weights
                (fit_itree_upto_kurtosis env slot.is_tree ws1 input_data model_params))).1)) ∧
        ∀ c, c < kw.length → 1 / 100000000 ≤ kw.getD c 0 := by
  obtain ⟨hst1, hend1⟩ := fit_itree_sample_ok env _ ws1 input_data model_params hsample
  obtain ⟨hst, hend, hix⟩ :=
    fit_itree_upto_kurtosis_sample env slot.is_tree ws1 input_data model_params
  rw [hst1] at hst
  rw [hend1] at hend
  obtain ⟨sst, send, scol, srw, six⟩ :=
    kurt_sorted_fields (fit_itree_upto_kurtosis env slot.is_tree ws1 input_data model_params)
      input_data
  rw [hst] at sst
  rw [hend] at send
  rw [hix] at six
  have hk := fit_itree_kurtosis_all env slot.is_tree
    (fit_itree_upto_kurtosis env slot.is_tree ws1 input_data model_params) input_data
    model_params hkurt havoid hall
  obtain ⟨hlen, hnum, hcat, rng, hws⟩ := kurt_weights_all_entries env
    (fit_itree_upto_kurtosis env slot.is_tree ws1 input_data model_params) input_data
    model_params hcols
  refine ⟨_, _, hk, ?_, ?_, hlen, fun c hc => ?_, fun c hc => ?_, fun c hc => ?_⟩
  · exact fit_itree_of_kurtosis_ok env slot workspace input_data model_params impute_nodes
      tree_num ws1 _ hsample hk
  · show (kurt_weights_all env _ input_data model_params).2.col_sampler ++ _ = _
    rw [hws]
    show (kurt_sorted _ input_data).col_sampler ++ _ = _
    rw [scol]
  · rw [hnum c hc]
    unfold kurt_to_weight kurtosis_numeric
    rw [sst, send, srw, six]
    cases input_data.Xc_indptr <;> rfl
  · obtain ⟨r, hr⟩ := hcat c hc
    refine ⟨r, ?_⟩
    rw [hr]
    unfold kurt_to_weight kurtosis_categ
    show max _ (-1 + (env.calc_kurtosis_categ (kurt_sorted _ input_data).ix_arr
      (kurt_sorted _ input_data).st (kurt_sorted _ input_data).end_ _ _ _ _ r
      (row_weights (kurt_sorted _ input_data))).1) = _
    rw [sst, send, srw, six]
  · rw [hlen] at hc
    by_cases hcn : c < input_data.ncols_numeric
    · rw [hnum c hcn]
      exact kurt_to_weight_ge _
    · obtain ⟨r, hr⟩ := hcat (c - input_data.ncols_numeric) (by omega)
      rw [Nat.sub_add_cancel (not_lt.mp hcn)] at hr
      rw [hr]
      exact kurt_to_weight_ge _

set_option maxRecDepth 100000 in
theorem kurtosis_weights_handed_to_sampler_witness :
    ∃ (kw : List ℚ) (ws7 : WorkerMemory),
      fit_itree_kurtosis (test_env none) true
          (fit_itree_upto_kurtosis (test_env none) true kurt_sampled
            (add_tree_input_data kurt_add_args) (add_tree_model_params kurt_add_args))
          (add_tree_input_data kurt_add_args) (add_tree_model_params kurt_add_args) = .ok ws7 ∧
        ws7.col_sampler = [SamplerCall.init_weights kw kw.length] ∧
        kw.length = 1 ∧ kw.getD 0 0 = 2 ∧ 1 / 100000000 ≤ kw.getD 0 0 := by
  obtain ⟨kw, ws7, hk, -, hcs, hlen, hnum, -, hge⟩ :=
    kurtosis_weights_handed_to_sampler (test_env none) (.tree []) {}
      (add_tree_input_data kurt_add_args) (add_tree_model_params kurt_add_args) none 2
      kurt_sampled rfl rfl (by decide!) (Or.inl rfl) (by decide)
  exact ⟨kw, ws7, hk, hcs, hlen, (hnum 0 (by decide)).trans (by decide!),
    hge 0 (by rw [hlen]; decide)⟩

/-! ### The triangular separation matrix -/

theorem tmat_position_zero (n j : Nat) : tmat_position n 0 j = (j : ℚ) - 1 := by
  unfold tmat_position
  push_cast
  ring

theorem tmat_position_succ (n i j : Nat) :
    tmat_position (n + 1) (i + 1) (j + 1) = (n : ℚ) + tmat_position n i j := by
  unfold tmat_position
  push_cast
  ring

theorem triangle_succ (n : Nat) : (n + 1) * (n + 1 - 1) / 2 = n + n * (n - 1) / 2 := by
  cases n with
  | zero => rfl
  | succ m =>
    have h : (m + 1 + 1) * (m + 1 + 1 - 1) = 2 * (m + 1) + (m + 1) * (m + 1 - 1) := by
      simp only [Nat.add_sub_cancel]
      ring
    rw [h, Nat.mul_add_div (by decide : 2 > 0)]

/-- The documented position enumerates the upper triangle: it is a natural number below
`n(n-1)/2`, it separates distinct pairs, and it reaches every number below `n(n-1)/2`. -/
theorem tmat_position_enumerates (n : Nat) :
    (∀ i j, i < j → j < n → ∃ p : Nat, tmat_position n i j = (p : ℚ) ∧ p < n * (n - 1) / 2) ∧
      (∀ i j k l, i < j → j < n → k < l → l < n →
        tmat_position n i j = tmat_position n k l → i = k ∧ j = l) ∧
      (∀ p : Nat, p < n * (n - 1) / 2 →
        ∃ i j, i < j ∧ j < n ∧ tmat_position n i j = (p : ℚ)) := by
  induction n with
  | zero =>
    exact ⟨fun i j _ hj => absurd hj (Nat.not_lt_zero j),
      fun i j k l _ hj => absurd hj (Nat.not_lt_zero j),
      fun p hp => absurd hp (by simp)⟩
  | succ n ih =>
    obtain ⟨hrange, hinj, hsurj⟩ := ih
    have hr : ∀ i j, i < j → j < n + 1 →
        ∃ p : Nat, tmat_position (n + 1) i j = (p : ℚ) ∧ p < (n + 1) * (n + 1 - 1) / 2 ∧
          (i = 0 → p + 1 = j) ∧ (0 < i → n ≤ p) := by
      intro i j hij hj
      rw [triangle_succ]
      cases i with
      | zero =>
        refine ⟨j - 1, ?_, by omega, fun _ => by omega, fun h => absurd h (lt_irrefl 0)⟩
        rw [tmat_position_zero, Nat.cast_pred hij]
      | succ i =>
        cases j with
        | zero => omega
        | succ j =>
          obtain ⟨p, hp, hlt⟩ := hrange i j (by omega) (by omega)
          refine ⟨n + p, ?_, by omega, fun h => by omega, fun _ => by omega⟩
          rw [tmat_position_succ, hp]
          push_cast
          rfl
    refine ⟨fun i j hij hj => ?_, ?_, ?_⟩
    · obtain ⟨p, hp, hlt, -, -⟩ := hr i j hij hj
      exact ⟨p, hp, hlt⟩
    · intro i j k l hij hj hkl hl heq
      obtain ⟨p, hp, -, hp0, hpn⟩ := hr i j hij hj
      obtain ⟨q, hq, -, hq0, hqn⟩ := hr k l hkl hl
      have hpq : p = q := by
        have : (p : ℚ) = (q : ℚ) := by rw [← hp, ← hq, heq]
        exact_mod_cast this
      cases i with
      | zero =>
        cases k with
        | zero =>
          have := hp0 rfl
          have := hq0 rfl
          exact ⟨rfl, by omega⟩
        | succ k =>
          have := hp0 rfl
          have := hqn (Nat.succ_pos k)
          omega
      | succ i =>
        cases k with
        | zero =>
          have := hq0 rfl
          have := hpn (Nat.succ_pos i)
          omega
        | succ k =>
          cases j with
          | zero => omega
          | succ j =>
            cases l with
            | zero => omega
            | succ l =>
              rw [tmat_position_succ, tmat_position_succ] at heq
              obtain ⟨h1, h2⟩ := hinj i j k l (by omega) (by omega) (by omega) (by omega)
                (add_left_cancel heq)
              exact ⟨by rw [h1], by rw [h2]⟩
    · intro p hp
      rw [triangle_succ] at hp
      by_cases hpn : p < n
      · refine ⟨0, p + 1, by omega, by omega, ?_⟩
        rw [tmat_position_zero]
        push_cast
        ring
      · obtain ⟨i, j, hij, hj, hv⟩ := hsurj (p - n) (by omega)
        refine ⟨i + 1, j + 1, by omega, by omega, ?_⟩
        rw [tmat_position_succ, hv, Nat.cast_sub (not_lt.mp hpn)]
        ring

theorem length_resize {α : Type} (v : List α) (n : Nat) (d : α) : (resize v n d).length = n := by
  unfold resize
  simp only [List.length_append, List.length_take, List.length_replicate]
  omega

theorem tmat_alloc_size (nrows : Nat) (h : nrows * (nrows - 1) < 2 ^ 64) :
    mul64 nrows (sub64 nrows 1) / 2 = nrows * (nrows - 1) / 2 := by
  cases nrows with
  | zero => simp [mul64]
  | succ m =>
    have hm : m + 1 < 2 ^ 64 := by
      by_contra hc
      rw [Nat.add_sub_cancel] at h
      cases m with
      | zero => omega
      | succ k =>
        have : (k + 1 + 1) * (k + 1) ≥ (k + 1 + 1) * 1 := Nat.mul_le_mul_left _ (by omega)
        omega
    rw [sub64_one (m + 1) (Nat.succ_pos m) hm]
    unfold mul64
    rw [Nat.mod_eq_of_lt h]

/-- C19: for every `n` the documented position `p(i,j) = i*(n - (i+1)/2) + j - i - 1` of
a pair `0 <= i < j < n`, evaluated in exact arithmetic, is a natural number below
`n(n-1)/2`, distinct pairs have distinct positions, and every number below `n(n-1)/2` is
the position of a pair; and the separation matrix that `fit_itree` allocates for a worker
that has none has `nrows*(nrows-1)/2` entries, provided `nrows*(nrows-1)` does not wrap in
`size_t`. -/
theorem tmat_position_is_bijection_onto_allocation :
    (∀ n : Nat,
      (∀ i j, i < j → j < n →
        ∃ p : Nat, tmat_position n i j = (p : ℚ) ∧ p < n * (n - 1) / 2) ∧
      (∀ i j k l, i < j → j < n → k < l → l < n →
        tmat_position n i j = tmat_position n k l → i = k ∧ j = l) ∧
      (∀ p : Nat, p < n * (n - 1) / 2 →
        ∃ i j, i < j ∧ j < n ∧ tmat_position n i j = (p : ℚ))) ∧
    (∀ (ws : WorkerMemory) (input_data : InputData) (model_params : ModelParams),
      model_params.calc_dist = true → ws.tmat_sep = [] →
      input_data.nrows * (input_data.nrows - 1) < 2 ^ 64 →
      (fit_itree_tmat ws input_data model_params).tmat_sep.length =
        input_data.nrows * (input_data.nrows - 1) / 2) := by
  refine ⟨tmat_position_enumerates, fun ws input_data model_params hdist hempty hwrap => ?_⟩
  unfold fit_itree_tmat
  rw [hdist, hempty]
  simp only [List.isEmpty_nil, Bool.and_self, if_true]
  rw [length_resize, tmat_alloc_size _ hwrap]

theorem tmat_position_is_bijection_onto_allocation_witness :
    (∃ p : Nat, tmat_position 4 1 3 = (p : ℚ) ∧ p < 6) ∧
      (∃ i j, i < j ∧ j < 4 ∧ tmat_position 4 i j = ((5 : Nat) : ℚ)) ∧
      (fit_itree_tmat {} (add_tree_input_data (test_add_args (.single test_forest) none))
        { add_tree_model_params (test_add_args (.single test_forest) none) with
          calc_dist := true }).tmat_sep.length = 6 :=
  ⟨(tmat_position_is_bijection_onto_allocation.1 4).1 1 3 (by decide) (by decide),
    (tmat_position_is_bijection_onto_allocation.1 4).2.2 5 (by decide),
    tmat_position_is_bijection_onto_allocation.2 {}
      (add_tree_input_data (test_add_args (.single test_forest) none))
      { add_tree_model_params (test_add_args (.single test_forest) none) with
        calc_dist := true } rfl rfl (by decide)⟩

/-! ### The averaged row depths -/

theorem update_rows_spec (n : Nat) (f : Nat → ℚ → ℚ) (v : List ℚ) :
    (update_rows n f v).length = v.length ∧
      ∀ r, (update_rows n f v).getD r 0 =
        if r < n ∧ r < v.length then f r (v.getD r 0) else v.getD r 0 := by
  unfold update_rows
  exact foldl_range_induct (fun (u : List ℚ) row => u.set row (f row (u.getD row 0))) v
    (fun k u => u.length = v.length ∧
      ∀ r, u.getD r 0 = if r < k ∧ r < v.length then f r (v.getD r 0) else v.getD r 0)
    n ⟨rfl, fun r => by rw [if_neg (fun h => Nat.not_lt_zero r h.1)]⟩
    (fun k u _ hu => by
      obtain ⟨hlen, hget⟩ := hu
      refine ⟨by rw [List.length_set]; exact hlen, fun r => ?_⟩
      rw [getD_set_eq, hlen]
      by_cases hkr : k = r
      · subst hkr
        by_cases hkl : k < v.length
        · rw [if_pos ⟨rfl, hkl⟩, if_pos ⟨Nat.lt_succ_self k, hkl⟩, hget k,
            if_neg (fun h => lt_irrefl k h.1)]
        · rw [if_neg (fun h => hkl h.2), if_neg (fun h => hkl h.2), hget k,
            if_neg (fun h => hkl h.2)]
      · rw [if_neg (fun h => hkr h.1), hget r]
        by_cases hr : r < k ∧ r < v.length
        · rw [if_pos hr, if_pos ⟨by omega, hr.2⟩]
        · rw [if_neg hr, if_neg (fun h => hr ⟨by omega, h.2⟩)])

theorem std_copy_spec (src dst : List ℚ) :
    (std_copy src dst).length = dst.length ∧
      ∀ r, r < dst.length → (std_copy src dst).getD r 0 =
        if r < src.length then src.getD r 0 else dst.getD r 0 := by
  unfold std_copy
  refine ⟨by simp, fun r hr => ?_⟩
  rw [List.getD_eq_getElem?_getD, List.getElem?_map,
    List.getElem?_eq_getElem (by simpa using hr)]
  simp

theorem getD_replicate_zero (n r : Nat) : (List.replicate n (0 : ℚ)).getD r 0 = 0 := by
  rw [List.getD_eq_getElem?_getD, List.getElem?_replicate]
  split <;> rfl

theorem getD_nil_zero (r : Nat) : ([] : List ℚ).getD r 0 = 0 := rfl

/-- The multi-worker reduction of lines 574-585 adds, to every row below `n` of an array
of `n` entries, the row depth of every worker (a worker without row depths adding nothing). -/
theorem reduce_workers_spec (n : Nat) (workers : List WorkerMemory) :
    ∀ od : List ℚ, od.length = n →
      (workers.foldl
        (fun od w =>
          if !w.row_depths.isEmpty then
            update_rows n (fun row x => x + w.row_depths.getD row 0) od
          else od) od).length = n ∧
      ∀ r, r < n →
        (workers.foldl
          (fun od w =>
            if !w.row_depths.isEmpty then
              update_rows n (fun row x => x + w.row_depths.getD row 0) od
            else od) od).getD r 0 =
          od.getD r 0 + (workers.map (fun w => w.row_depths.getD r 0)).sum := by
  induction workers with
  | nil => intro od hod; exact ⟨hod, fun r _ => by simp⟩
  | cons w rest ih =>
    intro od hod
    simp only [List.foldl_cons, List.map_cons, List.sum_cons]
    by_cases hw : w.row_depths.isEmpty = true
    · have hnil : w.row_depths = [] := List.isEmpty_iff.mp hw
      simp only [hw, Bool.not_true, Bool.false_eq_true, if_false]
      obtain ⟨hl, hg⟩ := ih od hod
      refine ⟨hl, fun r hr => ?_⟩
      rw [hg r hr, hnil, getD_nil_zero, zero_add]
    · simp only [hw, Bool.not_false, if_true]
      obtain ⟨ul, ug⟩ := update_rows_spec n (fun row x => x + w.row_depths.getD row 0) od
      obtain ⟨hl, hg⟩ := ih _ (ul.trans hod)
      refine ⟨hl, fun r hr => ?_⟩
      rw [hg r hr, ug r, if_pos ⟨hr, by rw [hod]; exact hr⟩, add_assoc]

theorem grow_catch_worker_memory (s : GrowState) (w : Nat) :
    (grow_catch s w).worker_memory = s.worker_memory := by
  unfold grow_catch
  split
  · rfl
  · simp only
    split_ifs <;> rfl

theorem grow_iteration_workers_length (env : Env) (run : Run) (a : FitArgs)
    (input_data : InputData) (model_params : ModelParams) (s : GrowState) (tree : Nat) :
    (grow_iteration env run a input_data model_params s tree).worker_memory.length =
      s.worker_memory.length := by
  have h0 : ((run.completes tree ++ [worker_of run a tree]).foldl grow_catch s).worker_memory
      = s.worker_memory :=
    foldl_preserves (fun x : GrowState => x.worker_memory = s.worker_memory) _ _ _ rfl
      (fun x w _ hx => by simp only [grow_catch_worker_memory]; exact hx)
  have hsetup : ∀ x : GrowState, ∀ w,
      (grow_impute_setup run a input_data model_params x w).worker_memory.length =
        x.worker_memory.length := by
    intro x w
    unfold grow_impute_setup
    simp only
    split_ifs <;> simp
  unfold grow_iteration
  simp only
  split
  · simp only [h0]
  · simp only [List.length_set, hsetup, h0]

theorem fit_grown_workers_length (env : Env) (run : Run) (a : FitArgs) :
    (fit_grown env run a).worker_memory.length = n_workers run a := by
  unfold fit_grown grow_trees
  simp only
  have h1 : ((List.range a.ntrees).foldl
      (grow_iteration env run a (fit_missing env a).1 (fit_model_params env a))
      (fit_loop_init env run a)).worker_memory.length = n_workers run a :=
    foldl_preserves (fun x : GrowState => x.worker_memory.length = n_workers run a) _ _ _
      (by simp [fit_loop_init])
      (fun x t _ hx => by simp only [grow_iteration_workers_length]; exact hx)
  exact foldl_preserves (fun x : GrowState => x.worker_memory.length = n_workers run a)
    _ _ _ h1 (fun x w _ hx => by simp only [grow_catch_worker_memory]; exact hx)

theorem fit_finish_depths (env : Env) (run : Run) (a : FitArgs) (input_data : InputData)
    (model_params : ModelParams) (s : GrowState) (hth : s.threw_exception = false)
    (hchk : ∀ k, k < 4 → interrupt_check run k = none) :
    (fit_finish env run a input_data model_params s).output_depths =
        a.output_depths.map (fit_reduce_depths env run a input_data s.model s.worker_memory) ∧
      (fit_finish env run a input_data model_params s).worker_memory = s.worker_memory := by
  unfold fit_finish
  simp only [hchk 0 (by decide), hchk 1 (by decide), hchk 2 (by decide), hchk 3 (by decide), hth,
    Bool.false_eq_true, if_false]
  repeat' split
  all_goals exact ⟨rfl, rfl⟩

theorem sum_map_of_length_le_one (workers : List WorkerMemory) (r : Nat)
    (h : workers.length ≤ 1) :
    (workers.map (fun w => w.row_depths.getD r 0)).sum =
      (workers.getD 0 {}).row_depths.getD r 0 := by
  match workers, h with
  | [], _ => rfl
  | [w], _ => simp
  | _ :: _ :: _, h => simp at h

theorem n_workers_single (run : Run) (a : FitArgs) (hthreads : 0 ≤ clamp_nthreads a)
    (hsingle : ¬(run.openmp = true ∧ clamp_nthreads a > 1)) : n_workers run a ≤ 1 := by
  unfold n_workers
  cases ho : run.openmp with
  | false => simp
  | true =>
    have hc : clamp_nthreads a = 0 ∨ clamp_nthreads a = 1 := by
      have : ¬ clamp_nthreads a > 1 := fun h => hsingle ⟨ho, h⟩
      omega
    rcases hc with hc | hc <;> simp [hc, size_of_int]

/-- Lines 571-606 with `standardize_depth = false`, on an array of `nrows` zeros: every
row ends as the sum of the row depths of the workers divided by `ntrees`. -/
theorem fit_reduce_depths_average (env : Env) (run : Run) (a : FitArgs)
    (input_data : InputData) (model : Model) (workers : List WorkerMemory)
    (hstd : a.standardize_depth = false) (hn : input_data.nrows = a.nrows)
    (hw : ¬(run.openmp = true ∧ clamp_nthreads a > 1) → workers.length ≤ 1) :
    (fit_reduce_depths env run a input_data model workers (List.replicate a.nrows 0)).length
        = a.nrows ∧
      ∀ r, r < a.nrows →
        (fit_reduce_depths env run a input_data model workers
            (List.replicate a.nrows 0)).getD r 0 =
          (workers.map (fun w => w.row_depths.getD r 0)).sum / (a.ntrees : ℚ) := by
  unfold fit_reduce_depths
  simp only [hstd, Bool.false_eq_true, if_false]
  by_cases hmulti : run.openmp = true ∧ clamp_nthreads a > 1
  · have hc : (run.openmp && decide (clamp_nthreads a > 1)) = true := by
      simp [hmulti.1, hmulti.2]
    simp only [hc, if_true]
    obtain ⟨hl, hg⟩ := reduce_workers_spec input_data.nrows workers
      (List.replicate a.nrows 0) (by rw [List.length_replicate, hn])
    rw [hn] at hl hg
    obtain ⟨ul, ug⟩ := update_rows_spec a.nrows (fun _ x => x / (a.ntrees : ℚ))
      (workers.foldl
        (fun od w =>
          if !w.row_depths.isEmpty then
            update_rows a.nrows (fun row x => x + w.row_depths.getD row 0) od
          else od) (List.replicate a.nrows 0))
    rw [hn]
    refine ⟨ul.trans hl, fun r hr => ?_⟩
    rw [ug r, if_pos ⟨hr, by rw [hl]; exact hr⟩, hg r hr, getD_replicate_zero, zero_add]
  · have hc : (run.openmp && decide (clamp_nthreads a > 1)) = false := by
      cases ho : run.openmp with
      | false => rfl
      | true =>
        have : ¬ clamp_nthreads a > 1 := fun h => hmulti ⟨ho, h⟩
        simp [this]
    simp only [hc, Bool.false_eq_true, if_false]
    obtain ⟨cl, cg⟩ := std_copy_spec (workers.getD 0 {}).row_depths (List.replicate a.nrows 0)
    rw [List.length_replicate] at cl cg
    obtain ⟨ul, ug⟩ := update_rows_spec a.nrows (fun _ x => x / (a.ntrees : ℚ))
      (std_copy (workers.getD 0 {}).row_depths (List.replicate a.nrows 0))
    refine ⟨ul.trans cl, fun r hr => ?_⟩
    rw [ug r, if_pos ⟨hr, by rw [cl]; exact hr⟩, cg r hr,
      sum_map_of_length_le_one workers r (hw hmulti)]
    by_cases hlen : r < (workers.getD 0 {}).row_depths.length
    · rw [if_pos hlen]
    · rw [if_neg hlen, getD_replicate_zero, List.getD_eq_default _ _ (not_lt.mp hlen)]

/-- C20: with `output_depths` supplied as `nrows` zeros and `standardize_depth = false`,
after a `fit_iforest` call that returns `EXIT_SUCCESS` (the thread count not negative after
the clamp of line 467, `check_for_missing` leaving the row count), `output_depths[r]` is
the sum over all worker memories of `row_depths[r]` divided by `ntrees`, for every
`r < nrows`; when the depths are not reduced by the multi-worker loop there is at most one
worker memory and the value is the row depth of worker `0` divided by `ntrees`. -/
theorem output_depths_average_worker_sums (env : Env) (run : Run) (a : FitArgs)
    (hout : (fit_iforest env run a).outcome = Outcome.returned EXIT_SUCCESS)
    (hzero : a.output_depths = some (List.replicate a.nrows 0))
    (hstd : a.standardize_depth = false)
    (hrows : (env.check_for_missing (fit_input_data env a) a.nthreads).1.nrows
      = (fit_input_data env a).nrows)
    (hthreads : 0 ≤ clamp_nthreads a) :
    (fit_iforest env run a).worker_memory.length = n_workers run a ∧
      ∃ od : List ℚ, (fit_iforest env run a).output_depths = some od ∧ od.length = a.nrows ∧
        ∀ r, r < a.nrows →
          od.getD r 0 =
              ((fit_iforest env run a).worker_memory.map
                (fun w => w.row_depths.getD r 0)).sum / (a.ntrees : ℚ) ∧
            (¬(run.openmp = true ∧ clamp_nthreads a > 1) →
              (fit_iforest env run a).worker_memory.length ≤ 1 ∧
              od.getD r 0 =
                ((fit_iforest env run a).worker_memory.getD 0 {}).row_depths.getD r 0
                  / (a.ntrees : ℚ)) := by
  obtain ⟨h1, h2, hth, hchk⟩ := fit_iforest_success env run a hout
  obtain ⟨hfin, -, -, -⟩ := fit_iforest_accepted env run a h1 h2
  obtain ⟨hod, hwm⟩ := fit_finish_depths env run a (fit_missing env a).1
    (fit_model_params env a) (fit_grown env run a) hth
    (fun k hk => interrupt_check_none run k (hchk k hk))
  have hlen := fit_grown_workers_length env run a
  have hsingle : ¬(run.openmp = true ∧ clamp_nthreads a > 1) →
      (fit_grown env run a).worker_memory.length ≤ 1 := fun h => by
    rw [hlen]
    exact n_workers_single run a hthreads h
  obtain ⟨rl, rg⟩ := fit_reduce_depths_average env run a (fit_missing env a).1
    (fit_grown env run a).model (fit_grown env run a).worker_memory hstd
    (fit_missing_nrows env a hrows) hsingle
  rw [hfin, hod, hwm, hzero]
  refine ⟨hlen, _, rfl, rl, fun r hr => ⟨rg r hr, fun h => ⟨hsingle h, ?_⟩⟩⟩
  rw [rg r hr, sum_map_of_length_le_one _ r (hsingle h)]

set_option maxRecDepth 100000 in
theorem output_depths_average_worker_sums_witness :
    (fit_iforest depths_env (test_run (fun _ => false)) (depths_fit_args 3 2)).worker_memory.length
        = 2 ∧
      ∃ od : List ℚ,
        (fit_iforest depths_env (test_run (fun _ => false)) (depths_fit_args 3 2)).output_depths
          = some od ∧ od.length = 4 ∧ od.getD 2 0 = 3 := by
  obtain ⟨hl, od, hod, hlen, hg⟩ := output_depths_average_worker_sums depths_env
    (test_run (fun _ => false)) (depths_fit_args 3 2) (by decide!) rfl rfl rfl (by decide)
  exact ⟨hl.trans (by decide), od, hod, hlen, (hg 2 (by decide)).1.trans (by decide!)⟩

/-! ### The standardised row depths -/

theorem rational_exp2_pos (x : ℚ) : 0 < rational_exp2 x := by
  unfold rational_exp2
  split
  · apply div_pos one_pos
    linarith
  · linarith

theorem rational_exp2_zero : rational_exp2 0 = 1 := by
  unfold rational_exp2
  norm_num

theorem rational_exp2_mono (x y : ℚ) (h : x ≤ y) : rational_exp2 x ≤ rational_exp2 y := by
  unfold rational_exp2
  by_cases hx : x ≤ 0
  · rw [if_pos hx]
    by_cases hy : y ≤ 0
    · rw [if_pos hy]
      exact one_div_le_one_div_of_le (by linarith) (by linarith)
    · rw [if_neg hy]
      have h1 : 1 / (1 - x) ≤ 1 := by
        rw [div_le_one (by linarith)]
        linarith
      linarith
  · rw [if_neg hx, if_neg (by linarith)]
    linarith

/-- Lines 571-598 with `standardize_depth = true`, on an array of `nrows` zeros: every
row ends as `exp2` of minus the sum of the row depths of the workers over the divisor
`ntrees * exp_avg_depth`. -/
theorem fit_reduce_depths_standardized (env : Env) (run : Run) (a : FitArgs)
    (input_data : InputData) (model : Model) (workers : List WorkerMemory)
    (hstd : a.standardize_depth = true) (hn : input_data.nrows = a.nrows)
    (hw : ¬(run.openmp = true ∧ clamp_nthreads a > 1) → workers.length ≤ 1) :
    (fit_reduce_depths env run a input_data model workers (List.replicate a.nrows 0)).length
        = a.nrows ∧
      ∀ r, r < a.nrows →
        (fit_reduce_depths env run a input_data model workers
            (List.replicate a.nrows 0)).getD r 0 =
          env.exp2 (-(workers.map (fun w => w.row_depths.getD r 0)).sum /
            ((a.ntrees : ℚ) * model.exp_avg_depth)) := by
  unfold fit_reduce_depths
  simp only [hstd, if_true]
  by_cases hmulti : run.openmp = true ∧ clamp_nthreads a > 1
  · have hc : (run.openmp && decide (clamp_nthreads a > 1)) = true := by
      simp [hmulti.1, hmulti.2]
    simp only [hc, if_true]
    obtain ⟨hl, hg⟩ := reduce_workers_spec input_data.nrows workers
      (List.replicate a.nrows 0) (by rw [List.length_replicate, hn])
    rw [hn] at hl hg
    obtain ⟨ul, ug⟩ := update_rows_spec a.nrows
      (fun _ x => env.exp2 (-x / ((a.ntrees : ℚ) * model.exp_avg_depth)))
      (workers.foldl
        (fun od w =>
          if !w.row_depths.isEmpty then
            update_rows a.nrows (fun row x => x + w.row_depths.getD row 0) od
          else od) (List.replicate a.nrows 0))
    rw [hn]
    refine ⟨ul.trans hl, fun r hr => ?_⟩
    rw [ug r, if_pos ⟨hr, by rw [hl]; exact hr⟩, hg r hr, getD_replicate_zero, zero_add]
  · have hc : (run.openmp && decide (clamp_nthreads a > 1)) = false := by
      cases ho : run.openmp with
      | false => rfl
      | true =>
        have : ¬ clamp_nthreads a > 1 := fun h => hmulti ⟨ho, h⟩
        simp [this]
    simp only [hc, Bool.false_eq_true, if_false]
    obtain ⟨cl, cg⟩ := std_copy_spec (workers.getD 0 {}).row_depths (List.replicate a.nrows 0)
    rw [List.length_replicate] at cl cg
    obtain ⟨ul, ug⟩ := update_rows_spec a.nrows
      (fun _ x => env.exp2 (-x / ((a.ntrees : ℚ) * model.exp_avg_depth)))
      (std_copy (workers.getD 0 {}).row_depths (List.replicate a.nrows 0))
    refine ⟨ul.trans cl, fun r hr => ?_⟩
    rw [ug r, if_pos ⟨hr, by rw [cl]; exact hr⟩, cg r hr,
      sum_map_of_length_le_one workers r (hw hmulti)]
    by_cases hlen : r < (workers.getD 0 {}).row_depths.length
    · rw [if_pos hlen]
    · rw [if_neg hlen, getD_replicate_zero, List.getD_eq_default _ _ (not_lt.mp hlen)]

/-- C21: with `output_depths` supplied as `nrows` zeros and `standardize_depth = true`,
after a `fit_iforest` call that returns `EXIT_SUCCESS` (the thread count not negative after
the clamp of line 467, `check_for_missing` leaving the row count), `output_depths[r]` is
`exp2(-D_r / (ntrees * exp_avg_depth))`, where `D_r` is the sum over all worker memories of
`row_depths[r]` and `exp_avg_depth` is that of the forest; hence, `exp2` being positive and
increasing with `exp2(0) = 1`, for `ntrees > 0` and `exp_avg_depth > 0` every entry with
`D_r >= 0` lies in `(0, 1]`, and of two such rows the one with the smaller `D_r` has the
score closer to `1`. -/
theorem standardized_depths_are_exp2_scores (env : Env) (run : Run) (a : FitArgs)
    (hout : (fit_iforest env run a).outcome = Outcome.returned EXIT_SUCCESS)
    (hzero : a.output_depths = some (List.replicate a.nrows 0))
    (hstd : a.standardize_depth = true)
    (hrows : (env.check_for_missing (fit_input_data env a) a.nthreads).1.nrows
      = (fit_input_data env a).nrows)
    (hthreads : 0 ≤ clamp_nthreads a) :
    ∃ od : List ℚ, (fit_iforest env run a).output_depths = some od ∧ od.length = a.nrows ∧
      (∀ r, r < a.nrows →
        od.getD r 0 =
          env.exp2 (-((fit_iforest env run a).worker_memory.map
              (fun w => w.row_depths.getD r 0)).sum /
            ((a.ntrees : ℚ) * (fit_iforest env run a).model.exp_avg_depth))) ∧
      ((∀ x y, x ≤ y → env.exp2 x ≤ env.exp2 y) → (∀ x, 0 < env.exp2 x) → env.exp2 0 = 1 →
        0 < a.ntrees → 0 < (fit_iforest env run a).model.exp_avg_depth →
        (∀ r, r < a.nrows →
          0 ≤ ((fit_iforest env run a).worker_memory.map
            (fun w => w.row_depths.getD r 0)).sum →
          0 < od.getD r 0 ∧ od.getD r 0 ≤ 1) ∧
        (∀ r q, r < a.nrows → q < a.nrows →
          ((fit_iforest env run a).worker_memory.map (fun w => w.row_depths.getD r 0)).sum ≤
            ((fit_iforest env run a).worker_memory.map (fun w => w.row_depths.getD q 0)).sum →
          od.getD q 0 ≤ od.getD r 0)) := by
  obtain ⟨h1, h2, hth, hchk⟩ := fit_iforest_success env run a hout
  obtain ⟨hfin, -, -, -⟩ := fit_iforest_accepted env run a h1 h2
  obtain ⟨hod, hwm⟩ := fit_finish_depths env run a (fit_missing env a).1
    (fit_model_params env a) (fit_grown env run a) hth
    (fun k hk => interrupt_check_none run k (hchk k hk))
  have hmodel := (fit_finish_trace_model env run a (fit_missing env a).1
    (fit_model_params env a) (fit_grown env run a)).2
  have hlen := fit_grown_workers_length env run a
  have hsingle : ¬(run.openmp = true ∧ clamp_nthreads a > 1) →
      (fit_grown env run a).worker_memory.length ≤ 1 := fun h => by
    rw [hlen]
    exact n_workers_single run a hthreads h
  obtain ⟨rl, rg⟩ := fit_reduce_depths_standardized env run a (fit_missing env a).1
    (fit_grown env run a).model (fit_grown env run a).worker_memory hstd
    (fit_missing_nrows env a hrows) hsingle
  rw [hfin, hod, hwm, hmodel, hzero]
  refine ⟨_, rfl, rl, rg, fun hmono hpos hone hnt hexp =>
    ⟨fun r hr hD => ?_, fun r q hr hq hle => ?_⟩⟩
  · rw [rg r hr]
    refine ⟨hpos _, ?_⟩
    rw [← hone]
    apply hmono
    have hdiv : 0 < (a.ntrees : ℚ) * (fit_grown env run a).model.exp_avg_depth :=
      mul_pos (by exact_mod_cast hnt) hexp
    exact div_nonpos_of_nonpos_of_nonneg (by linarith) hdiv.le
  · rw [rg r hr, rg q hq]
    apply hmono
    have hdiv : 0 < (a.ntrees : ℚ) * (fit_grown env run a).model.exp_avg_depth :=
      mul_pos (by exact_mod_cast hnt) hexp
    exact div_le_div_of_nonneg_right (by linarith) hdiv.le

set_option maxRecDepth 100000 in
theorem standardized_depths_are_exp2_scores_witness :
    ∃ od : List ℚ,
      (fit_iforest scores_env (test_run (fun _ => false)) (scores_fit_args 3 2)).output_depths
        = some od ∧ od.length = 4 ∧ od.getD 0 0 = 4 / 5 ∧
      0 < od.getD 3 0 ∧ od.getD 3 0 ≤ od.getD 0 0 ∧ od.getD 0 0 ≤ 1 := by
  obtain ⟨od, hod, hlen, hg, hrange⟩ := standardized_depths_are_exp2_scores scores_env
    (test_run (fun _ => false)) (scores_fit_args 3 2) (by decide!) rfl rfl rfl (by decide)
  obtain ⟨hin, hord⟩ := hrange rational_exp2_mono rational_exp2_pos rational_exp2_zero
    (by decide) (by decide!)
  exact ⟨od, hod, hlen, (hg 0 (by decide)).trans (by decide!),
    (hin 3 (by decide) (by decide!)).1, hord 0 3 (by decide) (by decide) (by decide!),
    (hin 0 (by decide) (by decide!)).2⟩

/-! ### The scratch buffers of the worker -/

theorem BuffersGrown.of_buffers_eq (w1 w2 : WorkerMemory) (h : w2.buffers = w1.buffers) :
    BuffersGrown w1 w2 := by
  unfold WorkerMemory.buffers at h
  simp only [Prod.mk.injEq] at h
  exact ⟨by rw [h.1], by rw [h.2.1], by rw [h.2.2]⟩

theorem BuffersGrown.trans (w1 w2 w3 : WorkerMemory) (h12 : BuffersGrown w1 w2)
    (h23 : BuffersGrown w2 w3) : BuffersGrown w1 w3 :=
  ⟨h12.1.trans h23.1, h12.2.1.trans h23.2.1, h12.2.2.trans h23.2.2⟩

theorem kurt_weights_all_frame (env : Env) (ws : WorkerMemory) (input_data : InputData)
    (model_params : ModelParams) :
    ∃ rng, (kurt_weights_all env ws input_data model_params).2 =
      { kurt_sorted ws input_data with rnd_generator := rng } := by
  unfold kurt_weights_all
  simp only
  exact foldl_preserves
    (fun acc : List ℚ × WorkerMemory =>
      ∃ rng, acc.2 = { kurt_sorted ws input_data with rnd_generator := rng }) _ _ _
    ⟨_, rfl⟩ (fun acc col _ hacc => by
      obtain ⟨rng, hr⟩ := hacc
      exact ⟨(kurtosis_categ env acc.2 input_data model_params col).2, by
        show ({ acc.2 with rnd_generator := _ } : WorkerMemory) = _
        rw [hr]⟩)

theorem kurt_weights_some_frame (env : Env) (ws : WorkerMemory) (input_data : InputData)
    (model_params : ModelParams) (cols_take : List Nat) (kw0 : List ℚ) :
    ∃ rng, (kurt_weights_some env ws input_data model_params cols_take kw0).2 =
      { ws with rnd_generator := rng } := by
  unfold kurt_weights_some
  exact foldl_preserves
    (fun acc : List ℚ × WorkerMemory => ∃ rng, acc.2 = { ws with rnd_generator := rng }) _ _ _
    ⟨_, rfl⟩ (fun acc col _ hacc => by
      obtain ⟨rng, hr⟩ := hacc
      by_cases hc : col < input_data.ncols_numeric
      · simp only [hc, if_true]
        exact ⟨rng, hr⟩
      · simp only [hc, if_false]
        exact ⟨_, by rw [hr]⟩)

/-- What the kurtosis block leaves of the worker memory when it does not raise: nothing
changes when columns are not weighted by kurtosis; otherwise only the row-index array
(sorted for sparse input), the random engine, and the column sampler, which is handed one
weight vector. -/
theorem fit_itree_kurtosis_frame (env : Env) (is_tree : Bool) (ws ws7 : WorkerMemory)
    (input_data : InputData) (model_params : ModelParams)
    (h : fit_itree_kurtosis env is_tree ws input_data model_params = .ok ws7) :
    ((model_params.weigh_by_kurt && !avoid_col_weights is_tree input_data model_params) = false ∧
        ws7 = ws) ∨
      ((model_params.weigh_by_kurt && !avoid_col_weights is_tree input_data model_params) = true ∧
        ∃ ix rng kw, ws7 =
          { ws with ix_arr := ix, rnd_generator := rng,
                    col_sampler := ws.col_sampler ++ [SamplerCall.init_weights kw kw.length] }) := by
  unfold fit_itree_kurtosis at h
  cases hc : (model_params.weigh_by_kurt && !avoid_col_weights is_tree input_data model_params)
  · rw [hc] at h
    simp only [Bool.false_eq_true, if_false, Except.ok.injEq] at h
    exact Or.inl ⟨rfl, h.symm⟩
  · rw [hc] at h
    simp only [if_true] at h
    refine Or.inr ⟨rfl, ?_⟩
    split at h
    · obtain ⟨rng, hr⟩ := kurt_weights_all_frame env ws input_data model_params
      simp only [Except.ok.injEq] at h
      rw [← h, hr]
      unfold kurt_sorted
      split
      · exact ⟨_, _, _, rfl⟩
      · exact ⟨_, _, _, rfl⟩
    · split at h
      · cases h
      · rename_i o ho
        simp only [Except.ok.injEq] at h
        obtain ⟨rng, hr⟩ := kurt_weights_some_frame env
          (if input_data.Xc_indptr.isSome then
            { ({ ws with rnd_generator := o.rnd_generator } : WorkerMemory) with
              ix_arr := ws.ix_arr.insertionSort (fun a b => a ≤ b) }
           else { ws with rnd_generator := o.rnd_generator })
          input_data model_params o.ix_arr o.btree_weights
        rw [← h, hr]
        split
        · exact ⟨_, _, _, rfl⟩
        · exact ⟨_, _, _, rfl⟩

/-- The three ways a `fit_itree` call proceeds: the row sampler raises; the column draw of
the kurtosis block raises; or the tree is grown by a split routine, from the worker memory
that the column-sampler block leaves. -/
theorem fit_itree_cases (env : Env) (slot : TreeSlot) (workspace : WorkerMemory)
    (input_data : InputData) (model_params : ModelParams)
    (impute_nodes : Option (List ImputeNode)) (tree_num : Nat) :
    (∃ e, fit_itree_sample env (fit_itree_begin workspace input_data model_params tree_num)
          input_data model_params = .error e ∧
        (fit_itree env slot workspace input_data model_params impute_nodes tree_num).workspace =
          fit_itree_begin workspace input_data model_params tree_num) ∨
      (∃ ws1 e, fit_itree_sample env (fit_itree_begin workspace input_data model_params tree_num)
          input_data model_params = .ok ws1 ∧
        fit_itree_kurtosis env slot.is_tree
          (fit_itree_upto_kurtosis env slot.is_tree ws1 input_data model_params)
          input_data model_params = .error e ∧
        (fit_itree env slot workspace input_data model_params impute_nodes tree_num).workspace =
          fit_itree_upto_kurtosis env slot.is_tree ws1 input_data model_params) ∨
      (∃ ws1 ws7, fit_itree_sample env (fit_itree_begin workspace input_data model_params tree_num)
          input_data model_params = .ok ws1 ∧
        fit_itree_kurtosis env slot.is_tree
          (fit_itree_upto_kurtosis env slot.is_tree ws1 input_data model_params)
          input_data model_params = .ok ws7 ∧
        fit_itree env slot workspace input_data model_params impute_nodes tree_num =
          fit_itree_grow env (add_root slot)
            (fit_itree_col_sampler env slot.is_tree ws7 input_data model_params)
            input_data model_params (add_root_impute impute_nodes)
            (fit_itree_begin workspace input_data model_params tree_num).rnd_generator) := by
  cases hs : fit_itree_sample env (fit_itree_begin workspace input_data model_params tree_num)
      input_data model_params with
  | error e =>
    refine Or.inl ⟨e, rfl, ?_⟩
    unfold fit_itree
    simp only [hs]
  | ok ws1 =>
    cases hk : fit_itree_kurtosis env slot.is_tree
        (fit_itree_upto_kurtosis env slot.is_tree ws1 input_data model_params)
        input_data model_params with
    | error e =>
      refine Or.inr (Or.inl ⟨ws1, e, rfl, hk, ?_⟩)
      unfold fit_itree
      simp only [hs]
      unfold fit_itree_upto_kurtosis at hk
      simp only [hk]
      rfl
    | ok ws7 =>
      exact Or.inr (Or.inr ⟨ws1, ws7, rfl, hk,
        fit_itree_of_kurtosis_ok env slot workspace input_data model_params impute_nodes
          tree_num ws1 ws7 hs hk⟩)

theorem fit_itree_begin_buffers (workspace : WorkerMemory) (input_data : InputData)
    (model_params : ModelParams) (tree_num : Nat) :
    (fit_itree_begin workspace input_data model_params tree_num).buffers = workspace.buffers := by
  unfold fit_itree_begin WorkerMemory.buffers
  simp only [apply_ite WorkerMemory.buffer_dbl, apply_ite WorkerMemory.buffer_szt,
    apply_ite WorkerMemory.buffer_chr, ite_self]

theorem fit_itree_sample_buffers (env : Env) (ws ws1 : WorkerMemory) (input_data : InputData)
    (model_params : ModelParams)
    (h : fit_itree_sample env ws input_data model_params = .ok ws1) :
    ws1.buffers = ws.buffers := by
  unfold fit_itree_sample at h
  split at h
  · cases h
  · cases h
    simp only [WorkerMemory.buffers]

theorem fit_itree_col_weights_buffers (is_tree : Bool) (ws : WorkerMemory)
    (input_data : InputData) (model_params : ModelParams) :
    (fit_itree_col_weights is_tree ws input_data model_params).buffers = ws.buffers := by
  unfold fit_itree_col_weights WorkerMemory.buffers
  cases input_data.col_weights <;>
    simp only [apply_ite WorkerMemory.buffer_dbl, apply_ite WorkerMemory.buffer_szt,
      apply_ite WorkerMemory.buffer_chr, ite_self]

theorem fit_itree_scratch_buffers (is_tree : Bool) (ws : WorkerMemory) (input_data : InputData)
    (model_params : ModelParams) :
    (fit_itree_scratch is_tree ws input_data model_params).buffers = ws.buffers := by
  unfold fit_itree_scratch WorkerMemory.buffers
  cases model_params.cat_split_type <;>
    simp only [apply_ite WorkerMemory.buffer_dbl, apply_ite WorkerMemory.buffer_szt,
      apply_ite WorkerMemory.buffer_chr, ite_self]

theorem fit_itree_density_weights_buffers (is_tree : Bool) (ws : WorkerMemory)
    (input_data : InputData) (model_params : ModelParams) :
    (fit_itree_density_weights is_tree ws input_data model_params).buffers = ws.buffers := by
  unfold fit_itree_density_weights WorkerMemory.buffers
  cases input_data.sample_weights <;>
    simp only [apply_ite WorkerMemory.buffer_dbl, apply_ite WorkerMemory.buffer_szt,
      apply_ite WorkerMemory.buffer_chr, ite_self]

theorem fit_itree_tmat_buffers (ws : WorkerMemory) (input_data : InputData)
    (model_params : ModelParams) :
    (fit_itree_tmat ws input_data model_params).buffers = ws.buffers := by
  unfold fit_itree_tmat WorkerMemory.buffers
  simp only [apply_ite WorkerMemory.buffer_dbl, apply_ite WorkerMemory.buffer_szt,
    apply_ite WorkerMemory.buffer_chr, ite_self]

theorem fit_itree_col_sampler_buffers (env : Env) (is_tree : Bool) (ws : WorkerMemory)
    (input_data : InputData) (model_params : ModelParams) :
    (fit_itree_col_sampler env is_tree ws input_data model_params).buffers = ws.buffers := by
  unfold fit_itree_col_sampler WorkerMemory.buffers
  simp only [apply_ite WorkerMemory.buffer_dbl, apply_ite WorkerMemory.buffer_szt,
    apply_ite WorkerMemory.buffer_chr, ite_self]

theorem fit_itree_kurtosis_buffers (env : Env) (is_tree : Bool) (ws ws7 : WorkerMemory)
    (input_data : InputData) (model_params : ModelParams)
    (h : fit_itree_kurtosis env is_tree ws input_data model_params = .ok ws7) :
    ws7.buffers = ws.buffers := by
  rcases fit_itree_kurtosis_frame env is_tree ws ws7 input_data model_params h with
    ⟨-, h7⟩ | ⟨-, ix, rng, kw, h7⟩
  · rw [h7]
  · rw [h7]
    simp only [WorkerMemory.buffers]

/-- Lines 1078-1164, the only block of `fit_itree` that resizes the scratch buffers: each
buffer is left as it was, or it was shorter than the minimum computed for the tree and is
resized to that minimum; in either case it is not shorter than before. -/
theorem fit_itree_buffers_resize (env : Env) (is_tree : Bool) (ws : WorkerMemory)
    (input_data : InputData) (model_params : ModelParams) :
    BuffersGrown ws (fit_itree_buffers env is_tree ws input_data model_params) ∧
      ((fit_itree_buffers env is_tree ws input_data model_params).buffer_dbl = ws.buffer_dbl ∨
        (ws.buffer_dbl.length < min_size_dbl env is_tree input_data model_params ∧
          (fit_itree_buffers env is_tree ws input_data model_params).buffer_dbl =
            resize ws.buffer_dbl (min_size_dbl env is_tree input_data model_params) 0)) ∧
      ((fit_itree_buffers env is_tree ws input_data model_params).buffer_szt = ws.buffer_szt ∨
        (ws.buffer_szt.length < min_size_szt is_tree ws input_data model_params ∧
          (fit_itree_buffers env is_tree ws input_data model_params).buffer_szt =
            resize ws.buffer_szt (min_size_szt is_tree ws input_data model_params) 0)) ∧
      ((fit_itree_buffers env is_tree ws input_data model_params).buffer_chr = ws.buffer_chr ∨
        (ws.buffer_chr.length < min_size_chr input_data model_params ∧
          (fit_itree_buffers env is_tree ws input_data model_params).buffer_chr =
            resize ws.buffer_chr (min_size_chr input_data model_params) 0)) := by
  have hd : (fit_itree_buffers env is_tree ws input_data model_params).buffer_dbl = ws.buffer_dbl ∨
      (ws.buffer_dbl.length < min_size_dbl env is_tree input_data model_params ∧
        (fit_itree_buffers env is_tree ws input_data model_params).buffer_dbl =
          resize ws.buffer_dbl (min_size_dbl env is_tree input_data model_params) 0) := by
    unfold fit_itree_buffers
    simp only [apply_ite WorkerMemory.buffer_dbl, ite_self]
    split
    · split
      · rename_i h
        exact Or.inr ⟨h, rfl⟩
      · exact Or.inl rfl
    · exact Or.inl rfl
  have hs : (fit_itree_buffers env is_tree ws input_data model_params).buffer_szt = ws.buffer_szt ∨
      (ws.buffer_szt.length < min_size_szt is_tree ws input_data model_params ∧
        (fit_itree_buffers env is_tree ws input_data model_params).buffer_szt =
          resize ws.buffer_szt (min_size_szt is_tree ws input_data model_params) 0) := by
    unfold fit_itree_buffers
    simp only [apply_ite WorkerMemory.buffer_szt, ite_self]
    split
    · split
      · rename_i h
        exact Or.inr ⟨h, rfl⟩
      · exact Or.inl rfl
    · exact Or.inl rfl
  have hc : (fit_itree_buffers env is_tree ws input_data model_params).buffer_chr = ws.buffer_chr ∨
      (ws.buffer_chr.length < min_size_chr input_data model_params ∧
        (fit_itree_buffers env is_tree ws input_data model_params).buffer_chr =
          resize ws.buffer_chr (min_size_chr input_data model_params) 0) := by
    unfold fit_itree_buffers
    simp only [apply_ite WorkerMemory.buffer_chr, ite_self]
    split
    · split
      · rename_i h
        exact Or.inr ⟨h, rfl⟩
      · exact Or.inl rfl
    · exact Or.inl rfl
  refine ⟨⟨?_, ?_, ?_⟩, hd, hs, hc⟩
  · rcases hd with h | ⟨hlt, h⟩
    · rw [h]
    · rw [h, length_resize]
      exact hlt.le
  · rcases hs with h | ⟨hlt, h⟩
    · rw [h]
    · rw [h, length_resize]
      exact hlt.le
  · rcases hc with h | ⟨hlt, h⟩
    · rw [h]
    · rw [h, length_resize]
      exact hlt.le

theorem fit_itree_upto_kurtosis_buffers (env : Env) (is_tree : Bool) (ws : WorkerMemory)
    (input_data : InputData) (model_params : ModelParams) :
    BuffersGrown ws (fit_itree_upto_kurtosis env is_tree ws input_data model_params) := by
  unfold fit_itree_upto_kurtosis
  refine BuffersGrown.trans _ _ _ (BuffersGrown.of_buffers_eq _ _ ?_)
    (fit_itree_buffers_resize env is_tree _ input_data model_params).1
  rw [fit_itree_tmat_buffers, fit_itree_density_weights_buffers, fit_itree_scratch_buffers,
    fit_itree_col_weights_buffers]

theorem fit_itree_grow_buffers (env : Env) (slot : TreeSlot) (ws : WorkerMemory)
    (input_data : InputData) (model_params : ModelParams)
    (impute_nodes : Option (List ImputeNode)) (seeded : RndGenerator)
    (hsplit : env.split_keeps_buffers) :
    BuffersGrown ws
      (fit_itree_grow env slot ws input_data model_params impute_nodes seeded).workspace := by
  unfold fit_itree_grow
  cases slot with
  | tree nodes =>
    simp only
    split <;> exact hsplit.1 nodes ws input_data model_params impute_nodes 0
  | hplane nodes =>
    simp only
    split <;> exact hsplit.2 nodes ws input_data model_params impute_nodes 0

/-- C22: in every `fit_itree` call, the split routines not shrinking the buffers they are
handed, `buffer_dbl`, `buffer_szt` and `buffer_chr` are at least as long after the call
as before it; and the block that makes space for them, the only one of `fit_itree` that
resizes them, leaves a buffer as it was unless it is shorter than the minimum computed for
the current tree, in which case it is resized to that minimum. -/
theorem scratch_buffers_never_shrink (env : Env) (slot : TreeSlot) (workspace : WorkerMemory)
    (input_data : InputData) (model_params : ModelParams)
    (impute_nodes : Option (List ImputeNode)) (tree_num : Nat)
    (hsplit : env.split_keeps_buffers) :
    BuffersGrown workspace
        (fit_itree env slot workspace input_data model_params impute_nodes tree_num).workspace ∧
      ∀ ws : WorkerMemory,
        ((fit_itree_buffers env slot.is_tree ws input_data model_params).buffer_dbl =
            ws.buffer_dbl ∨
          (ws.buffer_dbl.length < min_size_dbl env slot.is_tree input_data model_params ∧
            (fit_itree_buffers env slot.is_tree ws input_data model_params).buffer_dbl =
              resize ws.buffer_dbl (min_size_dbl env slot.is_tree input_data model_params) 0)) ∧
        ((fit_itree_buffers env slot.is_tree ws input_data model_params).buffer_szt =
            ws.buffer_szt ∨
          (ws.buffer_szt.length < min_size_szt slot.is_tree ws input_data model_params ∧
            (fit_itree_buffers env slot.is_tree ws input_data model_params).buffer_szt =
              resize ws.buffer_szt (min_size_szt slot.is_tree ws input_data model_params) 0)) ∧
        ((fit_itree_buffers env slot.is_tree ws input_data model_params).buffer_chr =
            ws.buffer_chr ∨
          (ws.buffer_chr.length < min_size_chr input_data model_params ∧
            (fit_itree_buffers env slot.is_tree ws input_data model_params).buffer_chr =
              resize ws.buffer_chr (min_size_chr input_data model_params) 0)) := by
  refine ⟨?_, fun ws => (fit_itree_buffers_resize env slot.is_tree ws input_data model_params).2⟩
  have h0 : BuffersGrown workspace (fit_itree_begin workspace input_data model_params tree_num) :=
    BuffersGrown.of_buffers_eq _ _ (fit_itree_begin_buffers _ _ _ _)
  rcases fit_itree_cases env slot workspace input_data model_params impute_nodes tree_num with
    ⟨e, -, hw⟩ | ⟨ws1, e, hs, -, hw⟩ | ⟨ws1, ws7, hs, hk, hw⟩
  · rw [hw]
    exact h0
  · rw [hw]
    exact BuffersGrown.trans _ _ _ h0 (BuffersGrown.trans _ _ _
      (BuffersGrown.of_buffers_eq _ _ (fit_itree_sample_buffers env _ ws1 _ _ hs))
      (fit_itree_upto_kurtosis_buffers env slot.is_tree ws1 input_data model_params))
  · rw [hw]
    refine BuffersGrown.trans _ _ _ h0 (BuffersGrown.trans _ _ _
      (BuffersGrown.of_buffers_eq _ _ (fit_itree_sample_buffers env _ ws1 _ _ hs))
      (BuffersGrown.trans _ _ _
        (fit_itree_upto_kurtosis_buffers env slot.is_tree ws1 input_data model_params)
        (BuffersGrown.trans _ _ _ (BuffersGrown.of_buffers_eq _ _ ?_)
          (fit_itree_grow_buffers env _ _ _ _ _ _ hsplit))))
    rw [fit_itree_col_sampler_buffers, fit_itree_kurtosis_buffers env _ _ ws7 _ _ hk]

theorem test_env_split_keeps_buffers (raise : Option Nat) :
    (test_env raise).split_keeps_buffers :=
  ⟨fun _ _ _ _ _ _ => ⟨le_rfl, le_rfl, le_rfl⟩, fun _ _ _ _ _ _ => ⟨le_rfl, le_rfl, le_rfl⟩⟩

set_option maxRecDepth 100000 in
theorem scratch_buffers_never_shrink_witness :
    (test_env none).split_keeps_buffers ∧
      BuffersGrown {}
        (fit_itree (test_env none) (.hplane []) {}
          (add_tree_input_data (test_add_args (.extended test_ext_forest) none))
          (add_tree_model_params (test_add_args (.extended test_ext_forest) none))
          none 0).workspace ∧
      (fit_itree (test_env none) (.hplane []) {}
          (add_tree_input_data (test_add_args (.extended test_ext_forest) none))
          (add_tree_model_params (test_add_args (.extended test_ext_forest) none))
          none 0).workspace.buffer_dbl.length = 4 :=
  ⟨test_env_split_keeps_buffers none,
    (scratch_buffers_never_shrink (test_env none) (.hplane []) {}
      (add_tree_input_data (test_add_args (.extended test_ext_forest) none))
      (add_tree_model_params (test_add_args (.extended test_ext_forest) none)) none 0
      (test_env_split_keeps_buffers none)).1, by decide!⟩

/-! ### The sum of two `double` values -/

/-- Correctness of the bit count: with enough fuel `2^k ≤ n < 2^(k+1)`. -/
theorem ilog2_fuel_spec : ∀ (fuel n : Nat), 0 < n → n ≤ fuel →
    2 ^ ilog2_fuel fuel n ≤ n ∧ n < 2 ^ (ilog2_fuel fuel n + 1) := by
  intro fuel
  induction fuel with
  | zero => intro n h0 h1; omega
  | succ k ih =>
    intro n h0 h1
    unfold ilog2_fuel
    by_cases h2 : n < 2
    · rw [if_pos h2]
      simp
      omega
    · rw [if_neg h2]
      have h3 : 0 < n / 2 := Nat.div_pos (by omega) (by omega)
      have h4 : n / 2 ≤ k := by omega
      obtain ⟨l, u⟩ := ih (n / 2) h3 h4
      constructor
      · rw [pow_succ]
        omega
      · rw [pow_succ] at u ⊢
        omega

theorem ilog2_spec (n : Nat) (h : 0 < n) : 2 ^ ilog2 n ≤ n ∧ n < 2 ^ (ilog2 n + 1) :=
  ilog2_fuel_spec n n h (le_refl n)

theorem pow2_eq_zpow (e : Int) : pow2 e = (2 : ℚ) ^ e := by
  unfold pow2
  split_ifs with h
  · obtain ⟨n, rfl⟩ := Int.eq_ofNat_of_zero_le h
    simp
  · have h1 : e < 0 := not_le.mp h
    obtain ⟨n, hn⟩ := Int.eq_ofNat_of_zero_le (by omega : 0 ≤ -e)
    have he : e = -(n : Int) := by omega
    rw [he]
    simp

theorem pow2_pos (e : Int) : 0 < pow2 e := by
  rw [pow2_eq_zpow]
  positivity

theorem pow2_add (a b : Int) : pow2 (a + b) = pow2 a * pow2 b := by
  rw [pow2_eq_zpow, pow2_eq_zpow, pow2_eq_zpow, zpow_add₀ (by norm_num)]

theorem pow2_le (a b : Int) (h : a ≤ b) : pow2 a ≤ pow2 b := by
  rw [pow2_eq_zpow, pow2_eq_zpow]
  exact zpow_le_zpow_right₀ (by norm_num) h

/-- The exponent found for a non-zero rational brackets it between two powers of two. -/
theorem binary_exponent_spec (q : ℚ) (hq : q ≠ 0) :
    pow2 (binary_exponent q) ≤ |q| ∧ |q| < pow2 (binary_exponent q + 1) := by
  have hn : 0 < q.num.natAbs := Int.natAbs_pos.mpr (Rat.num_ne_zero.mpr hq)
  have hd : 0 < q.den := q.den_pos
  obtain ⟨n1, n2⟩ := ilog2_spec _ hn
  obtain ⟨d1, d2⟩ := ilog2_spec _ hd
  have habs : |q| = (q.num.natAbs : ℚ) / (q.den : ℚ) := by
    conv_lhs => rw [← Rat.num_div_den q]
    rw [abs_div, Nat.abs_cast]
    congr 1
    rw [Nat.cast_natAbs]
    simp
  have hdq : (0 : ℚ) < q.den := by exact_mod_cast hd
  have n1q : (2 : ℚ) ^ ilog2 q.num.natAbs ≤ q.num.natAbs := by exact_mod_cast n1
  have n2q : (q.num.natAbs : ℚ) < 2 ^ (ilog2 q.num.natAbs + 1) := by exact_mod_cast n2
  have d1q : (2 : ℚ) ^ ilog2 q.den ≤ q.den := by exact_mod_cast d1
  have d2q : (q.den : ℚ) < 2 ^ (ilog2 q.den + 1) := by exact_mod_cast d2
  unfold binary_exponent
  simp only
  split_ifs with h
  · refine ⟨h, ?_⟩
    rw [habs, div_lt_iff₀ hdq, pow2_eq_zpow]
    have : (2 : ℚ) ^ ((ilog2 q.num.natAbs : Int) - (ilog2 q.den : Int) + 1) * 2 ^ ilog2 q.den
        = 2 ^ (ilog2 q.num.natAbs + 1) := by
      rw [← zpow_natCast (2 : ℚ) (ilog2 q.den), ← zpow_add₀ (by norm_num),
        ← zpow_natCast (2 : ℚ) (ilog2 q.num.natAbs + 1)]
      congr 1
      push_cast
      ring
    calc (q.num.natAbs : ℚ) < 2 ^ (ilog2 q.num.natAbs + 1) := n2q
      _ = (2 : ℚ) ^ ((ilog2 q.num.natAbs : Int) - (ilog2 q.den : Int) + 1) * 2 ^ ilog2 q.den :=
        this.symm
      _ ≤ _ := by
        apply mul_le_mul_of_nonneg_left d1q
        positivity
  · refine ⟨?_, ?_⟩
    · rw [habs, le_div_iff₀ hdq, pow2_eq_zpow]
      have : (2 : ℚ) ^ ((ilog2 q.num.natAbs : Int) - (ilog2 q.den : Int) - 1) *
          2 ^ (ilog2 q.den + 1) = 2 ^ ilog2 q.num.natAbs := by
        rw [← zpow_natCast (2 : ℚ) (ilog2 q.den + 1), ← zpow_add₀ (by norm_num),
          ← zpow_natCast (2 : ℚ) (ilog2 q.num.natAbs)]
        congr 1
        push_cast
        ring
      calc _ ≤ (2 : ℚ) ^ ((ilog2 q.num.natAbs : Int) - (ilog2 q.den : Int) - 1) *
            2 ^ (ilog2 q.den + 1) := by
            apply mul_le_mul_of_nonneg_left d2q.le
            positivity
        _ = 2 ^ ilog2 q.num.natAbs := this
        _ ≤ _ := n1q
    · rw [sub_add_cancel]
      exact not_le.mp h

theorem round_half_even_bounds (x : ℚ) :
    x.floor ≤ round_half_even x ∧ round_half_even x ≤ x.floor + 1 := by
  unfold round_half_even
  simp only
  split_ifs <;> constructor <;> omega

theorem rat_floor_eq (x : ℚ) : x.floor = ⌊x⌋ := rfl

theorem cast_two_pow (n : Nat) : (((2 : Int) ^ n : Int) : ℚ) = (2 : ℚ) ^ n := by
  rw [Int.cast_pow, Int.cast_ofNat]

theorem pow2_shift (e : Int) (n : Nat) (k : Int) (h : k + n = e) :
    (((2 : Int) ^ n : Int) : ℚ) * pow2 k = pow2 e := by
  rw [cast_two_pow, pow2_eq_zpow, pow2_eq_zpow, ← zpow_natCast (2 : ℚ) n,
    ← zpow_add₀ (by norm_num)]
  congr 1
  omega

/-- Rounding reaches an even integer `n` exactly from `n - 1/2` on. -/
theorem round_half_even_ge_even (x : ℚ) (n : Int) (hn : n % 2 = 0) :
    (n ≤ round_half_even x) ↔ (n : ℚ) - 1 / 2 ≤ x := by
  have hb := round_half_even_bounds x
  have hfl : (x.floor : ℚ) ≤ x := by rw [rat_floor_eq]; exact Int.floor_le x
  have hfu : x < (x.floor : ℚ) + 1 := by rw [rat_floor_eq]; exact Int.lt_floor_add_one x
  constructor
  · intro h
    by_cases hf : n ≤ x.floor
    · have : (n : ℚ) ≤ x.floor := by exact_mod_cast hf
      linarith
    · have hfe : x.floor = n - 1 := by omega
      by_contra hlt
      have hr : x - x.floor < 1 / 2 := by
        rw [hfe]
        push_cast
        linarith
      have : round_half_even x = x.floor := by
        unfold round_half_even
        simp only
        rw [if_pos hr]
      omega
  · intro h
    by_cases hf : n ≤ x.floor
    · omega
    · have h1 : x.floor < n := not_le.mp hf
      have h2 : n - 1 ≤ x.floor := by
        rw [rat_floor_eq]
        apply Int.le_floor.mpr
        push_cast
        linarith
      have hfe : x.floor = n - 1 := by omega
      have hr : ¬(x - x.floor < 1 / 2) := by
        rw [hfe]
        push_cast
        linarith
      have hodd : ¬(x.floor % 2 = 0) := by omega
      have : round_half_even x = x.floor + 1 := by
        unfold round_half_even
        simp only
        rw [if_neg hr]
        split_ifs <;> rfl
      omega

theorem round_half_even_ge_of_le (x : ℚ) (n : Int) (h : (n : ℚ) ≤ x) :
    n ≤ round_half_even x := by
  have hb := round_half_even_bounds x
  have : n ≤ x.floor := by
    rw [rat_floor_eq]
    exact Int.le_floor.mpr h
  omega

theorem round_half_even_le_of_lt (x : ℚ) (n : Int) (h : x < (n : ℚ)) :
    round_half_even x ≤ n := by
  have hb := round_half_even_bounds x
  have : x.floor < n := by
    rw [rat_floor_eq]
    exact Int.floor_lt.mpr h
  omega

/-- The machine sum of two numbers reaches `1` exactly when their exact sum reaches
`1 - 2^-54`, the midpoint between `1` and the `double` just below it. -/
theorem round_double_ge_one_iff (q : ℚ) : 1 ≤ round_double q ↔ 1 - 1 / 2 ^ 54 ≤ q := by
  unfold round_double
  by_cases h0 : q = 0
  · rw [if_pos h0, h0]
    norm_num
  rw [if_neg h0]
  simp only
  obtain ⟨hl, hu⟩ := binary_exponent_spec q h0
  have hup := pow2_pos (binary_exponent q - 52)
  rcases lt_or_gt_of_ne h0 with hneg | hpos
  · -- negative sums round to at most zero
    have h1 : q / pow2 (binary_exponent q - 52) < ((0 : Int) : ℚ) := by
      rw [Int.cast_zero]
      exact div_neg_of_neg_of_pos hneg hup
    have h2 := round_half_even_le_of_lt _ 0 h1
    have h3 : (round_half_even (q / pow2 (binary_exponent q - 52)) : ℚ) ≤ 0 := by
      exact_mod_cast h2
    have h4 : (round_half_even (q / pow2 (binary_exponent q - 52)) : ℚ) *
        pow2 (binary_exponent q - 52) ≤ 0 := mul_nonpos_of_nonpos_of_nonneg h3 hup.le
    constructor
    · intro h; linarith
    · intro h
      have : (0 : ℚ) < 1 - 1 / 2 ^ 54 := by norm_num
      linarith
  · rw [abs_of_pos hpos] at hl hu
    rcases lt_trichotomy (binary_exponent q) (-1) with he | he | he
    · -- below one half
      have hle : pow2 (binary_exponent q + 1) ≤ pow2 (-1) := pow2_le _ _ (by omega)
      have hhalf : pow2 (-1) = 1 / 2 := by rw [pow2_eq_zpow]; norm_num
      have hq : q < 1 / 2 := by linarith
      have h1 : q / pow2 (binary_exponent q - 52) < (((2 : Int) ^ 53 : Int) : ℚ) := by
        rw [div_lt_iff₀ hup]
        have : (((2 : Int) ^ 53 : Int) : ℚ) * pow2 (binary_exponent q - 52) =
            pow2 (binary_exponent q + 1) := by
          exact pow2_shift _ 53 _ (by omega)
        rw [this]
        exact hu
      have h2 := round_half_even_le_of_lt _ _ h1
      have h3 : (round_half_even (q / pow2 (binary_exponent q - 52)) : ℚ) ≤
          (((2 : Int) ^ 53 : Int) : ℚ) := by exact_mod_cast h2
      have h4 : (round_half_even (q / pow2 (binary_exponent q - 52)) : ℚ) *
          pow2 (binary_exponent q - 52) ≤ pow2 (binary_exponent q + 1) := by
        have : (((2 : Int) ^ 53 : Int) : ℚ) * pow2 (binary_exponent q - 52) =
            pow2 (binary_exponent q + 1) := by
          exact pow2_shift _ 53 _ (by omega)
        rw [← this]
        exact mul_le_mul_of_nonneg_right h3 hup.le
      constructor
      · intro h; linarith
      · intro h
        have : (1 : ℚ) / 2 < 1 - 1 / 2 ^ 54 := by norm_num
        linarith
    · -- between one half and one
      rw [he]
      have hu53 : pow2 (-1 - 52) = 1 / 2 ^ 53 := by rw [pow2_eq_zpow]; norm_num
      rw [hu53]
      have hiff := round_half_even_ge_even (q / (1 / 2 ^ 53)) ((2 : Int) ^ 53) (by norm_num)
      constructor
      · intro h
        have h1 : ((2 : Int) ^ 53 : Int) ≤ round_half_even (q / (1 / 2 ^ 53)) := by
          have : (((2 : Int) ^ 53 : Int) : ℚ) ≤ (round_half_even (q / (1 / 2 ^ 53)) : ℚ) := by
            rw [cast_two_pow]
            have h53 : (0 : ℚ) < 2 ^ 53 := by positivity
            calc (2 : ℚ) ^ 53 = 1 * 2 ^ 53 := by ring
              _ ≤ ((round_half_even (q / (1 / 2 ^ 53)) : ℚ) * (1 / 2 ^ 53)) * 2 ^ 53 :=
                mul_le_mul_of_nonneg_right h h53.le
              _ = _ := by field_simp
          exact_mod_cast this
        have h2 := hiff.mp h1
        rw [cast_two_pow, div_div_eq_mul_div, div_one] at h2
        have h53 : (0 : ℚ) < 2 ^ 53 := by positivity
        have : (1 - 1 / 2 ^ 54) * (2 : ℚ) ^ 53 ≤ q * 2 ^ 53 := by
          have : (1 - 1 / 2 ^ 54) * (2 : ℚ) ^ 53 = 2 ^ 53 - 1 / 2 := by norm_num
          rw [this]
          exact h2
        exact le_of_mul_le_mul_right this h53
      · intro h
        have h53 : (0 : ℚ) < 2 ^ 53 := by positivity
        have h2 : (((2 : Int) ^ 53 : Int) : ℚ) - 1 / 2 ≤ q / (1 / 2 ^ 53) := by
          rw [cast_two_pow, div_div_eq_mul_div, div_one]
          have : (1 - 1 / 2 ^ 54) * (2 : ℚ) ^ 53 = 2 ^ 53 - 1 / 2 := by norm_num
          rw [← this]
          exact mul_le_mul_of_nonneg_right h h53.le
        have h1 := hiff.mpr h2
        have h3 : (((2 : Int) ^ 53 : Int) : ℚ) ≤ (round_half_even (q / (1 / 2 ^ 53)) : ℚ) := by
          exact_mod_cast h1
        rw [cast_two_pow] at h3
        calc (1 : ℚ) = 2 ^ 53 * (1 / 2 ^ 53) := by field_simp
          _ ≤ _ := mul_le_mul_of_nonneg_right h3 (by positivity)
    · -- from one on
      have hle : pow2 0 ≤ pow2 (binary_exponent q) := pow2_le _ _ (by omega)
      have hone : pow2 0 = 1 := by rw [pow2_eq_zpow]; norm_num
      have hq : 1 ≤ q := by linarith
      have hmul : (((2 : Int) ^ 52 : Int) : ℚ) * pow2 (binary_exponent q - 52) =
          pow2 (binary_exponent q) := by
        exact pow2_shift _ 52 _ (by omega)
      have h1 : (((2 : Int) ^ 52 : Int) : ℚ) ≤ q / pow2 (binary_exponent q - 52) := by
        rw [le_div_iff₀ hup, hmul]
        exact hl
      have h2 := round_half_even_ge_of_le _ _ h1
      have h3 : (((2 : Int) ^ 52 : Int) : ℚ) ≤
          (round_half_even (q / pow2 (binary_exponent q - 52)) : ℚ) := by exact_mod_cast h2
      have h4 : pow2 (binary_exponent q) ≤
          (round_half_even (q / pow2 (binary_exponent q - 52)) : ℚ) *
            pow2 (binary_exponent q - 52) := by
        rw [← hmul]
        exact mul_le_mul_of_nonneg_right h3 hup.le
      constructor
      · intro _
        have : (1 : ℚ) - 1 / 2 ^ 54 ≤ 1 := by norm_num
        linarith
      · intro _
        linarith

theorem double_add_ge_one_iff (x y : ℚ) : double_add x y ≥ 1 ↔ x + y ≥ 1 - 1 / 2 ^ 54 :=
  round_double_ge_one_iff (x + y)

/-! ### When column weights are avoided -/

theorem fit_itree_begin_col_sampler (workspace : WorkerMemory) (input_data : InputData)
    (model_params : ModelParams) (tree_num : Nat) :
    (fit_itree_begin workspace input_data model_params tree_num).col_sampler =
      workspace.col_sampler := by
  unfold fit_itree_begin
  simp only [apply_ite WorkerMemory.col_sampler, ite_self]

theorem fit_itree_sample_col_sampler (env : Env) (ws ws1 : WorkerMemory)
    (input_data : InputData) (model_params : ModelParams)
    (h : fit_itree_sample env ws input_data model_params = .ok ws1) :
    ws1.col_sampler = ws.col_sampler := by
  unfold fit_itree_sample at h
  split at h
  · cases h
  · cases h
    simp only

/-- The blocks between the sampling of the rows and the kurtosis block call the column
sampler once, with the supplied column weights, when weights are supplied and not to be
avoided, and not at all otherwise. -/
theorem fit_itree_upto_kurtosis_col_sampler (env : Env) (is_tree : Bool) (ws : WorkerMemory)
    (input_data : InputData) (model_params : ModelParams) :
    (fit_itree_upto_kurtosis env is_tree ws input_data model_params).col_sampler =
      ws.col_sampler ++
        (match input_data.col_weights with
          | some w =>
            if avoid_col_weights is_tree input_data model_params then []
            else [SamplerCall.init_weights w input_data.ncols_tot]
          | none => []) := by
  have h1 : ∀ w : WorkerMemory,
      (fit_itree_buffers env is_tree w input_data model_params).col_sampler = w.col_sampler := by
    intro w
    unfold fit_itree_buffers
    simp only [apply_ite WorkerMemory.col_sampler, ite_self]
  have h2 : ∀ w : WorkerMemory,
      (fit_itree_tmat w input_data model_params).col_sampler = w.col_sampler := by
    intro w
    unfold fit_itree_tmat
    simp only [apply_ite WorkerMemory.col_sampler, ite_self]
  have h3 : ∀ w : WorkerMemory,
      (fit_itree_density_weights is_tree w input_data model_params).col_sampler =
        w.col_sampler := by
    intro w
    unfold fit_itree_density_weights
    cases input_data.sample_weights <;>
      simp only [apply_ite WorkerMemory.col_sampler, ite_self]
  have h4 : ∀ w : WorkerMemory,
      (fit_itree_scratch is_tree w input_data model_params).col_sampler = w.col_sampler := by
    intro w
    unfold fit_itree_scratch
    cases model_params.cat_split_type <;>
      simp only [apply_ite WorkerMemory.col_sampler, ite_self]
  unfold fit_itree_upto_kurtosis
  rw [h1, h2, h3, h4]
  unfold fit_itree_col_weights
  cases input_data.col_weights with
  | none => simp
  | some w =>
    cases avoid_col_weights is_tree input_data model_params <;> simp

theorem fit_itree_col_sampler_calls (env : Env) (is_tree : Bool) (ws : WorkerMemory)
    (input_data : InputData) (model_params : ModelParams) :
    (fit_itree_col_sampler env is_tree ws input_data model_params).col_sampler =
      ws.col_sampler ++ [SamplerCall.init_uniform input_data.ncols_tot] ++
        (if (model_params.weigh_by_kurt && !avoid_col_weights is_tree input_data model_params)
          then [] else [SamplerCall.leave_m_cols model_params.ncols_per_tree]) := by
  unfold fit_itree_col_sampler
  simp only [apply_ite WorkerMemory.col_sampler, ite_self]
  cases (model_params.weigh_by_kurt && !avoid_col_weights is_tree input_data model_params) <;>
    simp

/-- Lines 919-922 for the calls the entry points make, where a single-variable tree comes
with `ndim < 2`. -/
theorem avoid_col_weights_iff (is_tree : Bool) (input_data : InputData)
    (model_params : ModelParams) (hndim : is_tree = true → model_params.ndim < 2) :
    avoid_col_weights is_tree input_data model_params = true ↔
      (is_tree = true ∧
        double_add model_params.prob_pick_by_gain_avg model_params.prob_pick_by_gain_pl ≥ 1) ∨
      (is_tree = false ∧ model_params.ndim ≥ input_data.ncols_tot) := by
  unfold avoid_col_weights
  cases is_tree with
  | true =>
    have := hndim rfl
    simp [this]
  | false => simp

theorem fit_itree_kurtosis_of_avoid (env : Env) (is_tree : Bool) (ws : WorkerMemory)
    (input_data : InputData) (model_params : ModelParams)
    (h : avoid_col_weights is_tree input_data model_params = true) :
    fit_itree_kurtosis env is_tree ws input_data model_params = .ok ws := by
  unfold fit_itree_kurtosis
  rw [h]
  simp

/-- C23: in a `fit_itree` call (a single-variable tree coming with `ndim < 2`, as in
every call of `fit_iforest` and `add_tree`) whose row sampling and kurtosis block do not
raise, column weights are avoided exactly when the tree is single-variable and
`prob_pick_by_gain_avg + prob_pick_by_gain_pl >= 1`, or it is extended and
`ndim >= ncols_tot`; the sum is the one line 920 computes, the `double` nearest to the
exact sum, which is at least `1` exactly when the exact sum is at least `1 - 2^-54`: the
probabilities `0.7` and `0.3`, whose exact sum as `double`s is `1 - 2^-54`, have the sum
`1` and make a single-variable tree avoid the weights. When they are avoided the calls made on the column sampler before the
tree is grown are the uniform initialisation over `ncols_tot` columns and `leave_m_cols`,
and no weights are handed to it; otherwise the supplied `col_weights`, if any, are handed
to it, then one vector of kurtosis weights if `weigh_by_kurt` is set, before the uniform
initialisation. -/
theorem column_weights_avoided_iff (env : Env) (slot : TreeSlot) (workspace : WorkerMemory)
    (input_data : InputData) (model_params : ModelParams)
    (impute_nodes : Option (List ImputeNode)) (tree_num : Nat) (ws1 ws7 : WorkerMemory)
    (hndim : slot.is_tree = true → model_params.ndim < 2)
    (hsample : fit_itree_sample env (fit_itree_begin workspace input_data model_params tree_num)
      input_data model_params = .ok ws1)
    (hkurt : fit_itree_kurtosis env slot.is_tree
      (fit_itree_upto_kurtosis env slot.is_tree ws1 input_data model_params)
      input_data model_params = .ok ws7) :
    (avoid_col_weights slot.is_tree input_data model_params = true ↔
        (slot.is_tree = true ∧
          double_add model_params.prob_pick_by_gain_avg model_params.prob_pick_by_gain_pl ≥ 1) ∨
        (slot.is_tree = false ∧ model_params.ndim ≥ input_data.ncols_tot)) ∧
      (∀ x y : ℚ, double_add x y ≥ 1 ↔ x + y ≥ 1 - 1 / 2 ^ 54) ∧
      (double_0_7 + double_0_3 = 1 - 1 / 2 ^ 54 ∧ double_add double_0_7 double_0_3 = 1) ∧
      fit_itree env slot workspace input_data model_params impute_nodes tree_num =
        fit_itree_grow env (add_root slot)
          (fit_itree_col_sampler env slot.is_tree ws7 input_data model_params)
          input_data model_params (add_root_impute impute_nodes)
          (fit_itree_begin workspace input_data model_params tree_num).rnd_generator ∧
      (avoid_col_weights slot.is_tree input_data model_params = true →
        (fit_itree_col_sampler env slot.is_tree ws7 input_data model_params).col_sampler =
          workspace.col_sampler ++
            [SamplerCall.init_uniform input_data.ncols_tot,
              SamplerCall.leave_m_cols model_params.ncols_per_tree]) ∧
      (avoid_col_weights slot.is_tree input_data model_params = false →
        ∃ kurt_calls : List SamplerCall,
          (fit_itree_col_sampler env slot.is_tree ws7 input_data model_params).col_sampler =
            workspace.col_sampler ++
              (match input_data.col_weights with
                | some w => [SamplerCall.init_weights w input_data.ncols_tot]
                | none => []) ++
              kurt_calls ++ [SamplerCall.init_uniform input_data.ncols_tot] ++
              (if model_params.weigh_by_kurt then []
               else [SamplerCall.leave_m_cols model_params.ncols_per_tree]) ∧
          (model_params.weigh_by_kurt = true →
            ∃ kw : List ℚ, kurt_calls = [SamplerCall.init_weights kw kw.length]) ∧
          (model_params.weigh_by_kurt = false → kurt_calls = [])) ∧
      (∀ (e : Env) (a : FitArgs), a.model.is_single = true → (fit_model_params e a).ndim < 2) ∧
      (∀ a : AddTreeArgs, a.model.is_single = true → (add_tree_model_params a).ndim < 2) := by
  have h6 := fit_itree_upto_kurtosis_col_sampler env slot.is_tree ws1 input_data model_params
  rw [fit_itree_sample_col_sampler env _ ws1 input_data model_params hsample,
    fit_itree_begin_col_sampler] at h6
  have h8 := fit_itree_col_sampler_calls env slot.is_tree ws7 input_data model_params
  refine ⟨avoid_col_weights_iff slot.is_tree input_data model_params hndim,
    double_add_ge_one_iff, ⟨by decide!, by decide!⟩,
    fit_itree_of_kurtosis_ok env slot workspace input_data model_params impute_nodes tree_num
      ws1 ws7 hsample hkurt, fun hav => ?_, fun hav => ?_, fun e a ha => ?_, fun a ha => ?_⟩
  · rcases fit_itree_kurtosis_frame env slot.is_tree _ ws7 input_data model_params hkurt with
      ⟨-, h7⟩ | ⟨hK, -⟩
    · rw [h8, h7, h6, hav]
      cases input_data.col_weights <;> simp
    · rw [hav] at hK
      simp at hK
  · rcases fit_itree_kurtosis_frame env slot.is_tree _ ws7 input_data model_params hkurt with
      ⟨hK, h7⟩ | ⟨hK, ix, rng, kw, h7⟩
    · rw [hav] at hK
      simp only [Bool.not_false, Bool.and_true] at hK
      refine ⟨[], ?_, fun h => ?_, fun _ => rfl⟩
      · rw [h8, h7, h6, hav, hK]
        cases input_data.col_weights <;> simp
      · rw [hK] at h
        cases h
    · rw [hav] at hK
      simp only [Bool.not_false, Bool.and_true] at hK
      refine ⟨[SamplerCall.init_weights kw kw.length], ?_, fun _ => ⟨kw, rfl⟩, fun h => ?_⟩
      · have h7c : ws7.col_sampler =
            (fit_itree_upto_kurtosis env slot.is_tree ws1 input_data model_params).col_sampler ++
              [SamplerCall.init_weights kw kw.length] := by
          rw [h7]
        rw [h8, h7c, h6, hav, hK]
        cases input_data.col_weights <;> simp
      · rw [hK] at h
        cases h
  · unfold fit_model_params
    simp [ha]
  · unfold add_tree_model_params
    simp [ha]

set_option maxRecDepth 100000 in
theorem column_weights_avoided_iff_witness :
    avoid_col_weights true (add_tree_input_data avoid_add_args)
        (add_tree_model_params avoid_add_args) = true ∧
      avoid_col_weights true (add_tree_input_data avoid_add_args)
        (add_tree_model_params { avoid_add_args with
          prob_pick_by_gain_avg := double_0_7, prob_pick_by_gain_pl := double_0_3 }) = true ∧
      (fit_itree_col_sampler (test_env none) true
          (fit_itree_upto_kurtosis (test_env none) true avoid_sampled
            (add_tree_input_data avoid_add_args) (add_tree_model_params avoid_add_args))
          (add_tree_input_data avoid_add_args)
          (add_tree_model_params avoid_add_args)).col_sampler =
        [SamplerCall.init_uniform 1, SamplerCall.leave_m_cols 0] :=
  ⟨by decide!, by decide!,
    (column_weights_avoided_iff (test_env none) (.tree []) {}
      (add_tree_input_data avoid_add_args) (add_tree_model_params avoid_add_args) none 2
      avoid_sampled
      (fit_itree_upto_kurtosis (test_env none) true avoid_sampled
        (add_tree_input_data avoid_add_args) (add_tree_model_params avoid_add_args))
      (fun _ => by decide) rfl
      (fit_itree_kurtosis_of_avoid _ _ _ _ _ (by decide!))).2.2.2.2.1 (by decide!)⟩

/-! ### The representation of the density weights -/

/-- C24 (counterexample): a tree is built on a sub-sample of `1` row out of `100` rows of
dense data with density weights, so `sample_size < nrows / 50`; the weights are
generated in the array of `100` entries and the sparse map stays empty. -/
theorem small_sample_of_dense_data_uses_array :
    (fit_model_params (test_env none) small_sample_fit_args).sample_size = 1 ∧
      (fit_input_data (test_env none) small_sample_fit_args).nrows = 100 ∧
      (1 : Nat) < 100 / 50 ∧
      (fit_input_data (test_env none) small_sample_fit_args).Xc_indptr = none ∧
      (fit_itree (test_env none) (.tree []) {}
        (fit_input_data (test_env none) small_sample_fit_args)
        (fit_model_params (test_env none) small_sample_fit_args) none 0).workspace.weights_map
        = [] ∧
      (fit_itree (test_env none) (.tree []) {}
        (fit_input_data (test_env none) small_sample_fit_args)
        (fit_model_params (test_env none) small_sample_fit_args)
        none 0).workspace.weights_arr.length = 100 ∧
      (fit_itree (test_env none) (.tree []) {}
        (fit_input_data (test_env none) small_sample_fit_args)
        (fit_model_params (test_env none) small_sample_fit_args)
        none 0).workspace.changed_weights = true := by
  refine ⟨rfl, rfl, by decide, rfl, ?_, ?_, ?_⟩ <;> decide!

theorem density_weights_arr_fresh_length (sw : List ℚ) (nrows : Nat) (ix_arr : List Nat)
    (sample_size : Nat) (h : nrows ≤ sw.length) :
    (density_weights_arr_fresh sw nrows ix_arr sample_size).length = nrows := by
  unfold density_weights_arr_fresh
  simp only [List.length_map, List.length_take]
  omega

theorem density_weights_arr_refill_length (arr sw : List ℚ) (ix_arr : List Nat)
    (sample_size : Nat) :
    (density_weights_arr_refill arr sw ix_arr sample_size).length = arr.length := by
  unfold density_weights_arr_refill
  simp only [List.length_map]
  exact foldl_preserves (fun a : List ℚ => a.length = arr.length) _ _ _ rfl
    (fun a ix _ ha => by simp only [List.length_set]; exact ha)

/-- C24 (amended): when the density weights of a tree are generated (weights supplied, not
used as sampling weights, and not kept from an earlier tree of the worker), they are stored
in the sparse map when the numeric input is sparse and `sample_size < nrows / 50`, and in
the weight array otherwise, the map being then empty; the array has `nrows` entries when
at least `nrows` weights are supplied and the array was empty or of `nrows` entries. -/
theorem density_weights_representation (is_tree : Bool) (ws : WorkerMemory)
    (input_data : InputData) (model_params : ModelParams) (sw : List ℚ)
    (hsw : input_data.sample_weights = some sw)
    (hdens : input_data.weight_as_sample = false)
    (hregen : (!is_tree && (!ws.weights_map.isEmpty || !ws.weights_arr.isEmpty)
      && decide (model_params.sample_size = input_data.nrows)) = false) :
    ((input_data.Xc_indptr.isSome = true ∧ model_params.sample_size < input_data.nrows / 50) →
        (fit_itree_density_weights is_tree ws input_data model_params).weights_map =
          density_weights_map sw ws.ix_arr model_params.sample_size ∧
        (fit_itree_density_weights is_tree ws input_data model_params).weights_arr =
          ws.weights_arr) ∧
      (¬(input_data.Xc_indptr.isSome = true ∧
          model_params.sample_size < input_data.nrows / 50) →
        (fit_itree_density_weights is_tree ws input_data model_params).weights_map = [] ∧
        (fit_itree_density_weights is_tree ws input_data model_params).weights_arr =
          (if ws.weights_arr.isEmpty then
            density_weights_arr_fresh sw input_data.nrows ws.ix_arr model_params.sample_size
           else
            density_weights_arr_refill ws.weights_arr sw ws.ix_arr model_params.sample_size) ∧
        (input_data.nrows ≤ sw.length →
          (ws.weights_arr = [] ∨ ws.weights_arr.length = input_data.nrows) →
          (fit_itree_density_weights is_tree ws input_data model_params).weights_arr.length =
            input_data.nrows)) := by
  have hcond : ∀ m : List (Nat × ℚ), (is_tree = false → m = ws.weights_map) →
      (!is_tree && (!m.isEmpty || !ws.weights_arr.isEmpty)
        && decide (model_params.sample_size = input_data.nrows)) = false := by
    intro m hm
    cases hi : is_tree with
    | true => rfl
    | false =>
      rw [hi] at hregen
      rw [hm hi]
      exact hregen
  have hkey : fit_itree_density_weights is_tree ws input_data model_params =
      (if input_data.Xc_indptr.isSome
          && decide (model_params.sample_size < input_data.nrows / 50) then
        { ws with changed_weights := true,
                  weights_map := density_weights_map sw ws.ix_arr model_params.sample_size }
       else if ws.weights_arr.isEmpty then
        { ws with changed_weights := true, weights_map := [],
                  weights_arr := density_weights_arr_fresh sw input_data.nrows ws.ix_arr
                    model_params.sample_size }
       else
        { ws with changed_weights := true, weights_map := [],
                  weights_arr := density_weights_arr_refill ws.weights_arr sw ws.ix_arr
                    model_params.sample_size }) := by
    unfold fit_itree_density_weights
    simp only [hsw, hdens, Bool.false_eq_true, if_false]
    rw [if_pos (by
      simp only [apply_ite WorkerMemory.weights_arr, ite_self, Bool.not_eq_true']
      exact hcond _ (fun hi => by simp [hi]))]
    simp only [apply_ite WorkerMemory.weights_arr, apply_ite WorkerMemory.ix_arr, ite_self]
    split
    · cases is_tree <;> rfl
    · split <;> cases is_tree <;> rfl
  rw [hkey]
  constructor
  · intro hc
    have : (input_data.Xc_indptr.isSome
        && decide (model_params.sample_size < input_data.nrows / 50)) = true := by
      simp [hc.1, hc.2]
    rw [if_pos this]
    exact ⟨rfl, rfl⟩
  · intro hc
    have : ¬ (input_data.Xc_indptr.isSome
        && decide (model_params.sample_size < input_data.nrows / 50)) = true := by
      intro h
      simp only [Bool.and_eq_true, decide_eq_true_eq] at h
      exact hc h
    rw [if_neg this]
    cases he : ws.weights_arr.isEmpty with
    | true =>
      simp only [if_true]
      exact ⟨trivial, trivial, fun hlen _ => density_weights_arr_fresh_length _ _ _ _ hlen⟩
    | false =>
      simp only [Bool.false_eq_true, if_false]
      refine ⟨trivial, trivial, fun _ harr => ?_⟩
      rw [density_weights_arr_refill_length]
      rcases harr with h | h
      · rw [h] at he
        cases he
      · exact h

set_option maxRecDepth 100000 in
theorem density_weights_representation_witness :
    (fit_itree_density_weights true { ix_arr := [0] }
        (fit_input_data (test_env none) { small_sample_fit_args with Xc_indptr := some [0, 0] })
        (fit_model_params (test_env none) small_sample_fit_args)).weights_map = [(0, 1)] ∧
      (fit_itree_density_weights true { ix_arr := [0] }
        (fit_input_data (test_env none) { small_sample_fit_args with Xc_indptr := some [0, 0] })
        (fit_model_params (test_env none) small_sample_fit_args)).weights_arr = [] :=
  have h := (density_weights_representation true { ix_arr := [0] }
    (fit_input_data (test_env none) { small_sample_fit_args with Xc_indptr := some [0, 0] })
    (fit_model_params (test_env none) small_sample_fit_args) (List.replicate 100 2)
    rfl rfl rfl).1 ⟨rfl, by decide⟩
  ⟨h.1.trans (by decide!), h.2⟩

/-! ### Density weights kept from an earlier tree -/

/-- C25 (the code at the failing input): the extended model is fitted to two rows with
density weights `1` and `3`, every tree on a sample of two rows drawn with replacement,
and one worker builds tree `0` and then tree `1`. Tree `0` is grown on rows `[0, 0]` with
the weight array `[1, 3]`, whose entries over the sample sum to the sample size `2`. For
tree `1`, grown on rows `[1, 1]`, lines 1024-1028 keep the array of tree `0`: the density
weights of its sample sum to `6`, not to the sample size. -/
theorem reused_density_weights_do_not_sum_to_sample_size :
    (fit_model_params weights_env (weights_fit_args 1)).sample_size = 2 ∧
      (fit_input_data weights_env (weights_fit_args 1)).sample_weights = some [1, 3] ∧
      (fit_input_data weights_env (weights_fit_args 1)).weight_as_sample = false ∧
      weights_first_tree.raised = none ∧
      weights_first_tree.workspace.ix_arr = [0, 0] ∧
      weights_first_tree.workspace.weights_arr = [1, 3] ∧
      sample_weight_total weights_first_tree.workspace = 2 ∧
      weights_second_tree.raised = none ∧
      weights_second_tree.workspace.ix_arr = [1, 1] ∧
      weights_second_tree.workspace.changed_weights = true ∧
      weights_second_tree.workspace.weights_arr = [1, 3] ∧
      weights_second_tree.workspace.weights_map = [] ∧
      sample_weight_total weights_second_tree.workspace = 6 := by
  refine ⟨rfl, rfl, rfl, ?_, ?_, ?_, ?_, ?_, ?_, ?_, ?_, ?_, ?_⟩ <;> decide!

/-! ### The two array forms of the density weights -/

theorem getD_take_lt (l : List ℚ) (n j : Nat) (d : ℚ) (h : j < n) :
    (l.take n).getD j d = l.getD j d := by
  simp only [List.getD_eq_getElem?_getD, List.getElem?_take, h, if_true]

theorem getD_map_mul (l : List ℚ) (c : ℚ) (j : Nat) :
    (l.map (fun w => w * c)).getD j 0 = l.getD j 0 * c := by
  rw [List.getD_eq_getElem?_getD, List.getElem?_map, List.getD_eq_getElem?_getD]
  cases l[j]? <;> simp

/-- The loop `for (ix : ix_arr) arr[ix] = sw[ix]`: rows of the sample that the array
holds take the supplied weight, all other entries stay. -/
theorem foldl_set_sample (sw : List ℚ) (ix_arr : List Nat) :
    ∀ (arr : List ℚ) (j : Nat),
      (ix_arr.foldl (fun a ix => a.set ix (sw.getD ix 0)) arr).getD j 0 =
        if j ∈ ix_arr ∧ j < arr.length then sw.getD j 0 else arr.getD j 0 := by
  induction ix_arr with
  | nil => intro arr j; simp
  | cons x rest ih =>
    intro arr j
    rw [List.foldl_cons, ih, List.length_set, getD_set_eq]
    by_cases hj : j < arr.length
    · by_cases hr : j ∈ rest
      · rw [if_pos ⟨hr, hj⟩, if_pos ⟨List.mem_cons_of_mem _ hr, hj⟩]
      · rw [if_neg (fun h => hr h.1)]
        by_cases hx : x = j
        · subst hx
          rw [if_pos ⟨rfl, hj⟩, if_pos ⟨List.mem_cons_self _ _, hj⟩]
        · rw [if_neg (fun h => hx h.1), if_neg (fun h => by
            rcases List.mem_cons.mp h.1 with h1 | h1
            · exact hx h1.symm
            · exact hr h1)]
    · have h1 : ¬(j ∈ rest ∧ j < arr.length) := fun h => hj h.2
      have h2 : ¬(x = j ∧ x < arr.length) := fun h => hj (h.1 ▸ h.2)
      have h3 : ¬(j ∈ x :: rest ∧ j < arr.length) := fun h => hj h.2
      rw [if_neg h1, if_neg h2, if_neg h3]

theorem density_weights_arr_fresh_getD (sw : List ℚ) (nrows : Nat) (ix_arr : List Nat)
    (sample_size ix : Nat) (hlt : ix < nrows) :
    (density_weights_arr_fresh sw nrows ix_arr sample_size).getD ix 0 =
      sw.getD ix 0 * (sample_size : ℚ) / sum_sample_weights sw ix_arr := by
  unfold density_weights_arr_fresh
  simp only
  rw [getD_map_mul, getD_take_lt _ _ _ _ hlt, mul_div_assoc]

theorem density_weights_arr_refill_getD (arr sw : List ℚ) (ix_arr : List Nat)
    (sample_size ix : Nat) (hix : ix ∈ ix_arr) (hlt : ix < arr.length) :
    (density_weights_arr_refill arr sw ix_arr sample_size).getD ix 0 =
      sw.getD ix 0 * (sample_size : ℚ) / sum_sample_weights sw ix_arr := by
  unfold density_weights_arr_refill
  simp only
  rw [getD_map_mul, foldl_set_sample, if_pos ⟨hix, hlt⟩, mul_div_assoc]

/-- Lines 1017-1071 when the density weights are generated: the worker memory they leave. -/
theorem fit_itree_density_weights_generated (is_tree : Bool) (ws : WorkerMemory)
    (input_data : InputData) (model_params : ModelParams) (sw : List ℚ)
    (hsw : input_data.sample_weights = some sw)
    (hdens : input_data.weight_as_sample = false)
    (hregen : (!is_tree && (!ws.weights_map.isEmpty || !ws.weights_arr.isEmpty)
      && decide (model_params.sample_size = input_data.nrows)) = false) :
    fit_itree_density_weights is_tree ws input_data model_params =
      (if input_data.Xc_indptr.isSome
          && decide (model_params.sample_size < input_data.nrows / 50) then
        { ws with changed_weights := true,
                  weights_map := density_weights_map sw ws.ix_arr model_params.sample_size }
       else if ws.weights_arr.isEmpty then
        { ws with changed_weights := true, weights_map := [],
                  weights_arr := density_weights_arr_fresh sw input_data.nrows ws.ix_arr
                    model_params.sample_size }
       else
        { ws with changed_weights := true, weights_map := [],
                  weights_arr := density_weights_arr_refill ws.weights_arr sw ws.ix_arr
                    model_params.sample_size }) := by
  have hcond : ∀ m : List (Nat × ℚ), (is_tree = false → m = ws.weights_map) →
      (!is_tree && (!m.isEmpty || !ws.weights_arr.isEmpty)
        && decide (model_params.sample_size = input_data.nrows)) = false := by
    intro m hm
    cases hi : is_tree with
    | true => rfl
    | false =>
      rw [hi] at hregen
      rw [hm hi]
      exact hregen
  unfold fit_itree_density_weights
  simp only [hsw, hdens, Bool.false_eq_true, if_false]
  rw [if_pos (by
    simp only [apply_ite WorkerMemory.weights_arr, ite_self, Bool.not_eq_true']
    exact hcond _ (fun hi => by simp [hi]))]
  simp only [apply_ite WorkerMemory.weights_arr, apply_ite WorkerMemory.ix_arr, ite_self]
  split
  · cases is_tree <;> rfl
  · split <;> cases is_tree <;> rfl

/-- C26: when the density weights of a tree are generated in the array form, the weight
recorded for a row `ix` of the sample is
`sample_weights[ix] * sample_size / (sum of sample_weights over the sample)`; the array
created for the tree and the array re-filled over one left by an earlier tree both hold
that value at every row of the sample. -/
theorem array_density_weight_of_sampled_row (is_tree : Bool) (ws : WorkerMemory)
    (input_data : InputData) (model_params : ModelParams) (sw : List ℚ) (ix : Nat)
    (hsw : input_data.sample_weights = some sw)
    (hdens : input_data.weight_as_sample = false)
    (hregen : (!is_tree && (!ws.weights_map.isEmpty || !ws.weights_arr.isEmpty)
      && decide (model_params.sample_size = input_data.nrows)) = false)
    (harray : ¬(input_data.Xc_indptr.isSome = true ∧
      model_params.sample_size < input_data.nrows / 50))
    (hix : ix ∈ ws.ix_arr) (hlt : ix < input_data.nrows)
    (harr : ws.weights_arr = [] ∨ ws.weights_arr.length = input_data.nrows) :
    (fit_itree_density_weights is_tree ws input_data model_params).weights_arr.getD ix 0 =
        sw.getD ix 0 * (model_params.sample_size : ℚ) / sum_sample_weights sw ws.ix_arr ∧
      (density_weights_arr_fresh sw input_data.nrows ws.ix_arr model_params.sample_size).getD
          ix 0 =
        sw.getD ix 0 * (model_params.sample_size : ℚ) / sum_sample_weights sw ws.ix_arr ∧
      ∀ arr : List ℚ, arr.length = input_data.nrows →
        (density_weights_arr_refill arr sw ws.ix_arr model_params.sample_size).getD ix 0 =
          (density_weights_arr_fresh sw input_data.nrows ws.ix_arr
            model_params.sample_size).getD ix 0 := by
  have hfresh := density_weights_arr_fresh_getD sw input_data.nrows ws.ix_arr
    model_params.sample_size ix hlt
  have hrefill : ∀ arr : List ℚ, arr.length = input_data.nrows →
      (density_weights_arr_refill arr sw ws.ix_arr model_params.sample_size).getD ix 0 =
        sw.getD ix 0 * (model_params.sample_size : ℚ) / sum_sample_weights sw ws.ix_arr :=
    fun arr ha => density_weights_arr_refill_getD arr sw ws.ix_arr model_params.sample_size ix
      hix (by rw [ha]; exact hlt)
  refine ⟨?_, hfresh, fun arr ha => by rw [hrefill arr ha, hfresh]⟩
  rw [fit_itree_density_weights_generated is_tree ws input_data model_params sw hsw hdens hregen]
  have : ¬ (input_data.Xc_indptr.isSome
      && decide (model_params.sample_size < input_data.nrows / 50)) = true := by
    intro h
    simp only [Bool.and_eq_true, decide_eq_true_eq] at h
    exact harray h
  rw [if_neg this]
  cases he : ws.weights_arr.isEmpty with
  | true =>
    simp only [if_true]
    exact hfresh
  | false =>
    simp only [Bool.false_eq_true, if_false]
    rcases harr with h | h
    · rw [h] at he
      cases he
    · exact hrefill _ h

set_option maxRecDepth 100000 in
theorem array_density_weight_of_sampled_row_witness :
    (fit_itree_density_weights false { ix_arr := [1, 1], weights_arr := [5, 7] }
        (fit_input_data weights_env { weights_fit_args 1 with nrows := 2 })
        { fit_model_params weights_env (weights_fit_args 1) with
          sample_size := 1 }).weights_arr.getD 1 0 = 1 / 2 ∧
      (density_weights_arr_refill [5, 7] [1, 3] [1, 1] 1).getD 1 0 =
        (density_weights_arr_fresh [1, 3] 2 [1, 1] 1).getD 1 0 ∧
      (density_weights_arr_refill [5, 7] [1, 3] [1, 1] 1).getD 0 0 ≠
        (density_weights_arr_fresh [1, 3] 2 [1, 1] 1).getD 0 0 :=
  have h := array_density_weight_of_sampled_row false
    { ix_arr := [1, 1], weights_arr := [5, 7] }
    (fit_input_data weights_env { weights_fit_args 1 with nrows := 2 })
    { fit_model_params weights_env (weights_fit_args 1) with sample_size := 1 }
    [1, 3] 1 rfl rfl (by decide) (by decide) (by decide) (by decide) (Or.inr rfl)
  ⟨h.1.trans (by decide!), h.2.2 [5, 7] rfl, by decide!⟩

/-! ### Kurtosis weights of the columns drawn for a tree -/

theorem foldl_list_induct {σ α : Type} (f : σ → α → σ) (init : σ)
    (P : List α → σ → Prop) (h0 : P [] init)
    (hstep : ∀ pre x s, P pre s → P (pre ++ [x]) (f s x)) :
    ∀ l : List α, P l (l.foldl f init) := by
  intro l
  induction l using List.reverseRecOn with
  | nil => exact h0
  | append_singleton pre x ih =>
    rw [List.foldl_append]
    exact hstep pre x _ ih

theorem kurtosis_numeric_rnd_generator (env : Env) (ws : WorkerMemory) (rng : RndGenerator)
    (input_data : InputData) (model_params : ModelParams) (col : Nat) :
    kurtosis_numeric env { ws with rnd_generator := rng } input_data model_params col =
      kurtosis_numeric env ws input_data model_params col := by
  unfold kurtosis_numeric
  cases input_data.Xc_indptr <;> rfl

/-- Lines 1257-1323: the weights after the loop over the columns drawn for the tree. A
column that was drawn holds the transformed kurtosis of that column, and every other entry
is as it was before the loop. -/
theorem kurt_weights_some_entries (env : Env) (ws : WorkerMemory) (input_data : InputData)
    (model_params : ModelParams) (kw0 : List ℚ) (cols_take : List Nat) :
    (kurt_weights_some env ws input_data model_params cols_take kw0).1.length = kw0.length ∧
      (∀ c, c ∈ cols_take → c < kw0.length →
        (c < input_data.ncols_numeric →
          (kurt_weights_some env ws input_data model_params cols_take kw0).1.getD c 0 =
            kurt_to_weight (kurtosis_numeric env ws input_data model_params c)) ∧
        (input_data.ncols_numeric ≤ c → ∃ rng,
          (kurt_weights_some env ws input_data model_params cols_take kw0).1.getD c 0 =
            kurt_to_weight (kurtosis_categ env { ws with rnd_generator := rng } input_data
              model_params (c - input_data.ncols_numeric)).1)) ∧
      (∀ c, c ∉ cols_take →
        (kurt_weights_some env ws input_data model_params cols_take kw0).1.getD c 0 =
          kw0.getD c 0) := by
  unfold kurt_weights_some
  have h := foldl_list_induct
    (fun (acc : List ℚ × WorkerMemory) col =>
      if col < input_data.ncols_numeric then
        (acc.1.set col (kurt_to_weight (kurtosis_numeric env acc.2 input_data model_params col)),
          acc.2)
      else
        ((acc.1.set col (kurt_to_weight (kurtosis_categ env acc.2 input_data model_params
              (col - input_data.ncols_numeric)).1),
          { acc.2 with rnd_generator := (kurtosis_categ env acc.2 input_data model_params
              (col - input_data.ncols_numeric)).2 }) : List ℚ × WorkerMemory))
    (kw0, ws)
    (fun cols acc => acc.1.length = kw0.length ∧
      (∃ rng, acc.2 = { ws with rnd_generator := rng }) ∧
      (∀ c, c ∈ cols → c < kw0.length →
        (c < input_data.ncols_numeric →
          acc.1.getD c 0 = kurt_to_weight (kurtosis_numeric env ws input_data model_params c)) ∧
        (input_data.ncols_numeric ≤ c → ∃ rng,
          acc.1.getD c 0 =
            kurt_to_weight (kurtosis_categ env { ws with rnd_generator := rng } input_data
              model_params (c - input_data.ncols_numeric)).1)) ∧
      (∀ c, c ∉ cols → acc.1.getD c 0 = kw0.getD c 0))
    ⟨rfl, ⟨_, rfl⟩, fun c hc => absurd hc (List.not_mem_nil c), fun c _ => rfl⟩
    (fun pre x acc hacc => by
      obtain ⟨hlen, ⟨rng, hrng⟩, hin, hout⟩ := hacc
      by_cases hx : x < input_data.ncols_numeric
      · simp only [hx, if_true]
        refine ⟨by rw [List.length_set]; exact hlen, ⟨rng, hrng⟩, fun c hc hcl => ?_,
          fun c hc => ?_⟩
        · rw [getD_set_eq]
          by_cases hxc : x = c
          · subst hxc
            rw [if_pos ⟨rfl, by rw [hlen]; exact hcl⟩, hrng, kurtosis_numeric_rnd_generator]
            exact ⟨fun _ => rfl, fun h => absurd hx (not_lt.mpr h)⟩
          · rw [if_neg (fun h => hxc h.1)]
            rcases List.mem_append.mp hc with h1 | h1
            · exact hin c h1 hcl
            · exact absurd (List.mem_singleton.mp h1).symm hxc
        · rw [getD_set_eq, if_neg (fun h => hc (by rw [← h.1]; simp))]
          exact hout c (fun h => hc (List.mem_append_left _ h))
      · simp only [hx, if_false]
        refine ⟨by rw [List.length_set]; exact hlen, ⟨_, by rw [hrng]⟩, fun c hc hcl => ?_,
          fun c hc => ?_⟩
        · rw [getD_set_eq]
          by_cases hxc : x = c
          · subst hxc
            rw [if_pos ⟨rfl, by rw [hlen]; exact hcl⟩, hrng]
            exact ⟨fun h => absurd h hx, fun _ => ⟨rng, rfl⟩⟩
          · rw [if_neg (fun h => hxc h.1)]
            rcases List.mem_append.mp hc with h1 | h1
            · exact hin c h1 hcl
            · exact absurd (List.mem_singleton.mp h1).symm hxc
        · rw [getD_set_eq, if_neg (fun h => hc (by rw [← h.1]; simp))]
          exact hout c (fun h => hc (List.mem_append_left _ h)))
    cols_take
  exact ⟨h.1, h.2.2.1, h.2.2.2⟩

theorem length_filter_range_mem (l : List Nat) (n : Nat) (hnodup : l.Nodup)
    (hrange : ∀ c ∈ l, c < n) :
    ((List.range n).filter (fun c => decide (c ∈ l))).length = l.length := by
  apply List.Perm.length_eq
  rw [List.perm_ext_iff_of_nodup ((List.nodup_range n).filter _) hnodup]
  intro a
  simp only [List.mem_filter, List.mem_range, decide_eq_true_eq]
  exact ⟨fun h => h.2, fun h => ⟨hrange a h, h⟩⟩

/-- C27: in the kurtosis block with columns weighted by kurtosis, weights not avoided and
`0 < ncols_per_tree < ncols_tot`, when the column draw returns `ncols_per_tree` distinct
columns and leaves the weight vector it is passed, the vector handed to the column sampler
holds `max(1e-8, kurtosis - 1) > 0` at every drawn column and `0` at every other one, so
exactly `ncols_per_tree` columns have a positive weight; and the column-sampler block that
follows calls the uniform initialisation only, not `leave_m_cols`. -/
theorem kurtosis_weights_of_drawn_columns (env : Env) (is_tree : Bool) (ws : WorkerMemory)
    (input_data : InputData) (model_params : ModelParams) (o : SampleOut)
    (hkurt : model_params.weigh_by_kurt = true)
    (havoid : avoid_col_weights is_tree input_data model_params = false)
    (hsub : 0 < model_params.ncols_per_tree ∧ model_params.ncols_per_tree < input_data.ncols_tot)
    (hcols : input_data.ncols_numeric + input_data.ncols_categ < 2 ^ 64)
    (hdraw : env.sample_random_rows (resize [] model_params.ncols_per_tree 0)
      input_data.ncols_tot false ws.rnd_generator [] none
      (List.replicate (add64 input_data.ncols_numeric input_data.ncols_categ) 0) 0 0 [] = .ok o)
    (hkeep : o.btree_weights =
      List.replicate (add64 input_data.ncols_numeric input_data.ncols_categ) 0)
    (hdistinct : o.ix_arr.Nodup) (hcount : o.ix_arr.length = model_params.ncols_per_tree)
    (hrange : ∀ c ∈ o.ix_arr, c < input_data.ncols_numeric + input_data.ncols_categ) :
    ∃ (kw : List ℚ) (ws7 : WorkerMemory),
      fit_itree_kurtosis env is_tree ws input_data model_params = .ok ws7 ∧
        ws7.col_sampler = ws.col_sampler ++ [SamplerCall.init_weights kw kw.length] ∧
        kw.length = input_data.ncols_numeric + input_data.ncols_categ ∧
        (∀ c, c ∈ o.ix_arr →
          0 < kw.getD c 0 ∧
          (c < input_data.ncols_numeric →
            kw.getD c 0 = max (1 / 100000000) (-1 +
              kurtosis_numeric env
                (kurt_sorted { ws with rnd_generator := o.rnd_generator } input_data)
                input_data model_params c)) ∧
          (input_data.ncols_numeric ≤ c → ∃ rng,
            kw.getD c 0 = max (1 / 100000000) (-1 +
              (kurtosis_categ env
                { kurt_sorted { ws with rnd_generator := o.rnd_generator } input_data with
                  rnd_generator := rng }
                input_data model_params (c - input_data.ncols_numeric)).1))) ∧
        (∀ c, c ∉ o.ix_arr → kw.getD c 0 = 0) ∧
        ((List.range (input_data.ncols_numeric + input_data.ncols_categ)).filter
          (fun c => decide (0 < kw.getD c 0))).length = model_params.ncols_per_tree ∧
        (fit_itree_col_sampler env is_tree ws7 input_data model_params).col_sampler =
          ws7.col_sampler ++ [SamplerCall.init_uniform input_data.ncols_tot] := by
  have hL : add64 input_data.ncols_numeric input_data.ncols_categ =
      input_data.ncols_numeric + input_data.ncols_categ := by
    unfold add64
    exact Nat.mod_eq_of_lt hcols
  have hbranch : ¬(model_params.ncols_per_tree = 0 ∨
      model_params.ncols_per_tree ≥ input_data.ncols_tot) := by
    intro h
    rcases h with h | h
    · omega
    · omega
  obtain ⟨hlen, hin, hout⟩ := kurt_weights_some_entries env
    (kurt_sorted { ws with rnd_generator := o.rnd_generator } input_data) input_data
    model_params (List.replicate (add64 input_data.ncols_numeric input_data.ncols_categ) 0)
    o.ix_arr
  obtain ⟨rng, hrng⟩ := kurt_weights_some_frame env
    (kurt_sorted { ws with rnd_generator := o.rnd_generator } input_data) input_data
    model_params o.ix_arr
    (List.replicate (add64 input_data.ncols_numeric input_data.ncols_categ) 0)
  rw [List.length_replicate] at hlen
  replace hlen := hlen.trans hL
  have hk : fit_itree_kurtosis env is_tree ws input_data model_params =
      .ok { (kurt_weights_some env
              (kurt_sorted { ws with rnd_generator := o.rnd_generator } input_data) input_data
              model_params o.ix_arr
              (List.replicate (add64 input_data.ncols_numeric input_data.ncols_categ) 0)).2 with
            col_sampler := (kurt_weights_some env
              (kurt_sorted { ws with rnd_generator := o.rnd_generator } input_data) input_data
              model_params o.ix_arr
              (List.replicate (add64 input_data.ncols_numeric input_data.ncols_categ) 0)).2.col_sampler
              ++ [SamplerCall.init_weights
                (kurt_weights_some env
                  (kurt_sorted { ws with rnd_generator := o.rnd_generator } input_data)
                  input_data model_params o.ix_arr
                  (List.replicate (add64 input_data.ncols_numeric input_data.ncols_categ) 0)).1
                (kurt_weights_some env
                  (kurt_sorted { ws with rnd_generator := o.rnd_generator } input_data)
                  input_data model_params o.ix_arr
                  (List.replicate (add64 input_data.ncols_numeric input_data.ncols_categ)
                    0)).1.length] } := by
    unfold fit_itree_kurtosis
    rw [hkurt, havoid]
    simp only [Bool.not_false, Bool.and_self, if_true]
    rw [if_neg hbranch]
    simp only [hdraw, hkeep]
    rfl
  have hpos : ∀ c, c ∈ o.ix_arr →
      0 < (kurt_weights_some env
        (kurt_sorted { ws with rnd_generator := o.rnd_generator } input_data) input_data
        model_params o.ix_arr
        (List.replicate (add64 input_data.ncols_numeric input_data.ncols_categ) 0)).1.getD c 0 := by
    intro c hc
    have hcl : c < (List.replicate (add64 input_data.ncols_numeric input_data.ncols_categ)
        (0 : ℚ)).length := by
      rw [List.length_replicate, hL]
      exact hrange c hc
    by_cases hcn : c < input_data.ncols_numeric
    · rw [(hin c hc hcl).1 hcn]
      exact lt_of_lt_of_le (by norm_num) (kurt_to_weight_ge _)
    · obtain ⟨r, hr⟩ := (hin c hc hcl).2 (not_lt.mp hcn)
      rw [hr]
      exact lt_of_lt_of_le (by norm_num) (kurt_to_weight_ge _)
  have hzero : ∀ c, c ∉ o.ix_arr →
      (kurt_weights_some env
        (kurt_sorted { ws with rnd_generator := o.rnd_generator } input_data) input_data
        model_params o.ix_arr
        (List.replicate (add64 input_data.ncols_numeric input_data.ncols_categ) 0)).1.getD c 0
        = 0 := by
    intro c hc
    rw [hout c hc, getD_replicate_zero]
  refine ⟨_, _, hk, ?_, hlen, fun c hc => ⟨hpos c hc, ?_, ?_⟩, hzero, ?_, ?_⟩
  · show (kurt_weights_some env _ input_data model_params o.ix_arr _).2.col_sampler ++ _ = _
    rw [hrng]
    unfold kurt_sorted
    split <;> rfl
  · intro hcn
    exact ((hin c hc (by rw [List.length_replicate, hL]; exact hrange c hc)).1 hcn)
  · intro hcn
    exact ((hin c hc (by rw [List.length_replicate, hL]; exact hrange c hc)).2 hcn)
  · rw [← hcount, ← length_filter_range_mem o.ix_arr
      (input_data.ncols_numeric + input_data.ncols_categ) hdistinct hrange]
    congr 1
    apply List.filter_congr
    intro c _
    show decide _ = decide _
    by_cases hc : c ∈ o.ix_arr
    · rw [decide_eq_true (hpos c hc), decide_eq_true hc]
    · rw [decide_eq_false hc, hzero c hc]
      exact decide_eq_false (lt_irrefl 0)
  · rw [fit_itree_col_sampler_calls, hkurt, havoid]
    simp

set_option maxRecDepth 100000 in
theorem kurtosis_weights_of_drawn_columns_witness :
    ∃ (kw : List ℚ) (ws7 : WorkerMemory),
      fit_itree_kurtosis (test_env none) true {} (add_tree_input_data subset_add_args)
          (add_tree_model_params subset_add_args) = .ok ws7 ∧
        ws7.col_sampler = [SamplerCall.init_weights kw kw.length] ∧
        kw.length = 2 ∧ kw.getD 0 0 = 2 ∧ kw.getD 1 0 = 0 ∧
        (fit_itree_col_sampler (test_env none) true ws7 (add_tree_input_data subset_add_args)
          (add_tree_model_params subset_add_args)).col_sampler =
          ws7.col_sampler ++ [SamplerCall.init_uniform 2] := by
  obtain ⟨kw, ws7, hk, hcs, hlen, hin, hout, -, hcalls⟩ :=
    kurtosis_weights_of_drawn_columns (test_env none) true {}
      (add_tree_input_data subset_add_args) (add_tree_model_params subset_add_args)
      { ix_arr := [0], rnd_generator := { seed := 0, ndraws := 1 }, ix_all := [],
        btree_weights := [0, 0], is_repeated := [] }
      rfl (by decide!) (by decide) (by decide) rfl rfl (by decide) rfl (by decide)
  exact ⟨kw, ws7, hk, hcs, hlen, ((hin 0 (by decide)).2.1 (by decide)).trans (by decide!),
    hout 1 (by decide), hcalls⟩

/-! ### The imputer at the end of the fit, and the constants of the forest -/

/-- What lines 613-631 do when no imputer is passed and the steps before them neither
return nor raise: `*imputer` is evaluated with `imputer == NULL`. -/
theorem fit_finish_null_imputer (env : Env) (run : Run) (a : FitArgs) (input_data : InputData)
    (model_params : ModelParams) (s : GrowState)
    (himp : s.imputer = none) (hfit : model_params.impute_at_fit = true)
    (hth : s.threw_exception = false)
    (hchk : ∀ k, k < 3 → run.interrupt_at_check k = false) :
    (fit_finish env run a input_data model_params s).outcome = Outcome.null_dereference := by
  unfold fit_finish
  simp only [interrupt_check_none run 0 (hchk 0 (by decide)),
    interrupt_check_none run 1 (hchk 1 (by decide)),
    interrupt_check_none run 2 (hchk 2 (by decide)), hth, Bool.false_eq_true, if_false, hfit,
    if_true, himp]

/-- C28 (the code at the failing input): `fit_iforest` is called with `imputer = NULL`
and `impute_at_fit = true` on four rows, three trees, no interrupt. No tree build raises,
and the call reaches line 630, where `*imputer` is evaluated. The same holds of every call
with these two arguments that passes the configuration checks, captures no exception and
reads the interrupt switch as unset at the three checks before line 630. -/
theorem missing_imputer_is_dereferenced :
    ({ test_fit_args (.single test_forest) none 3 2 with impute_at_fit := true } : FitArgs).imputer
        = none ∧
      (fit_iforest (test_env none) (test_run (fun _ => false))
        { test_fit_args (.single test_forest) none 3 2 with impute_at_fit := true }).outcome
        = Outcome.null_dereference ∧
      (fit_iforest (test_env none) (test_run (fun _ => false))
        { test_fit_args (.single test_forest) none 3 2 with impute_at_fit := true }).trace.length
        = 3 ∧
      ∀ (env : Env) (run : Run) (a : FitArgs),
        ¬(a.prob_pick_by_gain_avg < 0 ∨ a.prob_pick_by_gain_pl < 0) →
        ¬(a.ndim = 0 ∧ a.model.is_single = false) →
        a.imputer = none → a.impute_at_fit = true →
        (fit_grown env run a).threw_exception = false →
        (∀ k, k < 3 → run.interrupt_at_check k = false) →
        (fit_iforest env run a).outcome = Outcome.null_dereference := by
  refine ⟨rfl, by decide!, by decide!, fun env run a h1 h2 himp hfit hth hchk => ?_⟩
  obtain ⟨heq, -, -, hsome⟩ := fit_iforest_accepted env run a h1 h2
  rw [heq]
  refine fit_finish_null_imputer env run a _ _ _ ?_ ?_ hth hchk
  · rw [himp] at hsome
    cases hi : (fit_grown env run a).imputer with
    | none => rfl
    | some i => rw [hi] at hsome; cases hsome
  · unfold fit_model_params
    exact hfit

/-- What an `add_tree` call leaves of a field of the model object that is changed neither
by appending or removing a tree, nor by writing a tree slot, nor by the update of
`has_range_penalty`. -/
theorem add_tree_model_const {α : Type} (g : Model → α)
    (h1 : ∀ m : Model, g m.emplace_back = g m) (h2 : ∀ m : Model, g m.pop_back = g m)
    (h3 : ∀ (m : Model) t s, g (m.set_slot t s) = g m)
    (h4 : ∀ (m : Model) p, g (m.or_range_penalty p) = g m)
    (env : Env) (faults : AllocFaults) (a : AddTreeArgs) :
    g (add_tree env faults a).model = g a.model := by
  have hfin : ∀ imp b, g (add_tree_finish faults a imp b).model = g a.model := by
    intro imp b
    have hm2 : g (a.model.emplace_back.set_back b.slot) = g a.model := by
      unfold Model.set_back
      rw [h3, h1]
    unfold add_tree_finish
    simp only
    cases b.raised with
    | some e =>
      simp only [add_tree_rollback]
      rw [h2, hm2]
    | none =>
      cases faults.tree_shrink with
      | some t =>
        simp only [add_tree_rollback]
        rw [h2, hm2]
      | none =>
        cases imp with
        | none =>
          simp only [Option.map_none']
          rw [h4, hm2]
        | some i =>
          cases faults.imputer_shrink with
          | some t =>
            simp only [Option.map_some', add_tree_rollback]
            rw [h2, h4, hm2]
          | none =>
            simp only [Option.map_some']
            rw [h4, hm2]
  unfold add_tree
  split
  · rfl
  · split
    · rfl
    · unfold add_tree_try
      cases hf : faults.tree_emplace with
      | some tag => rfl
      | none =>
        cases hi : a.imputer with
        | none => exact hfin _ _
        | some i =>
          cases hie : faults.imputer_emplace with
          | some tag =>
            simp only [add_tree_rollback]
            rw [h2, h1]
          | none => exact hfin _ _

/-- C29: whatever the arguments and however the call ends, `add_tree` leaves
`exp_avg_depth`, `exp_avg_sep`, `orig_sample_size`, `new_cat_action`, `cat_split_type` and
`missing_action` of the model object as they were, and the object is of the same kind. -/
theorem add_tree_keeps_forest_constants (env : Env) (faults : AllocFaults) (a : AddTreeArgs) :
    (add_tree env faults a).model.exp_avg_depth = a.model.exp_avg_depth ∧
      (add_tree env faults a).model.exp_avg_sep = a.model.exp_avg_sep ∧
      (add_tree env faults a).model.orig_sample_size = a.model.orig_sample_size ∧
      (add_tree env faults a).model.new_cat_action = a.model.new_cat_action ∧
      (add_tree env faults a).model.cat_split_type = a.model.cat_split_type ∧
      (add_tree env faults a).model.missing_action = a.model.missing_action ∧
      (add_tree env faults a).model.is_single = a.model.is_single := by
  refine ⟨?_, ?_, ?_, ?_, ?_, ?_, ?_⟩
  · exact add_tree_model_const Model.exp_avg_depth (fun m => by cases m <;> rfl)
      (fun m => by cases m <;> rfl) (fun m t s => by cases m <;> cases s <;> rfl)
      (fun m p => by cases m <;> rfl) env faults a
  · exact add_tree_model_const Model.exp_avg_sep (fun m => by cases m <;> rfl)
      (fun m => by cases m <;> rfl) (fun m t s => by cases m <;> cases s <;> rfl)
      (fun m p => by cases m <;> rfl) env faults a
  · exact add_tree_model_const Model.orig_sample_size (fun m => by cases m <;> rfl)
      (fun m => by cases m <;> rfl) (fun m t s => by cases m <;> cases s <;> rfl)
      (fun m p => by cases m <;> rfl) env faults a
  · exact add_tree_model_const Model.new_cat_action (fun m => by cases m <;> rfl)
      (fun m => by cases m <;> rfl) (fun m t s => by cases m <;> cases s <;> rfl)
      (fun m p => by cases m <;> rfl) env faults a
  · exact add_tree_model_const Model.cat_split_type (fun m => by cases m <;> rfl)
      (fun m => by cases m <;> rfl) (fun m t s => by cases m <;> cases s <;> rfl)
      (fun m p => by cases m <;> rfl) env faults a
  · exact add_tree_model_const Model.missing_action (fun m => by cases m <;> rfl)
      (fun m => by cases m <;> rfl) (fun m t s => by cases m <;> cases s <;> rfl)
      (fun m p => by cases m <;> rfl) env faults a
  · exact add_tree_model_const Model.is_single (fun m => by cases m <;> rfl)
      (fun m => by cases m <;> rfl) (fun m t s => by cases m <;> cases s <;> rfl)
      (fun m p => by cases m <;> rfl) env faults a

/-! ### The model parameters of add_tree -/

theorem add_tree_reaches_build (env : Env) (faults : AllocFaults) (a : AddTreeArgs)
    (c : BuildCall) (hcall : (add_tree env faults a).calls = [c]) :
    add_tree env faults a =
      add_tree_finish faults a (a.imputer.map Imputer.emplace_back)
        (fit_itree env a.model.emplace_back.back {} (add_tree_input_data a)
          (add_tree_model_params a)
          ((a.imputer.map Imputer.emplace_back).map (fun i => i.imputer_tree.getLastD []))
          a.model.ntrees) :=
  (add_tree_of_calls env faults a c hcall).1

/-- C30: whatever the arguments, `add_tree` fills its model parameters with
`sample_size = nrows`, `with_replacement = false`, `ntrees = 1` and no distance, depth or
imputation at fit, and its input data with `weight_as_sample = false` and no sampling
tree; a call that invokes `fit_itree` invokes it with these; with them the row sampler is
called for rows without replacement and without weights, on `nrows` rows, and the density-weight
block takes the supplied weights as density weights whenever weights are supplied. -/
theorem add_tree_fixed_model_params (a : AddTreeArgs) :
    (add_tree_model_params a).sample_size = a.nrows ∧
      (add_tree_model_params a).with_replacement = false ∧
      (add_tree_model_params a).ntrees = 1 ∧
      (add_tree_model_params a).calc_dist = false ∧
      (add_tree_model_params a).calc_depth = false ∧
      (add_tree_model_params a).impute_at_fit = false ∧
      (add_tree_input_data a).weight_as_sample = false ∧
      (add_tree_input_data a).sample_weights = a.sample_weights ∧
      (add_tree_input_data a).nrows = a.nrows ∧
      (add_tree_input_data a).log2_n = 0 ∧
      (∀ (env : Env) (faults : AllocFaults) (c : BuildCall),
        (add_tree env faults a).calls = [c] →
        add_tree env faults a =
          add_tree_finish faults a (a.imputer.map Imputer.emplace_back)
            (fit_itree env a.model.emplace_back.back {} (add_tree_input_data a)
              (add_tree_model_params a)
              ((a.imputer.map Imputer.emplace_back).map (fun i => i.imputer_tree.getLastD []))
              a.model.ntrees)) ∧
      (∀ (env : Env) (ws : WorkerMemory),
        fit_itree_sample env ws (add_tree_input_data a) (add_tree_model_params a) =
          match env.sample_random_rows ws.ix_arr a.nrows false ws.rnd_generator ws.ix_all none
              ws.btree_weights 0 0 ws.is_repeated with
          | .error tag => .error (Failure.escaped tag)
          | .ok o =>
            .ok { ws with
                  ix_arr := o.ix_arr, rnd_generator := o.rnd_generator, ix_all := o.ix_all,
                  btree_weights := o.btree_weights, is_repeated := o.is_repeated,
                  st := 0, end_ := sub64 a.nrows 1 }) ∧
      (∀ (ws : WorkerMemory) (tree_num : Nat),
        (fit_itree_begin ws (add_tree_input_data a) (add_tree_model_params a)
          tree_num).btree_weights = ws.btree_weights) ∧
      (∀ (is_tree : Bool) (ws : WorkerMemory),
        (fit_itree_density_weights is_tree ws (add_tree_input_data a)
          (add_tree_model_params a)).changed_weights = a.sample_weights.isSome) := by
  refine ⟨rfl, rfl, rfl, rfl, rfl, rfl, rfl, rfl, rfl, rfl,
    fun env faults c hc => add_tree_reaches_build env faults a c hc, fun env ws => rfl,
    fun ws tree_num => ?_, fun is_tree ws => ?_⟩
  · unfold fit_itree_begin
    simp only [apply_ite WorkerMemory.btree_weights, ite_self]
    rw [if_neg (by simp [add_tree_input_data])]
  · unfold fit_itree_density_weights
    have h1 : (add_tree_input_data a).sample_weights = a.sample_weights := rfl
    have h2 : (add_tree_input_data a).weight_as_sample = false := rfl
    rw [h1]
    cases a.sample_weights with
    | none =>
      simp only [apply_ite WorkerMemory.changed_weights, ite_self]
      rfl
    | some sw =>
      simp only [h2, Bool.false_eq_true, if_false, apply_ite WorkerMemory.changed_weights,
        ite_self]
      rfl

end Isotree
